import Mathlib

/-!
# network-config-manager: primitive parsers and the network-file serializer

A shallow embedding of `src/share/parse-util.c` and of the serializer in
`src/manager/network.c`, with the properties of the specification proved (or
refuted) on it.

Modelling conventions

* A C string (`const char *`) is a Lean `String`; a nullable pointer is an
  `Option`.  A C string holds no NUL character.
* Machine integers are `Int`/`Nat`; a store into a narrower unsigned object is
  written with an explicit `% 2^w`.
* A function with an output parameter `*val` takes the old contents of the
  object and returns the pair (return value, new contents).
* `GString` is a `String`; `g_string_append` is `++`.
-/

namespace NCM

/-! ## errno values (`<errno.h>`, Linux) -/

/-- The errno value `EINVAL`. -/
def EINVAL : Int := 22

/-- The errno value `ERANGE`. -/
def ERANGE : Int := 34

/-- The errno value `EEXIST`. -/
def EEXIST : Int := 17

/-! ## string-util -/

/-- Modelled from the spec: `string_equal` of `string-util.h` is missing from the
sources; it is the exact (case-sensitive) comparison of two C strings. -/
def string_equal (a b : String) : Bool := a == b

/-- Modelled from the spec: `string_equal_fold` of `string-util.h` is missing from
the sources; the spec describes it as the case-insensitive comparison, which for
C strings folds the ASCII letters only (`Char.toLower` maps `A`..`Z` to `a`..`z`
and leaves every other character alone). -/
def string_equal_fold (a b : String) : Bool :=
  a.toList.map Char.toLower == b.toList.map Char.toLower

/-! ## parse-util.c -/

/-- Embedding of `parse_boolean` (parse-util.c:105-117); `none` is the NULL pointer. -/
def parse_boolean (v : Option String) : Int :=
  match v with
  | none => -EINVAL
  | some v =>
    if string_equal v "1" || string_equal_fold v "yes" || string_equal_fold v "y" ||
       string_equal_fold v "true" || string_equal_fold v "t" || string_equal_fold v "on" then
      1
    else if string_equal v "0" || string_equal_fold v "no" || string_equal_fold v "n" ||
            string_equal_fold v "false" || string_equal_fold v "f" || string_equal_fold v "off" then
      0
    else
      -EINVAL

/-! ### `strtol` (ISO C, `<stdlib.h>`) with base 0, `long` of 64 bits -/

/-- The constant `LONG_MAX` of an LP64 target. -/
def LONG_MAX : Int := 2 ^ 63 - 1

/-- The constant `LONG_MIN` of an LP64 target. -/
def LONG_MIN : Int := -(2 ^ 63)

/-- The constant `INT_MAX`. -/
def INT_MAX : Int := 2 ^ 31 - 1

/-- The constant `INT_MIN`. -/
def INT_MIN : Int := -(2 ^ 31)

/-- The C-locale `isspace`: space, `\t`, `\n`, `\v`, `\f`, `\r`. -/
def isspace (c : Char) : Bool :=
  c == ' ' || c == '\t' || c == '\n' || c == '\x0b' || c == '\x0c' || c == '\r'

/-- Value of a character read as a digit: `0`..`9`, then the letters of either
case for 10..35. -/
def digit_value (c : Char) : Option Nat :=
  if 48 ≤ c.toNat ∧ c.toNat ≤ 57 then some (c.toNat - 48)
  else if 97 ≤ c.toNat ∧ c.toNat ≤ 122 then some (c.toNat - 87)
  else if 65 ≤ c.toNat ∧ c.toNat ≤ 90 then some (c.toNat - 55)
  else none

/-- Whether a character is a digit of the given base. -/
def is_digit_of (base : Nat) (c : Char) : Bool :=
  match digit_value c with
  | some d => decide (d < base)
  | none => false

/-- Value of a digit sequence in the given base, most significant digit first. -/
def digits_value (base : Nat) (ds : List Char) : Nat :=
  ds.foldl (fun acc d => acc * base + (digit_value d).getD 0) 0

/-- What a call `strtol(nptr, &endptr, 0)` leaves behind: the returned `long`,
the offset `endptr - nptr`, and whether `errno` was set to `ERANGE`. -/
structure StrtolResult where
  value : Int
  endptr : Nat
  erange : Bool
  deriving DecidableEq

/-- The subject sequence of `strtol` with base 0, after white space and sign: a
`0x`/`0X` prefix selects base 16, another leading `0` base 8, anything else base
10, and the longest run of digits of that base is converted.  The result is the
magnitude and the number of characters consumed; 0 characters when there is no
digit, except that for `0x` not followed by a hexadecimal digit the `0` alone
is converted. -/
def strtol_subject (s : List Char) : Nat × Nat :=
  let hex : Bool := s.head? == some '0' && (s.tail.head? == some 'x' || s.tail.head? == some 'X')
  let base : Nat := if hex then 16 else if s.head? == some '0' then 8 else 10
  let nprefix : Nat := if hex then 2 else 0
  let digits := (s.drop nprefix).takeWhile (is_digit_of base)
  if digits.isEmpty then
    if hex then (0, 1) else (0, 0)
  else
    (digits_value base digits, nprefix + digits.length)

/-- The library call `strtol(nptr, &endptr, 0)`: white space is skipped, one sign
is accepted, then the subject sequence is converted.  Without a conversion the
result is 0 and `endptr = nptr`.  A value out of the range of `long` is clamped
and sets `errno` to `ERANGE`. -/
def strtol (nptr : List Char) : StrtolResult :=
  let nspace := (nptr.takeWhile isspace).length
  let s := nptr.dropWhile isspace
  let negative : Bool := s.head? == some '-'
  let nsign : Nat := if s.head? == some '-' || s.head? == some '+' then 1 else 0
  let (v, consumed) := strtol_subject (s.drop nsign)
  if consumed == 0 then
    ⟨0, 0, false⟩
  else
    let endptr := nspace + nsign + consumed
    if negative then
      if v > 2 ^ 63 then ⟨LONG_MIN, endptr, true⟩ else ⟨-(v : Int), endptr, false⟩
    else
      if v > 2 ^ 63 - 1 then ⟨LONG_MAX, endptr, true⟩ else ⟨(v : Int), endptr, false⟩

/-- Embedding of `parse_integer` (parse-util.c:13-31).  `val` is the old content of
`*val`, `errno` the value of `errno` at the call (the code does not clear it);
the result is the return value and the new content of `*val`. -/
def parse_integer (c : String) (val : Int) (errno : Int) : Int × Int :=
  let st := strtol c.toList
  let errno := if st.erange then ERANGE else errno
  -- `!p || p == c || *p`: `p` is never NULL, `*p` is the character at `endptr`
  if st.endptr == 0 || decide (st.endptr < c.toList.length) then
    (-1, val)
  else if (st.value == LONG_MAX || st.value == LONG_MIN) && errno == ERANGE then
    (-ERANGE, val)
  else if decide (st.value < INT_MIN) || decide (st.value > INT_MAX) then
    (-ERANGE, val)
  else
    (0, st.value)

/-- Embedding of `parse_uint32` (parse-util.c:33-51); the store `*val = r` into an
`unsigned` object reduces `r` modulo `2^32`. -/
def parse_uint32 (c : String) (val : Nat) (errno : Int) : Int × Nat :=
  let st := strtol c.toList
  let errno := if st.erange then ERANGE else errno
  if st.endptr == 0 || decide (st.endptr < c.toList.length) then
    (-1, val)
  else if (st.value == LONG_MAX || st.value == LONG_MIN) && errno == ERANGE then
    (-ERANGE, val)
  else if decide (st.value < INT_MIN) || decide (st.value > INT_MAX) then
    (-ERANGE, val)
  else
    (0, (st.value % 2 ^ 32).toNat)

/-- Embedding of `parse_uint16` (parse-util.c:53-71); the store `*val = r` into a
`uint16_t` object reduces `r` modulo `2^16`. -/
def parse_uint16 (c : String) (val : Nat) (errno : Int) : Int × Nat :=
  let st := strtol c.toList
  let errno := if st.erange then ERANGE else errno
  if st.endptr == 0 || decide (st.endptr < c.toList.length) then
    (-1, val)
  else if (st.value == LONG_MAX || st.value == LONG_MIN) && errno == ERANGE then
    (-ERANGE, val)
  else if decide (st.value > 0xffff) then
    (-ERANGE, val)
  else
    (0, (st.value % 2 ^ 16).toNat)


/-! ## network.c: name tables -/

/-- Modelled from the spec: the enumeration `DHCPMode` that network.c indexes its
table with is not declared in the sources; network.h declares the same four
members, in this order and with the invalid value `-EINVAL`, under the names
`DHCP_CLIENT_*`. -/
def DHCP_MODE_NO : Int := 0

/-- Second member of `DHCPMode`, see `DHCP_MODE_NO`. -/
def DHCP_MODE_YES : Int := 1

/-- Third member of `DHCPMode`, see `DHCP_MODE_NO`. -/
def DHCP_MODE_IPV4 : Int := 2

/-- Fourth member of `DHCPMode`, see `DHCP_MODE_NO`. -/
def DHCP_MODE_IPV6 : Int := 3

/-- The invalid member of `DHCPMode`, see `DHCP_MODE_NO`. -/
def _DHCP_MODE_INVALID : Int := -EINVAL

/-- The invalid member of `DHCPClientIdentifier` (network.h:27). -/
def _DHCP_CLIENT_IDENTIFIER_INVALID : Int := -EINVAL

/-- The invalid member of `LinkLocalAddress` (network.h:47). -/
def _LINK_LOCAL_ADDRESS_INVALID : Int := -EINVAL

/-- The member `PARSER_TYPE_YAML` of `ParserType` (network.h:181). -/
def PARSER_TYPE_YAML : Int := 0

/-- The member `PARSER_TYPE_DRACUT` of `ParserType` (network.h:182). -/
def PARSER_TYPE_DRACUT : Int := 1

/-- The invalid member of `ParserType` (network.h:184). -/
def _PARSER_TYPE_INVALID : Int := -EINVAL

/-- The address family `AF_INET` of `<sys/socket.h>`. -/
def AF_INET : Int := 2

/-- The table `dhcp_modes` (network.c:24-29), indexed by `DHCPMode`. -/
def dhcp_modes : List String := ["no", "yes", "ipv4", "ipv6"]

/-- Lookup in a name table the way every `*_to_name` function of network.c does
it: `"n/a"` for a negative id, NULL past the end of the table. -/
def table_to_name (table : List String) (id : Int) : Option String :=
  if id < 0 then some "n/a"
  else if id.toNat ≥ table.length then none
  else table[id.toNat]?

/-- Embedding of `dhcp_modes_to_name` (network.c:31-39). -/
def dhcp_modes_to_name (id : Int) : Option String := table_to_name dhcp_modes id

/-- The table `dhcp_client_identifier` (network.c:53-57). -/
def dhcp_client_identifier : List String := ["mac", "duid", "duid-ony"]

/-- Embedding of `dhcp_client_identifier_to_name` (network.c:59-67). -/
def dhcp_client_identifier_to_name (id : Int) : Option String :=
  table_to_name dhcp_client_identifier id

/-- The table `link_local_address_type` (network.c:110-117). -/
def link_local_address_type : List String :=
  ["yes", "no", "ipv4", "ipv6", "fallback", "ipv4-fallback"]

/-- Embedding of `link_local_address_type_to_name` (network.c:119-127). -/
def link_local_address_type_to_name (id : Int) : Option String :=
  table_to_name link_local_address_type id

/-- Modelled from the spec: `bool_to_string` of `string-util.h` is missing from the
sources; boolean rendering is always the literal tokens `yes` and `no`, and an
`int` passed for the `bool` parameter is true when it is not zero. -/
def bool_to_string (x : Int) : String := if x ≠ 0 then "yes" else "no"

/-! ## network.c: the record -/

/-- Modelled from the spec: `network-address.h` is missing from the sources; an
address has a family, the address bytes and a prefix length, and (yaml parser)
an optional label and lifetime. -/
structure IPAddress where
  family : Int
  bytes : List Nat
  prefix_len : Nat
  label : Option String
  lifetime : Option String
  deriving DecidableEq

/-- Modelled from the spec: `set.h` is missing from the sources; a `Set` of strings
is a hash table without duplicate members, held here as the list of its members
in the order in which `set_foreach` visits them. -/
structure Set where
  keys : List String
  deriving DecidableEq

/-- Modelled from the spec: `set_size` of the missing `set.h`, the number of members. -/
def set_size (s : Set) : Nat := s.keys.length

/-- Modelled from the spec: `set_foreach` of the missing `set.h`, which calls
`func(key, value, user_data)` once for each member. -/
def set_foreach {σ : Type} (s : Set) (func : String → σ → σ) (user_data : σ) : σ :=
  s.keys.foldl (fun acc key => func key acc) user_data

/-- The struct `WIFIAuthentication` (network.h:228-239). -/
structure WIFIAuthentication where
  key_management : Int
  eap_method : Int
  identity : Option String
  anonymous_identity : Option String
  password : Option String
  ca_certificate : Option String
  client_certificate : Option String
  client_key : Option String
  client_key_password : Option String
  deriving DecidableEq

/-- The struct `WiFiAccessPoint` (network.h:241-245). -/
structure WiFiAccessPoint where
  ssid : Option String
  auth : WIFIAuthentication
  deriving DecidableEq

/-- Modelled from the spec: `network-route.h` is missing from the sources; network.c
reads the two addresses `destination` and `gw` of a route. -/
structure Route where
  destination : IPAddress
  gw : IPAddress
  deriving DecidableEq

/-- Modelled from the spec: `IfNameIndex` is missing from the sources; an interface
by index and name. -/
structure IfNameIndex where
  ifindex : Nat
  ifname : Option String
  deriving DecidableEq

/-- The struct `RoutingPolicyRule` (network.h:187-207); `to_` and `from_` are the
members `to` and `from`, `uid_range` the two bounds of `struct fib_rule_uid_range`. -/
structure RoutingPolicyRule where
  to_ : IPAddress
  from_ : IPAddress
  oif : IfNameIndex
  iif : IfNameIndex
  invert : Bool
  ipproto : Option String
  sport : Option String
  dport : Option String
  tos : Nat
  type : Nat
  fwmark : Nat
  table : Nat
  priority : Nat
  uid_range : Nat × Nat
  deriving DecidableEq

/-- Modelled from the spec: `netdev-link.h` is missing from the sources; of the
record `NetDevLink` the yaml parser writes `parser_type` itself, every other
member is written by a converter of the link table and is kept here by
field locator. -/
structure NetDevLink where
  parser_type : Int
  members : List (String × String)
  deriving DecidableEq

/-- The struct `Network` as network.c uses it: the fields that `network_new`,
`generate_network_config` and `generate_wifi_config` read or write, followed by
the members of network.h that yaml-network-parser.c writes itself
(`routing_policy_rules`, `link`, `modified`).  A tri-state is an `int` with `-1`
for unset; a hash table is the list of its values in iteration order, `none` for
a NULL pointer.  The yaml parser adds `IPAddress` records to the set `addresses`
to which network.c adds C strings: the members that are records are kept in
`address_records` (GLib fixes no order between the members of a set). -/
structure Network where
  ifname : Option String
  mac : Option String
  match_mac : Option String
  hostname : Option String
  parser_type : Int
  dhcp_type : Int
  dhcp_client_identifier_type : Int
  link_local : Int
  mtu : Nat
  use_mtu : Int
  use_dns : Int
  use_domains : Int
  lldp : Int
  ipv6_accept_ra : Int
  gateway : Option IPAddress
  gateway_onlink : Int
  addresses : Option Set
  nameservers : Option Set
  ntps : Option Set
  access_points : Option (List WiFiAccessPoint)
  routes : Option (List Route)
  routing_policy_rules : Option (List RoutingPolicyRule)
  link : Option NetDevLink
  modified : Bool
  address_records : List IPAddress
  deriving DecidableEq

/-- Functions of the repository that network.c calls and the sources do not
contain: the name table of the command-line path (`dracut-parser.c`) and the
address helpers (`network-address.c`).  A `none` result is a NULL string. -/
structure Externals where
  dracut_to_networkd_dhcp_mode_to_name : Int → Option String
  ip_is_null : IPAddress → Bool
  ip_to_string : Int → IPAddress → Option String
  ip_to_string_prefix : Int → IPAddress → Option String

/-- Embedding of `network_new` (network.c:199-235) when the allocations succeed:
the return value 0 and the new record, zeroed by `new0` apart from the listed
initialisers, with three empty sets. -/
def network_new : Int × Network :=
  (0, { ifname := none, mac := none, match_mac := none, hostname := none,
        parser_type := _PARSER_TYPE_INVALID,
        dhcp_type := _DHCP_MODE_INVALID,
        dhcp_client_identifier_type := _DHCP_CLIENT_IDENTIFIER_INVALID,
        link_local := _LINK_LOCAL_ADDRESS_INVALID,
        mtu := 0,
        use_mtu := -1, use_dns := -1, use_domains := -1,
        lldp := -1, ipv6_accept_ra := -1,
        gateway := none, gateway_onlink := -1,
        addresses := some ⟨[]⟩, nameservers := some ⟨[]⟩, ntps := some ⟨[]⟩,
        access_points := none, routes := none,
        routing_policy_rules := none, link := none, modified := false,
        address_records := [] })

/-! ## network.c: the serializer -/

/-- The conversion `%s` of `printf`: glibc prints `(null)` for a NULL pointer. -/
def fmt_s (s : Option String) : String := s.getD "(null)"

/-- The conversion `%d` of `printf` applied to a 32-bit object: the decimal
numeral of the value read as a signed `int`. -/
def fmt_d (v : Nat) : String :=
  if v % 2 ^ 32 < 2 ^ 31 then toString (v % 2 ^ 32)
  else toString ((v % 2 ^ 32 : Nat) - (2 ^ 32 : Int))

/-- The GLib call `g_string_append`. -/
def g_string_append (config : String) (val : String) : String := config ++ val

/-- Embedding of `append_routes` (network.c:404-423). -/
def append_routes (X : Externals) (route : Route) (config : String) : String :=
  if X.ip_is_null route.destination && X.ip_is_null route.gw then
    config
  else
    let config := g_string_append config "\n[Route]\n"
    let config :=
      if !X.ip_is_null route.destination then
        g_string_append config
          ("Destination=" ++ fmt_s (X.ip_to_string AF_INET route.destination) ++ "\n")
      else config
    let config :=
      if !X.ip_is_null route.gw then
        g_string_append config ("Gateway=" ++ fmt_s (X.ip_to_string AF_INET route.gw) ++ "\n")
      else config
    config

/-- Embedding of `append_nameservers` (network.c:425-429). -/
def append_nameservers (key : String) (config : String) : String :=
  g_string_append config (key ++ " ")

/-- Embedding of `append_ntp` (network.c:431-435). -/
def append_ntp (key : String) (config : String) : String :=
  g_string_append config (key ++ " ")

/-- Embedding of `append_addresses` (network.c:437-442). -/
def append_addresses (key : String) (config : String) : String :=
  let config := g_string_append config "\n[Address]\n"
  g_string_append config ("Address=" ++ key ++ "\n")


/-- The `[Match]` block of `generate_network_config` (network.c:454-461). -/
def generate_match (n : Network) (config : String) : String :=
  let config := g_string_append config "[Match]\n"
  let config :=
    if n.ifname.isSome then g_string_append config ("Name=" ++ fmt_s n.ifname ++ "\n")
    else config
  let config :=
    if n.match_mac.isSome then
      g_string_append config ("MACAddress=" ++ fmt_s n.match_mac ++ "\n")
    else config
  g_string_append config "\n"

/-- The `[Link]` block of `generate_network_config` (network.c:463-473). -/
def generate_link (n : Network) (config : String) : String :=
  if n.mtu > 0 || n.mac.isSome then
    let config := g_string_append config "[Link]\n"
    let config :=
      if n.mtu > 0 then g_string_append config ("MTUBytes=" ++ fmt_d n.mtu ++ "\n")
      else config
    let config :=
      if n.mac.isSome then g_string_append config ("MACAddress=" ++ fmt_s n.mac ++ "\n")
      else config
    g_string_append config "\n"
  else config

/-- The `[Network]` block of `generate_network_config` (network.c:475-503). -/
def generate_network (X : Externals) (n : Network) (config : String) : String :=
  let config := g_string_append config "[Network]\n"
  let config :=
    if n.dhcp_type ≠ _DHCP_MODE_INVALID then
      if n.parser_type = PARSER_TYPE_YAML then
        g_string_append config ("DHCP=" ++ fmt_s (dhcp_modes_to_name n.dhcp_type) ++ "\n")
      else
        g_string_append config
          ("DHCP=" ++ fmt_s (Externals.dracut_to_networkd_dhcp_mode_to_name X n.dhcp_type) ++ "\n")
    else config
  let config :=
    if n.lldp ≠ -1 then g_string_append config ("LLDP=" ++ bool_to_string n.lldp ++ "\n")
    else config
  let config :=
    if n.link_local ≠ _LINK_LOCAL_ADDRESS_INVALID then
      g_string_append config
        ("LinkLocalAddressing=" ++ fmt_s (link_local_address_type_to_name n.link_local) ++ "\n")
    else config
  let config :=
    if n.ipv6_accept_ra ≠ -1 then
      g_string_append config ("IPv6AcceptRA=" ++ bool_to_string n.ipv6_accept_ra ++ "\n")
    else config
  let config :=
    match n.nameservers with
    | some nameservers =>
      if set_size nameservers > 0 then
        let config := g_string_append config "DNS="
        let config := set_foreach nameservers append_nameservers config
        g_string_append config "\n"
      else config
    | none => config
  let config :=
    match n.ntps with
    | some ntps =>
      if set_size ntps > 0 then
        let config := g_string_append config "NTP="
        let config := set_foreach ntps append_ntp config
        g_string_append config "\n"
      else config
    | none => config
  config

/-- The `[DHCP]` block of `generate_network_config` (network.c:505-519). -/
def generate_dhcp (n : Network) (config : String) : String :=
  if n.use_dns ≠ -1 || n.use_domains ≠ -1 || n.use_mtu ≠ -1 ||
      n.dhcp_client_identifier_type ≠ _DHCP_CLIENT_IDENTIFIER_INVALID then
    let config := g_string_append config "\n[DHCP]\n"
    let config :=
      if n.dhcp_client_identifier_type ≠ _DHCP_CLIENT_IDENTIFIER_INVALID then
        g_string_append config
          ("ClientIdentifier=" ++
            fmt_s (dhcp_client_identifier_to_name n.dhcp_client_identifier_type) ++ "\n")
      else config
    let config :=
      if n.use_dns ≠ -1 then
        g_string_append config ("UseDNS=" ++ bool_to_string n.use_dns ++ "\n")
      else config
    let config :=
      if n.use_domains ≠ -1 then
        g_string_append config ("UseDomains=" ++ bool_to_string n.use_domains ++ "\n")
      else config
    let config :=
      if n.use_mtu ≠ -1 then
        g_string_append config ("UseMTU=" ++ bool_to_string n.use_mtu ++ "\n")
      else config
    config
  else config

/-- The address block of `generate_network_config` (network.c:521-522). -/
def generate_addresses (n : Network) (config : String) : String :=
  match n.addresses with
  | some addresses =>
    if set_size addresses > 0 then set_foreach addresses append_addresses config
    else config
  | none => config

/-- The default-gateway block of `generate_network_config` (network.c:524-532). -/
def generate_gateway (X : Externals) (n : Network) (config : String) : String :=
  match n.gateway with
  | some gateway =>
    if !Externals.ip_is_null X gateway then
      let config := g_string_append config "\n[Route]\n"
      let config :=
        g_string_append config
          ("Gateway=" ++ fmt_s (Externals.ip_to_string_prefix X AF_INET gateway) ++ "\n")
      let config :=
        if n.gateway_onlink ≠ -1 then
          g_string_append config ("GatewayOnlink=" ++ bool_to_string n.gateway_onlink ++ "\n")
        else config
      config
    else config
  | none => config

/-- The routes block of `generate_network_config` (network.c:534-535);
`g_hash_table_foreach` calls `append_routes` once for each route. -/
def generate_routes (X : Externals) (n : Network) (config : String) : String :=
  match n.routes with
  | some routes => routes.foldl (fun config route => append_routes X route config) config
  | none => config

/-- Embedding of `generate_network_config` (network.c:444-540), block by block:
the return value and the text stored in `*ret`.  `config` is the `GString`
under construction, empty after `g_string_new(NULL)`. -/
def generate_network_config (X : Externals) (n : Network) : Int × String :=
  let config := ""
  let config := generate_match n config
  let config := generate_link n config
  let config := generate_network X n config
  let config := generate_dhcp n config
  let config := generate_addresses n config
  let config := generate_gateway X n config
  let config := generate_routes X n config
  (0, config)

/-! ## network.c: the WiFi credentials document -/

/-- The member `AUTH_KEY_MANAGEMENT_NONE` of `AuthKeyManagement` (network.h:163). -/
def AUTH_KEY_MANAGEMENT_NONE : Int := 0

/-- The member `AUTH_KEY_MANAGEMENT_WPA_PSK` of `AuthKeyManagement` (network.h:164). -/
def AUTH_KEY_MANAGEMENT_WPA_PSK : Int := 1

/-- The member `AUTH_KEY_MANAGEMENT_WPA_EAP` of `AuthKeyManagement` (network.h:165). -/
def AUTH_KEY_MANAGEMENT_WPA_EAP : Int := 2

/-- The member `AUTH_KEY_MANAGEMENT_8021X` of `AuthKeyManagement` (network.h:166). -/
def AUTH_KEY_MANAGEMENT_8021X : Int := 3

/-- The member `AUTH_EAP_METHOD_NONE` of `AuthEAPMethod` (network.h:172). -/
def AUTH_EAP_METHOD_NONE : Int := 0

/-- The member `AUTH_EAP_METHOD_TLS` of `AuthEAPMethod` (network.h:173). -/
def AUTH_EAP_METHOD_TLS : Int := 1

/-- The member `AUTH_EAP_METHOD_PEAP` of `AuthEAPMethod` (network.h:174). -/
def AUTH_EAP_METHOD_PEAP : Int := 2

/-- The member `AUTH_EAP_METHOD_TTLS` of `AuthEAPMethod` (network.h:175). -/
def AUTH_EAP_METHOD_TTLS : Int := 3

/-- Embedding of `append_wpa_auth_conf` (network.c:307-367); `s` is the `GString`.
A `switch` is the chain of its cases, the `default` case last. -/
def append_wpa_auth_conf (auth : WIFIAuthentication) (s : String) : String :=
  let s :=
    if auth.key_management = AUTH_KEY_MANAGEMENT_NONE then s
    else if auth.key_management = AUTH_KEY_MANAGEMENT_WPA_PSK then
      g_string_append s "        key_mgmt=WPA-PSK\n"
    else if auth.key_management = AUTH_KEY_MANAGEMENT_WPA_EAP then
      g_string_append s "        key_mgmt=WPA-EAP\n"
    else if auth.key_management = AUTH_KEY_MANAGEMENT_8021X then
      g_string_append s "        key_mgmt=IEEE8021X\n"
    else s
  let s :=
    if auth.eap_method = AUTH_EAP_METHOD_NONE then s
    else if auth.eap_method = AUTH_EAP_METHOD_TLS then g_string_append s "        eap=TLS\n"
    else if auth.eap_method = AUTH_EAP_METHOD_PEAP then g_string_append s "        eap=PEAP\n"
    else if auth.eap_method = AUTH_EAP_METHOD_TTLS then g_string_append s "        eap=TTLS\n"
    else s
  let s :=
    if auth.identity.isSome then
      g_string_append s ("        identity=\"" ++ fmt_s auth.identity ++ "\"\n")
    else s
  let s :=
    if auth.anonymous_identity.isSome then
      g_string_append s ("        anonymous_identity=\"" ++ fmt_s auth.anonymous_identity ++ "\"\n")
    else s
  let s :=
    if auth.password.isSome then
      if auth.key_management = AUTH_KEY_MANAGEMENT_WPA_PSK then
        g_string_append s ("        psk=\"" ++ fmt_s auth.password ++ "\"\n")
      else
        g_string_append s ("        password=\"" ++ fmt_s auth.password ++ "\"\n")
    else s
  let s :=
    if auth.ca_certificate.isSome then
      g_string_append s ("        ca_cert=\"" ++ fmt_s auth.ca_certificate ++ "\"\n")
    else s
  let s :=
    if auth.client_certificate.isSome then
      g_string_append s ("        client_cert=\"" ++ fmt_s auth.client_certificate ++ "\"\n")
    else s
  let s :=
    if auth.client_key.isSome then
      g_string_append s ("        private_key=\"" ++ fmt_s auth.client_key ++ "\"\n")
    else s
  let s :=
    if auth.client_key_password.isSome then
      g_string_append s
        ("        private_key_passwd=\"" ++ fmt_s auth.client_key_password ++ "\"\n")
    else s
  s

/-- Embedding of `append_access_points` (network.c:369-379), the callback of
`g_hash_table_foreach`: `value` is the access point, `config` the user data. -/
def append_access_points (value : WiFiAccessPoint) (config : String) : String :=
  let ap := value
  let config := g_string_append config "network=\x7b\n"
  let config := g_string_append config ("        ssid=\"" ++ fmt_s ap.ssid ++ "\"\n")
  let config := append_wpa_auth_conf ap.auth config
  g_string_append config "\x7d\n\n"

/-- Embedding of `generate_wifi_config` (network.c:381-402): the return value and
the text stored in `*ret`.  `g_hash_table_foreach` calls `append_access_points`
once for each access point, and does nothing for a NULL table. -/
def generate_wifi_config (n : Network) : Int × String :=
  let config := ""
  let config :=
    g_string_append config
      ("# WPA Supplicant Configuration\n" ++
       "# this goes in /etc/net-manager/wpa_supplicant.conf on Photon OS\n" ++
       "# chown root, chmod 600 \n\n")
  let config :=
    g_string_append config
      ("# allow frontend (e.g., wpa_cli) to be used by all users in 'wheel' group\n" ++
       "ctrl_interface=DIR=/run/wpa_supplicant GROUP=wheel\n" ++
       "update_config=1\n\n")
  let config :=
    match n.access_points with
    | some access_points =>
      access_points.foldl (fun config value => append_access_points value config) config
    | none => config
  (0, config)

/-! ## libyaml: the nodes of a document -/

/-- A node of a loaded YAML document (`yaml_node_t` of `<yaml.h>`), with the nodes
that its indices name in their place: a scalar with its text, a sequence with
its items, a mapping with its pairs of key and value. -/
inductive yaml_node_t where
  | scalar (value : String)
  | sequence (items : List yaml_node_t)
  | mapping (pairs : List (yaml_node_t × yaml_node_t))

/-- The stack `node->data.sequence.items`, read as the parser reads it, for a node
of any kind.  The member `data` of `yaml_node_t` is a union: the item stack of a
sequence (`int` entries) and the pair stack of a mapping (entries of two `int`,
key and value) lie in the same place, so the items of a mapping are its keys
and values in turn.  For a scalar the place of `start` holds the text pointer
and the place of `top` the style, a small number: the loop body never runs. -/
def sequence_items : yaml_node_t → List yaml_node_t
  | .scalar _ => []
  | .sequence items => items
  | .mapping pairs => pairs.flatMap (fun p => [p.1, p.2])

/-- The items of a sequence taken two at a time, as the pair stack that lies in the
same place: the last item of an odd number of items is the key of a pair whose
value index lies beyond `top`; that index is not initialised and is taken to
name no node (`none`, the NULL result of `yaml_document_get_node`). -/
def items_as_pairs : List yaml_node_t → List (yaml_node_t × Option yaml_node_t)
  | [] => []
  | [k] => [(k, none)]
  | k :: v :: items => (k, some v) :: items_as_pairs items

/-- The stack `node->data.mapping.pairs`, read as the parser reads it, for a node of
any kind (see `sequence_items`): key and value node of each pair. -/
def mapping_pairs : yaml_node_t → List (yaml_node_t × Option yaml_node_t)
  | .scalar _ => []
  | .sequence items => items_as_pairs items
  | .mapping pairs => pairs.map (fun p => (p.1, some p.2))

/-! ## yaml-network-parser.c: WiFi access points -/

/-- The member `CONF_TYPE_WIFI` of `ConfType` (yaml-parser.h:11). -/
def CONF_TYPE_WIFI : Int := 1

/-- The struct `ParserTable` (yaml-parser.h:18-23): the key, the kind of record, the
converter (the name of the function, `none` for a NULL pointer) and the field
that the offset locates (`Struct.field`). -/
structure ParserTable where
  key : String
  type : Int
  parser : Option String
  offset : String
  deriving DecidableEq

/-- The table `parser_wifi_vtable` (yaml-network-parser.c:20-33), without its
terminating NULL entry. -/
def parser_wifi_vtable : List ParserTable :=
  [ ⟨"ssid-name", CONF_TYPE_WIFI, some "parse_yaml_string", "WiFiAccessPoint.ssid"⟩,
    ⟨"password", CONF_TYPE_WIFI, some "parse_yaml_string", "WIFIAuthentication.password"⟩,
    ⟨"key-management", CONF_TYPE_WIFI, some "parse_yaml_auth_key_management_type",
      "WIFIAuthentication.key_management"⟩,
    ⟨"psk", CONF_TYPE_WIFI, some "parse_yaml_auth_key_management_type",
      "WIFIAuthentication.password"⟩,
    ⟨"method", CONF_TYPE_WIFI, some "parse_yaml_auth_eap_method",
      "WIFIAuthentication.eap_method"⟩,
    ⟨"ca-certificate", CONF_TYPE_WIFI, some "parse_yaml_string",
      "WIFIAuthentication.ca_certificate"⟩,
    ⟨"client-certificate", CONF_TYPE_WIFI, some "parse_yaml_string",
      "WIFIAuthentication.client_certificate"⟩,
    ⟨"client-key", CONF_TYPE_WIFI, some "parse_yaml_string", "WIFIAuthentication.client_key"⟩,
    ⟨"client-key-password", CONF_TYPE_WIFI, some "parse_yaml_string",
      "WIFIAuthentication.client_key_password"⟩,
    ⟨"identity", CONF_TYPE_WIFI, some "parse_yaml_string", "WIFIAuthentication.identity"⟩,
    ⟨"anonymous-identity", CONF_TYPE_WIFI, some "parse_yaml_string",
      "WIFIAuthentication.anonymous_identity"⟩ ]

/-- A GLib hash table with string keys (`g_str_hash`, `g_str_equal`): the entries
in iteration order. -/
abbrev GHashTable (β : Type) := List (String × β)

/-- The GLib call `g_hash_table_lookup`: the value stored under the key, NULL when
there is none. -/
def g_hash_table_lookup {β : Type} (hash_table : GHashTable β) (key : String) : Option β :=
  (hash_table.find? (fun e => e.1 == key)).map (fun e => e.2)

/-- The GLib call `g_hash_table_insert`: when the key already exists its value is
replaced with the new value (the old key is kept) and the result is FALSE;
otherwise the entry is added and the result is TRUE. -/
def g_hash_table_insert {β : Type} (hash_table : GHashTable β) (key : String) (value : β) :
    GHashTable β × Bool :=
  if hash_table.any (fun e => e.1 == key) then
    (hash_table.map (fun e => if e.1 == key then (e.1, value) else e), false)
  else
    (hash_table ++ [(key, value)], true)

/-- The lookup tables of the struct `YAMLManager`, each from a key to its table
entry.  The struct is declared in a header that the sources do not contain; the
members are the ones that `yaml_register_network` and the walks read. -/
structure YAMLManager where
  wifi_config : GHashTable ParserTable
  match_config : GHashTable ParserTable
  network_config : GHashTable ParserTable
  dhcp4_config : GHashTable ParserTable
  dhcp6_config : GHashTable ParserTable
  address_config : GHashTable ParserTable
  routing_policy_rule_config : GHashTable ParserTable
  route_config : GHashTable ParserTable
  nameserver_config : GHashTable ParserTable
  link_config : GHashTable ParserTable

/-- The converters of `yaml-parser.c`, which the sources do not contain: what the
converter of the given name, called for a key and a scalar value with the field
locator of the table entry, writes into the authentication record of the
access point it is handed (`convert`); and, for the other walks, what the
converter of the given name, called for a key and the value node (NULL is
`none`) with the field locator of the table entry, returns and writes into the
record it is handed: the network, a route, a routing policy rule or the link
record. -/
structure YamlConverters where
  convert : String → String → String → String → WIFIAuthentication → WIFIAuthentication
  convert_network : String → String → Option yaml_node_t → String → Network → Int × Network
  convert_route : String → String → Option yaml_node_t → String → Route → Int × Route
  convert_rule : String → String → Option yaml_node_t → String → RoutingPolicyRule →
    Int × RoutingPolicyRule
  convert_link : String → String → Option yaml_node_t → String → NetDevLink → Int × NetDevLink

/-- The state that `parse_wifi_access_points_config` works on: the access points
allocated so far, by address; the table `network->access_points`, which maps an
SSID to the address of its access point (`none` for a NULL table); and the
file-level variable `wifi_access_point` (`none` for NULL). -/
structure WifiState where
  heap : List WiFiAccessPoint
  access_points : Option (GHashTable Nat)
  wifi_access_point : Option Nat
  deriving DecidableEq

/-- The access point that `new0(WiFiAccessPoint, 1)` and `new0(WIFIAuthentication, 1)`
create, with the SSID stored: every other field is zero. -/
def wifi_access_point_new (ssid : String) : WiFiAccessPoint :=
  { ssid := some ssid,
    auth := { key_management := 0, eap_method := 0, identity := none,
              anonymous_identity := none, password := none, ca_certificate := none,
              client_certificate := none, client_key := none, client_key_password := none } }

/-- Embedding of `parse_wifi_access_points_config` (yaml-network-parser.c:126-171)
on the pairs (scalar key, scalar value) of the mapping node: the return value
and the state after the walk, or `none` when the walk dereferences the NULL
`wifi_access_point`.  Allocation failures are left out. -/
def parse_wifi_access_points_config (C : YamlConverters) (m : YAMLManager) :
    List (String × String) → WifiState → Option (Int × WifiState)
  | [], st => some (0, st)
  | (key, value) :: entries, st =>
    if string_equal key "ssid-name" then
      let address := st.heap.length
      let st := { st with heap := st.heap ++ [wifi_access_point_new value],
                          wifi_access_point := some address }
      let access_points := st.access_points.getD []
      let inserted := g_hash_table_insert access_points value address
      let st := { st with access_points := some inserted.1 }
      if !inserted.2 then
        some (0, st)
      else
        parse_wifi_access_points_config C m entries st
    else
      match g_hash_table_lookup m.wifi_config key with
      | none => parse_wifi_access_points_config C m entries st
      | some p =>
        match st.wifi_access_point with
        | none => none
        | some address =>
          match p.parser with
          | none => parse_wifi_access_points_config C m entries st
          | some parser =>
            let written := fun (ap : WiFiAccessPoint) =>
              { ap with auth := YamlConverters.convert C parser key value p.offset ap.auth }
            let st := { st with heap := List.modify written address st.heap }
            parse_wifi_access_points_config C m entries st

/-- The access point stored under an SSID in the table of a state. -/
def access_point_of (st : WifiState) (ssid : String) : Option WiFiAccessPoint :=
  match g_hash_table_lookup (st.access_points.getD []) ssid with
  | some address => st.heap[address]?
  | none => none

/-- The manager after `yaml_register_network`, as far as the WiFi walk reads it:
each entry of `parser_wifi_vtable` under its key. -/
def wifi_manager : YAMLManager :=
  { wifi_config := parser_wifi_vtable.map (fun p => (p.key, p)),
    match_config := [], network_config := [], dhcp4_config := [], dhcp6_config := [],
    address_config := [], routing_policy_rule_config := [], route_config := [],
    nameserver_config := [], link_config := [] }

/-- The state before the first walk: nothing allocated, a NULL table and a NULL
`wifi_access_point`. -/
def wifi_state_new : WifiState :=
  { heap := [], access_points := none, wifi_access_point := none }

/-! ## yaml-network-parser.c: the tables -/

/-- The member `CONF_TYPE_NETWORK` of `ConfType` (yaml-parser.h:10). -/
def CONF_TYPE_NETWORK : Int := 0

/-- The member `CONF_TYPE_ROUTE` of `ConfType` (yaml-parser.h:12). -/
def CONF_TYPE_ROUTE : Int := 2

/-- The member `CONF_TYPE_ROUTING_POLICY_RULE` of `ConfType`, which the tables use
and the enum of yaml-parser.h in the sources does not declare; no walk reads
the member `type` of an entry.  The value stands for the undeclared member. -/
def CONF_TYPE_ROUTING_POLICY_RULE : Int := 4

/-- The table `parser_match_vtable` (yaml-network-parser.c:35-40). -/
def parser_match_vtable : List ParserTable :=
  [ ⟨"name", CONF_TYPE_NETWORK, some "parse_yaml_string", "Network.ifname"⟩,
    ⟨"driver", CONF_TYPE_NETWORK, some "parse_yaml_scalar_or_sequence", "Network.driver"⟩,
    ⟨"macaddress", CONF_TYPE_NETWORK, some "parse_yaml_mac_address", "Network.match_mac"⟩ ]

/-- The table `parser_network_vtable` (yaml-network-parser.c:42-66). -/
def parser_network_vtable : List ParserTable :=
  [ ⟨"unmanaged", CONF_TYPE_NETWORK, some "parse_yaml_bool", "Network.unmanaged"⟩,
    ⟨"mtu", CONF_TYPE_NETWORK, some "parse_yaml_uint32", "Network.mtu"⟩,
    ⟨"arp", CONF_TYPE_NETWORK, some "parse_yaml_bool", "Network.arp"⟩,
    ⟨"multicast", CONF_TYPE_NETWORK, some "parse_yaml_bool", "Network.multicast"⟩,
    ⟨"allmulticast", CONF_TYPE_NETWORK, some "parse_yaml_bool", "Network.all_multicast"⟩,
    ⟨"promiscuous", CONF_TYPE_NETWORK, some "parse_yaml_bool", "Network.promiscuous"⟩,
    ⟨"required-for-online", CONF_TYPE_NETWORK, some "parse_yaml_bool",
      "Network.req_for_online"⟩,
    ⟨"required-family-for-online", CONF_TYPE_NETWORK, some "parse_yaml_rf_online",
      "Network.req_family_for_online"⟩,
    ⟨"activation-mode", CONF_TYPE_NETWORK, some "parse_yaml_activation_policy",
      "Network.activation_policy"⟩,
    ⟨"macaddress", CONF_TYPE_NETWORK, some "parse_yaml_mac_address", "Network.mac"⟩,
    ⟨"dhcp", CONF_TYPE_NETWORK, some "parse_yaml_dhcp_type", "Network.dhcp_type"⟩,
    ⟨"dhcp4", CONF_TYPE_NETWORK, some "parse_yaml_dhcp_type", "Network.dhcp4"⟩,
    ⟨"dhcp6", CONF_TYPE_NETWORK, some "parse_yaml_dhcp_type", "Network.dhcp6"⟩,
    ⟨"dhcp-identifier", CONF_TYPE_NETWORK, some "parse_yaml_dhcp_client_identifier",
      "Network.dhcp_client_identifier_type"⟩,
    ⟨"lldp", CONF_TYPE_NETWORK, some "parse_yaml_bool", "Network.lldp"⟩,
    ⟨"emit-lldp", CONF_TYPE_NETWORK, some "parse_yaml_bool", "Network.emit_lldp"⟩,
    ⟨"accept-ra", CONF_TYPE_NETWORK, some "parse_yaml_bool", "Network.ipv6_accept_ra"⟩,
    ⟨"link-local", CONF_TYPE_NETWORK, some "parse_yaml_link_local_type", "Network.link_local"⟩,
    ⟨"ipv6-address-generation", CONF_TYPE_NETWORK,
      some "parse_yaml_ipv6_address_generation_mode", "Network.ipv6_address_generation"⟩,
    ⟨"ipv6-privacy", CONF_TYPE_NETWORK, some "parse_yaml_ipv6_privacy_extensions",
      "Network.ipv6_privacy"⟩,
    ⟨"ipv6-mtu", CONF_TYPE_NETWORK, some "parse_yaml_uint32", "Network.ipv6_mtu"⟩,
    ⟨"ntp", CONF_TYPE_NETWORK, some "parse_yaml_addresses", "Network.ntps"⟩ ]

/-- The table `parser_dhcp4_overrides_vtable` (yaml-network-parser.c:68-79). -/
def parser_dhcp4_overrides_vtable : List ParserTable :=
  [ ⟨"use-dns", CONF_TYPE_NETWORK, some "parse_yaml_bool", "Network.dhcp4_use_dns"⟩,
    ⟨"use-domain", CONF_TYPE_NETWORK, some "parse_yaml_bool", "Network.dhcp4_use_domains"⟩,
    ⟨"use-ntp", CONF_TYPE_NETWORK, some "parse_yaml_bool", "Network.dhcp4_use_ntp"⟩,
    ⟨"use-mtu", CONF_TYPE_NETWORK, some "parse_yaml_bool", "Network.dhcp4_use_mtu"⟩,
    ⟨"use-routes", CONF_TYPE_NETWORK, some "parse_yaml_bool", "Network.dhcp4_use_routes"⟩,
    ⟨"use-hostname", CONF_TYPE_NETWORK, some "parse_yaml_bool", "Network.dhcp4_use_hostname"⟩,
    ⟨"send-hostname", CONF_TYPE_NETWORK, some "parse_yaml_bool",
      "Network.dhcp4_send_hostname"⟩,
    ⟨"route-metric", CONF_TYPE_NETWORK, some "parse_yaml_uint32",
      "Network.dhcp4_route_metric"⟩,
    ⟨"hostname", CONF_TYPE_NETWORK, some "parse_yaml_string", "Network.dhcp4_hostname"⟩ ]

/-- The table `parser_dhcp6_overrides_vtable` (yaml-network-parser.c:81-88). -/
def parser_dhcp6_overrides_vtable : List ParserTable :=
  [ ⟨"use-dns", CONF_TYPE_NETWORK, some "parse_yaml_bool", "Network.dhcp6_use_dns"⟩,
    ⟨"use-domain", CONF_TYPE_NETWORK, some "parse_yaml_bool", "Network.dhcp6_use_domains"⟩,
    ⟨"use-ntp", CONF_TYPE_NETWORK, some "parse_yaml_bool", "Network.dhcp6_use_ntp"⟩,
    ⟨"use-address", CONF_TYPE_NETWORK, some "parse_yaml_bool", "Network.dhcp6_use_address"⟩,
    ⟨"use-hostname", CONF_TYPE_NETWORK, some "parse_yaml_bool",
      "Network.dhcp6_use_hostname"⟩ ]

/-- The table `parser_address_vtable` (yaml-network-parser.c:90-94). -/
def parser_address_vtable : List ParserTable :=
  [ ⟨"label", CONF_TYPE_NETWORK, some "parse_yaml_addresses", "Network.addresses"⟩,
    ⟨"addresses", CONF_TYPE_NETWORK, some "parse_yaml_addresses", "Network.addresses"⟩ ]

/-- The table `parser_nameservers_vtable` (yaml-network-parser.c:96-100). -/
def parser_nameservers_vtable : List ParserTable :=
  [ ⟨"search", CONF_TYPE_NETWORK, some "parse_yaml_domains", "Network.domains"⟩,
    ⟨"addresses", CONF_TYPE_NETWORK, some "parse_yaml_nameserver_addresses",
      "Network.nameservers"⟩ ]

/-- The table `parser_route_vtable` (yaml-network-parser.c:102-114). -/
def parser_route_vtable : List ParserTable :=
  [ ⟨"via", CONF_TYPE_ROUTE, some "parse_yaml_route", "Route.gw"⟩,
    ⟨"to", CONF_TYPE_ROUTE, some "parse_yaml_route", "Route.dst"⟩,
    ⟨"from", CONF_TYPE_ROUTE, some "parse_yaml_address", "Route.prefsrc"⟩,
    ⟨"table", CONF_TYPE_ROUTE, some "parse_yaml_uint32", "Route.table"⟩,
    ⟨"type", CONF_TYPE_ROUTE, some "parse_yaml_route_type", "Route.type"⟩,
    ⟨"scope", CONF_TYPE_ROUTE, some "parse_yaml_route_scope", "Route.scope"⟩,
    ⟨"metric", CONF_TYPE_ROUTE, some "parse_yaml_uint32", "Route.metric"⟩,
    ⟨"on-link", CONF_TYPE_ROUTE, some "parse_yaml_bool", "Route.onlink"⟩,
    ⟨"congestion-window", CONF_TYPE_ROUTE, some "parse_yaml_uint32", "Route.initcwnd"⟩,
    ⟨"advertised-receive-window", CONF_TYPE_ROUTE, some "parse_yaml_uint32",
      "Route.initrwnd"⟩ ]

/-- The table `parser_routing_policy_rule_vtable` (yaml-network-parser.c:116-124). -/
def parser_routing_policy_rule_vtable : List ParserTable :=
  [ ⟨"from", CONF_TYPE_ROUTING_POLICY_RULE, some "parse_yaml_address",
      "RoutingPolicyRule.from"⟩,
    ⟨"to", CONF_TYPE_ROUTING_POLICY_RULE, some "parse_yaml_address", "RoutingPolicyRule.to"⟩,
    ⟨"table", CONF_TYPE_ROUTING_POLICY_RULE, some "parse_yaml_uint32",
      "RoutingPolicyRule.table"⟩,
    ⟨"priority", CONF_TYPE_ROUTING_POLICY_RULE, some "parse_yaml_uint32",
      "RoutingPolicyRule.priority"⟩,
    ⟨"type-of-service", CONF_TYPE_ROUTING_POLICY_RULE, some "parse_yaml_uint32",
      "RoutingPolicyRule.tos"⟩,
    ⟨"mark", CONF_TYPE_ROUTING_POLICY_RULE, some "parse_yaml_uint32",
      "RoutingPolicyRule.fwmark"⟩ ]

/-- The lookup table that the registration loop of `yaml_register_network` builds
from a table: each entry under its key, in the order of the table. -/
def registered (table : List ParserTable) : GHashTable ParserTable :=
  table.foldl (fun config p => (g_hash_table_insert config p.key p).1) []

/-- The manager after `yaml_register_network` (yaml-network-parser.c:517-593) on
empty lookup tables; the link table is registered by code that the sources do
not contain and is a parameter. -/
def yaml_manager (link_config : GHashTable ParserTable) : YAMLManager :=
  { wifi_config := registered parser_wifi_vtable,
    match_config := registered parser_match_vtable,
    network_config := registered parser_network_vtable,
    dhcp4_config := registered parser_dhcp4_overrides_vtable,
    dhcp6_config := registered parser_dhcp6_overrides_vtable,
    address_config := registered parser_address_vtable,
    routing_policy_rule_config := registered parser_routing_policy_rule_vtable,
    route_config := registered parser_route_vtable,
    nameserver_config := registered parser_nameservers_vtable,
    link_config := link_config }
/-! ## Functions that the parsers call and the sources do not contain -/

/-- The `errno` value `ENOMEM`. -/
def ENOMEM : Int := 12

/-- Functions and choices that network.c and yaml-network-parser.c rely on and the
sources do not contain.  `scalar_other` is the text that the macro `scalar`
yields for a node that is no scalar (the bytes of its stack) and for NULL;
`parse_ip_from_string` gives the return value and the address record that it
allocates; `route_new`, `routing_policy_rule_new` and `netdev_link_new` give the
new record; `route_equal` and `routing_policy_rule_equal` are the key equality
of the tables `routes` and `routing_policy_rules`, which the code that creates
the tables fixes (it answers whether a stored key equals a new record). -/
structure ParserExternals where
  scalar_other : Option yaml_node_t → String
  parse_ip_from_string : String → Int × IPAddress
  route_new : Route
  routing_policy_rule_new : RoutingPolicyRule
  netdev_link_new : NetDevLink
  route_equal : Route → Route → Bool
  routing_policy_rule_equal : RoutingPolicyRule → RoutingPolicyRule → Bool

/-- The macro `scalar`, which the sources do not contain: the text of a scalar node. -/
def scalar (Y : ParserExternals) : Option yaml_node_t → String
  | some (.scalar value) => value
  | node => Y.scalar_other node

/-- Modelled from the spec: `set_contains` of the missing `set.h`, whether the text
is a member of the set. -/
def set_contains (s : Set) (key : String) : Bool := s.keys.contains key

/-- Modelled from the spec: `set_add` of the missing `set.h`; a set holds no
duplicate members, a new member comes last in the order of `set_foreach`. -/
def set_add (s : Set) (key : String) : Set :=
  if s.keys.contains key then s else ⟨s.keys ++ [key]⟩

/-- Modelled from the spec: `set_add` of the missing `set.h` for a member that is an
address record. -/
def set_add_record (records : List IPAddress) (address : IPAddress) : List IPAddress :=
  if records.contains address then records else records ++ [address]

/-- Modelled from the spec: `log_oom` of the missing `log.h` returns `-ENOMEM`. -/
def log_oom : Int := -ENOMEM

/-- The GLib call `g_hash_table_insert(table, key, key)` on a table of records that
are their own keys, `none` for a NULL table: on a NULL table the result is
FALSE; when a stored key equals the new one the stored key is kept, its value
is replaced with the new record and the result is FALSE; otherwise the record
is added and the result is TRUE. -/
def g_hash_table_insert_record {α : Type} (equal : α → α → Bool) (hash_table : Option (List α))
    (key : α) : Option (List α) × Bool :=
  match hash_table with
  | none => (none, false)
  | some table =>
    if table.any (fun e => equal e key) then
      (some (table.map (fun e => if equal e key then key else e)), false)
    else
      (some (table ++ [key]), true)

/-! ## network.c: adding an address literal to a set -/

/-- Embedding of `parse_address_from_string_and_add` (network.c:285-305): the return
value and the set afterwards.  The allocation failure of `g_strdup` is left
out. -/
def parse_address_from_string_and_add (Y : ParserExternals) (s : String) (a : Set) : Int × Set :=
  if set_contains a s then
    (-EEXIST, a)
  else
    let r := (ParserExternals.parse_ip_from_string Y s).1
    if r < 0 then
      (r, a)
    else
      (0, set_add a s)

/-! ## yaml-network-parser.c: the walks -/

/-- The body of the loop of `parse_config` (yaml-network-parser.c:376-392) for one
pair: the record afterwards. -/
def parse_config_entry (C : YamlConverters) (Y : ParserExternals) (config : GHashTable ParserTable)
    (network : Network) (p : yaml_node_t × Option yaml_node_t) : Network :=
  let k := p.1
  let v := p.2
  match g_hash_table_lookup config (scalar Y (some k)) with
  | none => network
  | some table =>
    match table.parser with
    | some parser =>
      let network :=
        (YamlConverters.convert_network C parser (scalar Y (some k)) v table.offset network).2
      { network with modified := true }
    | none => network

/-- Embedding of `parse_config` (yaml-network-parser.c:368-395): the return value
and the record afterwards. -/
def parse_config (C : YamlConverters) (Y : ParserExternals) (config : GHashTable ParserTable)
    (node : yaml_node_t) (network : Network) : Int × Network :=
  let network := (mapping_pairs node).foldl (parse_config_entry C Y config) network
  (0, network)

/-- The body of the second loop of `parse_route` (yaml-network-parser.c:192-217) for
one pair: the route `rt` (`none` for NULL) and the record afterwards.  The key
node of a pair is never NULL, so the test `!k && !v` never holds; the
allocation failure of `route_new` is left out. -/
def parse_route_entry (C : YamlConverters) (Y : ParserExternals) (config : GHashTable ParserTable)
    (st : Option Route × Network) (p : yaml_node_t × Option yaml_node_t) :
    Option Route × Network :=
  let rt := st.1
  let network := st.2
  let k := p.1
  let v := p.2
  match g_hash_table_lookup config (scalar Y (some k)) with
  | none => (rt, network)
  | some table =>
    let rt := match rt with
      | none => ParserExternals.route_new Y
      | some rt => rt
    match table.parser with
    | some parser =>
      (some (YamlConverters.convert_route C parser (scalar Y (some k)) v table.offset rt).2,
        { network with modified := true })
    | none => (some rt, network)

/-- The second loop of `parse_route` and the insertion that follows it
(yaml-network-parser.c:192-229), on the pairs of the node: the return value and
the record afterwards. -/
def parse_route_mapping (C : YamlConverters) (Y : ParserExternals)
    (config : GHashTable ParserTable) (pairs : List (yaml_node_t × Option yaml_node_t))
    (network : Network) : Int × Network :=
  let st := pairs.foldl (parse_route_entry C Y config) (none, network)
  let network := st.2
  match st.1 with
  | some rt =>
    let inserted := g_hash_table_insert_record (ParserExternals.route_equal Y) network.routes rt
    let network := { network with routes := inserted.1 }
    if !inserted.2 then
      (-EINVAL, network)
    else
      (0, { network with modified := true })
  | none => (0, network)

mutual
/-- Embedding of `parse_route` (yaml-network-parser.c:173-229): the return value and
the record afterwards.  The first loop walks the items of the node, whatever
its kind, and drops the return values; the second loop reads its pairs. -/
def parse_route (C : YamlConverters) (Y : ParserExternals) (config : GHashTable ParserTable) :
    yaml_node_t → Network → Int × Network
  | .scalar value, network =>
    parse_route_mapping C Y config (mapping_pairs (.scalar value)) network
  | .sequence items, network =>
    parse_route_mapping C Y config (mapping_pairs (.sequence items))
      (parse_route_sequence C Y config items network)
  | .mapping pairs, network =>
    parse_route_mapping C Y config (mapping_pairs (.mapping pairs))
      (parse_route_children C Y config pairs network)
/-- The first loop of `parse_route` over the items of a sequence. -/
def parse_route_sequence (C : YamlConverters) (Y : ParserExternals)
    (config : GHashTable ParserTable) : List yaml_node_t → Network → Network
  | [], network => network
  | n :: items, network =>
    parse_route_sequence C Y config items (parse_route C Y config n network).2
/-- The first loop of `parse_route` over the items of a mapping, its keys and values
in turn. -/
def parse_route_children (C : YamlConverters) (Y : ParserExternals)
    (config : GHashTable ParserTable) : List (yaml_node_t × yaml_node_t) → Network → Network
  | [], network => network
  | (k, v) :: pairs, network =>
    parse_route_children C Y config pairs
      (parse_route C Y config v (parse_route C Y config k network).2).2
end

/-- The body of the second loop of `parse_routing_policy_rule_config`
(yaml-network-parser.c:330-355) for one pair: the rule (`none` for NULL) and the
record afterwards.  The key node of a pair is never NULL, so the test
`!k && !v` never holds; the allocation failure of `routing_policy_rule_new` is
left out. -/
def parse_routing_policy_rule_entry (C : YamlConverters) (Y : ParserExternals)
    (config : GHashTable ParserTable) (st : Option RoutingPolicyRule × Network)
    (p : yaml_node_t × Option yaml_node_t) : Option RoutingPolicyRule × Network :=
  let rule := st.1
  let network := st.2
  let k := p.1
  let v := p.2
  match g_hash_table_lookup config (scalar Y (some k)) with
  | none => (rule, network)
  | some table =>
    let rule := match rule with
      | none => ParserExternals.routing_policy_rule_new Y
      | some rule => rule
    match table.parser with
    | some parser =>
      (some (YamlConverters.convert_rule C parser (scalar Y (some k)) v table.offset rule).2,
        { network with modified := true })
    | none => (some rule, network)

/-- The second loop of `parse_routing_policy_rule_config` and the insertion that
follows it (yaml-network-parser.c:330-366), on the pairs of the node. -/
def parse_routing_policy_rule_mapping (C : YamlConverters) (Y : ParserExternals)
    (config : GHashTable ParserTable) (pairs : List (yaml_node_t × Option yaml_node_t))
    (network : Network) : Int × Network :=
  let st := pairs.foldl (parse_routing_policy_rule_entry C Y config) (none, network)
  let network := st.2
  match st.1 with
  | some rule =>
    let inserted := g_hash_table_insert_record (ParserExternals.routing_policy_rule_equal Y)
      network.routing_policy_rules rule
    let network := { network with routing_policy_rules := inserted.1 }
    if !inserted.2 then
      (-EINVAL, network)
    else
      (0, { network with modified := true })
  | none => (0, network)

mutual
/-- Embedding of `parse_routing_policy_rule_config` (yaml-network-parser.c:311-366):
the return value and the record afterwards. -/
def parse_routing_policy_rule_config (C : YamlConverters) (Y : ParserExternals)
    (config : GHashTable ParserTable) : yaml_node_t → Network → Int × Network
  | .scalar value, network =>
    parse_routing_policy_rule_mapping C Y config (mapping_pairs (.scalar value)) network
  | .sequence items, network =>
    parse_routing_policy_rule_mapping C Y config (mapping_pairs (.sequence items))
      (parse_routing_policy_rule_sequence C Y config items network)
  | .mapping pairs, network =>
    parse_routing_policy_rule_mapping C Y config (mapping_pairs (.mapping pairs))
      (parse_routing_policy_rule_children C Y config pairs network)
/-- The first loop of `parse_routing_policy_rule_config` over the items of a
sequence. -/
def parse_routing_policy_rule_sequence (C : YamlConverters) (Y : ParserExternals)
    (config : GHashTable ParserTable) : List yaml_node_t → Network → Network
  | [], network => network
  | n :: items, network =>
    parse_routing_policy_rule_sequence C Y config items
      (parse_routing_policy_rule_config C Y config n network).2
/-- The first loop of `parse_routing_policy_rule_config` over the items of a
mapping, its keys and values in turn. -/
def parse_routing_policy_rule_children (C : YamlConverters) (Y : ParserExternals)
    (config : GHashTable ParserTable) : List (yaml_node_t × yaml_node_t) → Network → Network
  | [], network => network
  | (k, v) :: pairs, network =>
    parse_routing_policy_rule_children C Y config pairs
      (parse_routing_policy_rule_config C Y config v
        (parse_routing_policy_rule_config C Y config k network).2).2
end
/-- The address record that `new0(IPAddress, 1)` creates: every member zero. -/
def ip_address_new0 : IPAddress :=
  { family := 0, bytes := [], prefix_len := 0, label := none, lifetime := none }

/-- The second loop of `parse_address` and the hand-over that follows it
(yaml-network-parser.c:251-309), on the pairs of the node: `a` is the local
descriptor, `addr` the descriptor `*addr` of the caller (`none` for NULL).  The
result is the return value, the record afterwards and `*addr` afterwards, or
`none` when the walk stores a label or lifetime through the NULL pointer `a`.
The key node of a pair is never NULL, so the test `!k && !v` never holds;
allocation failures are left out. -/
def parse_address_mapping (Y : ParserExternals) :
    List (yaml_node_t × Option yaml_node_t) → Option IPAddress → Network → Option IPAddress →
      Option (Int × Network × Option IPAddress)
  | [], a, network, addr =>
    match a with
    | some a => some (0, network, some a)
    | none => some (0, network, addr)
  | (k, v) :: pairs, a, network, addr =>
    let a := if a.isNone && addr.isNone then some ip_address_new0 else a
    if string_equal (scalar Y (some k)) "lifetime" then
      match a with
      | none => none
      | some a =>
        parse_address_mapping Y pairs (some { a with lifetime := some (scalar Y v) }) network addr
    else if string_equal (scalar Y (some k)) "label" then
      match a with
      | none => none
      | some a =>
        parse_address_mapping Y pairs (some { a with label := some (scalar Y v) }) network addr
    else
      let parsed := ParserExternals.parse_ip_from_string Y (scalar Y (some k))
      if parsed.1 < 0 then
        some (parsed.1, network, addr)
      else
        let address := parsed.2
        let address := match addr with
          | some pending =>
            let address := match pending.label with
              | some label => { address with label := some label }
              | none => address
            match pending.lifetime with
            | some lifetime => { address with lifetime := some lifetime }
            | none => address
          | none => address
        let addr : Option IPAddress := none
        let network :=
          if network.addresses.isSome then
            { network with address_records := set_add_record network.address_records address }
          else network
        let network := { network with modified := true }
        let network := match v with
          | some v =>
            { network with
              addresses := network.addresses.map
                (fun set => (parse_address_from_string_and_add Y (scalar Y (some v)) set).2) }
          | none => network
        parse_address_mapping Y pairs a network addr

mutual
/-- Embedding of `parse_address` (yaml-network-parser.c:231-309): the return value,
the record afterwards and `*addr` afterwards, or `none` when the walk stores
through a NULL pointer.  The first loop walks the items of the node, whatever
its kind, and drops the return values; the second loop reads its pairs.  The
parameter `m` is not read. -/
def parse_address (Y : ParserExternals) :
    yaml_node_t → Network → Option IPAddress → Option (Int × Network × Option IPAddress)
  | .scalar value, network, addr =>
    parse_address_mapping Y (mapping_pairs (.scalar value)) none network addr
  | .sequence items, network, addr =>
    match parse_address_sequence Y items network addr with
    | none => none
    | some st => parse_address_mapping Y (mapping_pairs (.sequence items)) none st.1 st.2
  | .mapping pairs, network, addr =>
    match parse_address_children Y pairs network addr with
    | none => none
    | some st => parse_address_mapping Y (mapping_pairs (.mapping pairs)) none st.1 st.2
/-- The first loop of `parse_address` over the items of a sequence. -/
def parse_address_sequence (Y : ParserExternals) :
    List yaml_node_t → Network → Option IPAddress → Option (Network × Option IPAddress)
  | [], network, addr => some (network, addr)
  | n :: items, network, addr =>
    match parse_address Y n network addr with
    | none => none
    | some r => parse_address_sequence Y items r.2.1 r.2.2
/-- The first loop of `parse_address` over the items of a mapping, its keys and
values in turn. -/
def parse_address_children (Y : ParserExternals) :
    List (yaml_node_t × yaml_node_t) → Network → Option IPAddress →
      Option (Network × Option IPAddress)
  | [], network, addr => some (network, addr)
  | (k, v) :: pairs, network, addr =>
    match parse_address Y k network addr with
    | none => none
    | some r =>
      match parse_address Y v r.2.1 r.2.2 with
      | none => none
      | some r => parse_address_children Y pairs r.2.1 r.2.2
end

/-- The body of the loop of `parse_network_config` (yaml-network-parser.c:407-476)
for one pair of key `k` and value `v` (`none` for NULL); `nested` is the call
`parse_network_config(m, dp, v, network)` of the last branch.  The result is
`none` when a walk is entered with a NULL node (its `assert` fails) or stores
through a NULL pointer; otherwise a negative value with which the function
returns, or 0 to go on with the next pair, and the record afterwards. -/
def parse_network_entry (C : YamlConverters) (Y : ParserExternals) (m : YAMLManager)
    (k : yaml_node_t) (v : Option yaml_node_t) (nested : Network → Option (Int × Network))
    (network : Network) : Option (Int × Network) :=
  let key := scalar Y (some k)
  match g_hash_table_lookup m.network_config key with
  | none =>
    let walked : Option (Int × Network) :=
      match v with
      | none => none
      | some node =>
        if string_equal key "match" then
          some (parse_config C Y m.match_config node network)
        else if string_equal key "dhcp4-overrides" then
          some (parse_config C Y m.dhcp4_config node network)
        else if string_equal key "dhcp6-overrides" then
          some (parse_config C Y m.dhcp6_config node network)
        else if string_equal key "addresses" then
          (parse_address Y node network none).map (fun r => (r.1, r.2.1))
        else if string_equal key "routes" then
          some (parse_route C Y m.route_config node network)
        else if string_equal key "routing-policy" then
          some (parse_routing_policy_rule_config C Y m.routing_policy_rule_config node network)
        else if string_equal key "nameservers" then
          some (parse_config C Y m.nameserver_config node network)
        else
          nested network
    match walked with
    | none => none
    | some (r, network) =>
      if r < 0 then
        some (r, network)
      else
        match g_hash_table_lookup m.link_config key with
        | some link_table =>
          let link := match network.link with
            | none => { ParserExternals.netdev_link_new Y with parser_type := PARSER_TYPE_YAML }
            | some link => link
          let link := match link_table.parser with
            | some parser =>
              (YamlConverters.convert_link C parser key v link_table.offset link).2
            | none => link
          some (0, { network with link := some link })
        | none => some (0, network)
  | some table =>
    match table.parser with
    | some parser =>
      let network := (YamlConverters.convert_network C parser key v table.offset network).2
      some (0, { network with modified := true })
    | none => some (0, network)

mutual
/-- Embedding of `parse_network_config` (yaml-network-parser.c:397-479): the return
value and the record afterwards, `none` when the walk fails an `assert` or
stores through a NULL pointer.  The loop reads the pairs of the node, whatever
its kind. -/
def parse_network_config (C : YamlConverters) (Y : ParserExternals) (m : YAMLManager) :
    yaml_node_t → Network → Option (Int × Network)
  | .scalar _, network => some (0, network)
  | .sequence items, network => parse_network_items C Y m items network
  | .mapping pairs, network => parse_network_pairs C Y m pairs network
/-- The loop of `parse_network_config` over the pairs of a mapping. -/
def parse_network_pairs (C : YamlConverters) (Y : ParserExternals) (m : YAMLManager) :
    List (yaml_node_t × yaml_node_t) → Network → Option (Int × Network)
  | [], network => some (0, network)
  | (k, v) :: pairs, network =>
    match parse_network_entry C Y m k (some v) (parse_network_config C Y m v) network with
    | none => none
    | some r => if r.1 < 0 then some r else parse_network_pairs C Y m pairs r.2
/-- The loop of `parse_network_config` over the items of a sequence, read two at a
time as pairs (see `items_as_pairs`). -/
def parse_network_items (C : YamlConverters) (Y : ParserExternals) (m : YAMLManager) :
    List yaml_node_t → Network → Option (Int × Network)
  | [], network => some (0, network)
  | [k], network =>
    match parse_network_entry C Y m k none (fun _ => none) network with
    | none => none
    | some r => if r.1 < 0 then some r else some (0, r.2)
  | k :: v :: items, network =>
    match parse_network_entry C Y m k (some v) (parse_network_config C Y m v) network with
    | none => none
    | some r => if r.1 < 0 then some r else parse_network_items C Y m items r.2
end

/-- The collection `Networks` that `parse_ethernet_config` fills, declared in a
header that the sources do not contain: the table `networks` from an interface
name to its record. -/
structure Networks where
  networks : GHashTable Network

/-- The loop of `parse_ethernet_config` (yaml-network-parser.c:491-512) over the
pairs of the node: the return value and the collection afterwards, `none` when
the walk of a value fails an `assert` or stores through a NULL pointer, or when
the name under which the record is to be stored is NULL.  The return value of
the walk of a value is dropped; when the name is already a key of the table the
insertion replaces the stored record and the function returns `log_oom()`.
Allocation failures are left out. -/
def parse_ethernet_entries (C : YamlConverters) (Y : ParserExternals) (m : YAMLManager) :
    List (yaml_node_t × Option yaml_node_t) → Networks → Option (Int × Networks)
  | [], nets => some (0, nets)
  | (k, v) :: pairs, nets =>
    let net := network_new.2
    let net := { net with parser_type := PARSER_TYPE_YAML }
    let net := { net with ifname := some (scalar Y (some k)) }
    let walked : Option Network := match v with
      | some n => (parse_network_config C Y m n net).map (fun r => r.2)
      | none => some net
    match walked with
    | none => none
    | some net =>
      match net.ifname with
      | none => none
      | some ifname =>
        let inserted := g_hash_table_insert nets.networks ifname net
        let nets := { nets with networks := inserted.1 }
        if !inserted.2 then
          some (log_oom, nets)
        else
          parse_ethernet_entries C Y m pairs nets

/-- Embedding of `parse_ethernet_config` (yaml-network-parser.c:481-515). -/
def parse_ethernet_config (C : YamlConverters) (Y : ParserExternals) (m : YAMLManager)
    (node : yaml_node_t) (nets : Networks) : Option (Int × Networks) :=
  parse_ethernet_entries C Y m (mapping_pairs node) nets

/-! ## network.c: names to enumeration members -/

/-- The member `DHCP_CLIENT_IDENTIFIER_MAC` of `DHCPClientIdentifier` (network.h:23). -/
def DHCP_CLIENT_IDENTIFIER_MAC : Int := 0

/-- The member `DHCP_CLIENT_IDENTIFIER_DUID` of `DHCPClientIdentifier` (network.h:24). -/
def DHCP_CLIENT_IDENTIFIER_DUID : Int := 1

/-- The member `DHCP_CLIENT_IDENTIFIER_DUID_ONLY` of `DHCPClientIdentifier`
(network.h:25). -/
def DHCP_CLIENT_IDENTIFIER_DUID_ONLY : Int := 2

/-- The invalid member of `DHCPClientDUIDType` (network.h:36). -/
def _DHCP_CLIENT_DUID_TYPE_INVALID : Int := -EINVAL

/-- The invalid member of `AuthKeyManagement` (network.h:168). -/
def _AUTH_KEY_MANAGEMENT_INVALID : Int := -EINVAL

/-- The invalid member of `AuthEAPMethod` (network.h:177). -/
def _AUTH_EAP_METHOD_INVALID : Int := -EINVAL

/-- The loop of every `*_to_mode` function of network.c, entered at index `i` with
the members of the table from `i` on still to compare: the first member that
`string_equal_fold` accepts gives its index, the end of the table gives the
invalid member. -/
def table_to_mode_from (name : String) (invalid : Int) : List String → Int → Int
  | [], _ => invalid
  | t :: rest, i =>
    if string_equal_fold name t then i else table_to_mode_from name invalid rest (i + 1)

/-- Lookup of a name in a name table the way every `*_to_mode` function of network.c
does it: the loop starts at the first member, which is 0 in each enumeration. -/
def table_to_mode (table : List String) (name : String) (invalid : Int) : Int :=
  table_to_mode_from name invalid table 0

/-- Embedding of `dhcp_name_to_mode` (network.c:41-51). -/
def dhcp_name_to_mode (name : String) : Int :=
  table_to_mode dhcp_modes name _DHCP_MODE_INVALID

/-- Embedding of `dhcp_client_identifier_to_mode` (network.c:69-79). -/
def dhcp_client_identifier_to_mode (name : String) : Int :=
  table_to_mode dhcp_client_identifier name _DHCP_CLIENT_IDENTIFIER_INVALID

/-- The table `dhcp_client_duid_type` (network.c:81-86). -/
def dhcp_client_duid_type : List String := ["link-layer-time", "vendor", "link-layer", "uuid"]

/-- Embedding of `dhcp_client_duid_type_to_name` (network.c:88-96). -/
def dhcp_client_duid_type_to_name (id : Int) : Option String :=
  table_to_name dhcp_client_duid_type id

/-- Embedding of `dhcp_client_duid_type_to_mode` (network.c:98-108). -/
def dhcp_client_duid_type_to_mode (name : String) : Int :=
  table_to_mode dhcp_client_duid_type name _DHCP_CLIENT_DUID_TYPE_INVALID

/-- Embedding of `link_local_address_type_to_mode` (network.c:129-139). -/
def link_local_address_type_to_mode (name : String) : Int :=
  table_to_mode link_local_address_type name _LINK_LOCAL_ADDRESS_INVALID

/-- The table `auth_key_management_type` (network.c:141-146). -/
def auth_key_management_type : List String := ["password", "psk", "eap", "8021x"]

/-- Embedding of `auth_key_management_type_to_name` (network.c:148-156). -/
def auth_key_management_type_to_name (id : Int) : Option String :=
  table_to_name auth_key_management_type id

/-- Embedding of `auth_key_management_type_to_mode` (network.c:158-168). -/
def auth_key_management_type_to_mode (name : String) : Int :=
  table_to_mode auth_key_management_type name _AUTH_KEY_MANAGEMENT_INVALID

/-- The table `auth_eap_method_type` (network.c:170-175). -/
def auth_eap_method_type : List String := ["none", "tls", "peap", "ttls"]

/-- Embedding of `auth_eap_method_to_name` (network.c:177-185). -/
def auth_eap_method_to_name (id : Int) : Option String :=
  table_to_name auth_eap_method_type id

/-- Embedding of `auth_eap_method_to_mode` (network.c:187-197). -/
def auth_eap_method_to_mode (name : String) : Int :=
  table_to_mode auth_eap_method_type name _AUTH_EAP_METHOD_INVALID

/-! ## parse-util.c: the queue count -/

/-- Embedding of `parse_link_queue` (parse-util.c:90-103): the pair is the returned
`bool` and the contents of `*ret` afterwards; `v` starts uninitialised, which
`parse_uint32` leaves as it is when it fails, modelled by the parameter `v`. -/
def parse_link_queue (c : String) (ret : Nat) (v : Nat) (errno : Int) : Bool × Nat :=
  let (r, v) := parse_uint32 c v errno
  if decide (r < 0) || decide (v > 4096) then (false, ret)
  else (true, v)

/-! ## yaml-network-parser.c: registration of the tables -/

/-- One registration loop of `yaml_register_network` over the entries of a table
that are still to insert: an insertion that `g_hash_table_insert` answers with
FALSE ends the function with `-EINVAL` (after the warning), the end of the table
ends the loop.  The result is 0 when the loop ran to its end, and the lookup
table afterwards. -/
def register_table (table : List ParserTable) (config : GHashTable ParserTable) :
    Int × GHashTable ParserTable :=
  match table with
  | [] => (0, config)
  | p :: rest =>
    let r := g_hash_table_insert config p.key p
    if !r.2 then (-EINVAL, r.1)
    else register_table rest r.1

/-- The loop over `parser_match_vtable` (yaml-network-parser.c:529-534). -/
def register_match (m : YAMLManager) : Int × YAMLManager :=
  let r := register_table parser_match_vtable m.match_config
  (r.1, { m with match_config := r.2 })

/-- The loop over `parser_network_vtable` (yaml-network-parser.c:536-541). -/
def register_network (m : YAMLManager) : Int × YAMLManager :=
  let r := register_table parser_network_vtable m.network_config
  (r.1, { m with network_config := r.2 })

/-- The loop over `parser_dhcp4_overrides_vtable` (yaml-network-parser.c:543-548). -/
def register_dhcp4 (m : YAMLManager) : Int × YAMLManager :=
  let r := register_table parser_dhcp4_overrides_vtable m.dhcp4_config
  (r.1, { m with dhcp4_config := r.2 })

/-- The loop over `parser_dhcp6_overrides_vtable` (yaml-network-parser.c:550-555). -/
def register_dhcp6 (m : YAMLManager) : Int × YAMLManager :=
  let r := register_table parser_dhcp6_overrides_vtable m.dhcp6_config
  (r.1, { m with dhcp6_config := r.2 })

/-- The loop over `parser_address_vtable` (yaml-network-parser.c:557-562). -/
def register_address (m : YAMLManager) : Int × YAMLManager :=
  let r := register_table parser_address_vtable m.address_config
  (r.1, { m with address_config := r.2 })

/-- The loop over `parser_routing_policy_rule_vtable`
(yaml-network-parser.c:564-569). -/
def register_routing_policy_rule (m : YAMLManager) : Int × YAMLManager :=
  let r := register_table parser_routing_policy_rule_vtable m.routing_policy_rule_config
  (r.1, { m with routing_policy_rule_config := r.2 })

/-- The loop over `parser_route_vtable` (yaml-network-parser.c:571-576). -/
def register_route (m : YAMLManager) : Int × YAMLManager :=
  let r := register_table parser_route_vtable m.route_config
  (r.1, { m with route_config := r.2 })

/-- The loop over `parser_nameservers_vtable` (yaml-network-parser.c:578-583). -/
def register_nameservers (m : YAMLManager) : Int × YAMLManager :=
  let r := register_table parser_nameservers_vtable m.nameserver_config
  (r.1, { m with nameserver_config := r.2 })

/-- The loop over `parser_wifi_vtable` (yaml-network-parser.c:585-590). -/
def register_wifi (m : YAMLManager) : Int × YAMLManager :=
  let r := register_table parser_wifi_vtable m.wifi_config
  (r.1, { m with wifi_config := r.2 })

/-- Embedding of `yaml_register_network` (yaml-network-parser.c:517-593): the nine
loops in the order of the code, each returning `-EINVAL` at its first refused
insertion; the result is the return value and the manager afterwards.  The
asserted pointers are non-NULL: every lookup table exists. -/
def yaml_register_network (m : YAMLManager) : Int × YAMLManager :=
  let s := register_match m
  if s.1 < 0 then s else
  let s := register_network s.2
  if s.1 < 0 then s else
  let s := register_dhcp4 s.2
  if s.1 < 0 then s else
  let s := register_dhcp6 s.2
  if s.1 < 0 then s else
  let s := register_address s.2
  if s.1 < 0 then s else
  let s := register_routing_policy_rule s.2
  if s.1 < 0 then s else
  let s := register_route s.2
  if s.1 < 0 then s else
  let s := register_nameservers s.2
  if s.1 < 0 then s else
  let s := register_wifi s.2
  if s.1 < 0 then s else
  (0, s.2)

/-! # Specification-side definitions -/

/-- Two characters that differ at most in the case of an ASCII letter. -/
def same_letter (a b : Char) : Prop :=
  a = b ∨ (65 ≤ a.toNat ∧ a.toNat ≤ 90 ∧ b.toNat = a.toNat + 32) ∨
    (65 ≤ b.toNat ∧ b.toNat ≤ 90 ∧ a.toNat = b.toNat + 32)

/-- Two strings are equal ignoring ASCII letter case: they have the same length and
agree position by position up to the case of ASCII letters. -/
def equals_ignoring_case (a b : String) : Prop :=
  List.Forall₂ same_letter a.toList b.toList

/-- The tokens the boolean parser reads as true. -/
def true_tokens : List String := ["1", "y", "yes", "t", "true", "on"]

/-- The tokens the boolean parser reads as false. -/
def false_tokens : List String := ["0", "n", "no", "f", "false", "off"]


/-- An octal digit, `0`..`7`. -/
def is_octal_digit (c : Char) : Bool := decide (48 ≤ c.toNat ∧ c.toNat ≤ 55)

/-- A hexadecimal digit, `0`..`9`, `a`..`f` or `A`..`F`. -/
def is_hex_digit (c : Char) : Bool :=
  c.isDigit || decide (97 ≤ c.toNat ∧ c.toNat ≤ 102) || decide (65 ≤ c.toNat ∧ c.toNat ≤ 70)

/-- The base-10 value of a string of decimal digits. -/
def decimal_value (ds : List Char) : Nat :=
  ds.foldl (fun n c => 10 * n + (c.toNat - '0'.toNat)) 0

/-- The base-8 value of a string of octal digits. -/
def octal_value (ds : List Char) : Nat :=
  ds.foldl (fun n c => 8 * n + (c.toNat - '0'.toNat)) 0

/-- The value of one hexadecimal digit. -/
def hex_digit_value (c : Char) : Nat :=
  if c.isDigit then c.toNat - '0'.toNat
  else if 97 ≤ c.toNat then c.toNat - 'a'.toNat + 10
  else c.toNat - 'A'.toNat + 10

/-- The base-16 value of a string of hexadecimal digits. -/
def hex_value (ds : List Char) : Nat :=
  ds.foldl (fun n c => 16 * n + hex_digit_value c) 0

/-- The digits of an integer literal, after white space and sign: a decimal
numeral that does not start with `0`, or `0` followed by octal digits, or `0x`
(`0X`) followed by at least one hexadecimal digit. -/
def is_literal_body (b : List Char) : Bool :=
  match b with
  | [] => false
  | d :: ds =>
    if d = '0' then
      match ds with
      | [] => true
      | p :: hs =>
        if p = 'x' ∨ p = 'X' then !hs.isEmpty && hs.all is_hex_digit
        else ds.all is_octal_digit
    else d.isDigit && ds.all Char.isDigit

/-- One complete integer literal: optional white space, an optional sign, the
digits, and nothing after them. -/
def is_integer_literal (c : List Char) : Bool :=
  match c.dropWhile isspace with
  | [] => false
  | x :: t => if x = '-' ∨ x = '+' then is_literal_body t else is_literal_body (x :: t)

/-- A line `key=value` that is present exactly when the value is set. -/
def opt_line (key : String) (value : Option String) : String :=
  match value with
  | some v => key ++ "=" ++ v ++ "\n"
  | none => ""

/-- A line `key=yes` or `key=no` that is present exactly when the tri-state is set
(is not -1). -/
def tri_line (key : String) (value : Int) : String :=
  if value = -1 then "" else key ++ "=" ++ bool_to_string value ++ "\n"

/-- The match section: the header, the name and the MAC address when set, and the
blank line that ends it. -/
def match_section (n : Network) : String :=
  "[Match]\n" ++ opt_line "Name" n.ifname ++ opt_line "MACAddress" n.match_mac ++ "\n"

/-- The link section, present when the MTU is positive or the link MAC is set. -/
def link_section (n : Network) : String :=
  if 0 < n.mtu ∨ n.mac ≠ none then
    "[Link]\n" ++ (if 0 < n.mtu then "MTUBytes=" ++ fmt_d n.mtu ++ "\n" else "") ++
      opt_line "MACAddress" n.mac ++ "\n"
  else ""

/-- The lines of the network section that precede the DNS line: DHCP mode, LLDP,
link-local addressing and router-advertisement acceptance, each when set. -/
def network_lines (X : Externals) (n : Network) : String :=
  (if n.dhcp_type = _DHCP_MODE_INVALID then ""
    else if n.parser_type = PARSER_TYPE_YAML then
      "DHCP=" ++ fmt_s (dhcp_modes_to_name n.dhcp_type) ++ "\n"
    else "DHCP=" ++ fmt_s (Externals.dracut_to_networkd_dhcp_mode_to_name X n.dhcp_type) ++ "\n") ++
  tri_line "LLDP" n.lldp ++
  (if n.link_local = _LINK_LOCAL_ADDRESS_INVALID then ""
    else "LinkLocalAddressing=" ++ fmt_s (link_local_address_type_to_name n.link_local) ++ "\n") ++
  tri_line "IPv6AcceptRA" n.ipv6_accept_ra

/-- A line `key=` followed by every member of the set, each followed by one
space; no line for an empty or absent set. -/
def list_line (key : String) (s : Option Set) : String :=
  match s with
  | some s =>
    if s.keys = [] then "" else key ++ "=" ++ String.join (s.keys.map (fun k => k ++ " ")) ++ "\n"
  | none => ""

/-- The DHCP section, present when one of its four fields is set. -/
def dhcp_section (n : Network) : String :=
  if n.use_dns ≠ -1 ∨ n.use_domains ≠ -1 ∨ n.use_mtu ≠ -1 ∨
      n.dhcp_client_identifier_type ≠ _DHCP_CLIENT_IDENTIFIER_INVALID then
    "\n[DHCP]\n" ++
      (if n.dhcp_client_identifier_type = _DHCP_CLIENT_IDENTIFIER_INVALID then ""
        else "ClientIdentifier=" ++
          fmt_s (dhcp_client_identifier_to_name n.dhcp_client_identifier_type) ++ "\n") ++
      tri_line "UseDNS" n.use_dns ++ tri_line "UseDomains" n.use_domains ++
      tri_line "UseMTU" n.use_mtu
  else ""

/-- One address section per member of the address set. -/
def address_sections (n : Network) : String :=
  match n.addresses with
  | some s => String.join (s.keys.map (fun a => "\n[Address]\nAddress=" ++ a ++ "\n"))
  | none => ""

/-- The route section of the default gateway, present when the gateway is set and
is not the null address. -/
def gateway_section (X : Externals) (n : Network) : String :=
  match n.gateway with
  | some gateway =>
    if Externals.ip_is_null X gateway then ""
    else "\n[Route]\n" ++
      ("Gateway=" ++ fmt_s (Externals.ip_to_string_prefix X AF_INET gateway) ++ "\n") ++
      tri_line "GatewayOnlink" n.gateway_onlink
  | none => ""

/-- The section of one route of the routes collection; nothing for a route whose
destination and gateway are both null. -/
def route_section (X : Externals) (route : Route) : String :=
  if Externals.ip_is_null X route.destination ∧ Externals.ip_is_null X route.gw then ""
  else "\n[Route]\n" ++
    (if Externals.ip_is_null X route.destination then ""
      else "Destination=" ++ fmt_s (Externals.ip_to_string X AF_INET route.destination) ++ "\n") ++
    (if Externals.ip_is_null X route.gw then ""
      else "Gateway=" ++ fmt_s (Externals.ip_to_string X AF_INET route.gw) ++ "\n")

/-- One route section per route of the routes collection. -/
def route_sections (X : Externals) (n : Network) : String :=
  match n.routes with
  | some routes => String.join (routes.map (route_section X))
  | none => ""

/-- A record with the two nameservers 8.8.8.8 and 1.1.1.1 and no other field
written. -/
def two_nameservers : Network :=
  { network_new.2 with nameservers := some ⟨["8.8.8.8", "1.1.1.1"]⟩ }

/-- The `key_mgmt` line of a network block: one line for each of the key
managements WPA-PSK, WPA-EAP and 802.1X, none otherwise. -/
def key_mgmt_line (key_management : Int) : String :=
  if key_management = AUTH_KEY_MANAGEMENT_WPA_PSK then "        key_mgmt=WPA-PSK\n"
  else if key_management = AUTH_KEY_MANAGEMENT_WPA_EAP then "        key_mgmt=WPA-EAP\n"
  else if key_management = AUTH_KEY_MANAGEMENT_8021X then "        key_mgmt=IEEE8021X\n"
  else ""

/-- The `eap` line of a network block: one line for each of the methods TLS, PEAP
and TTLS, none otherwise. -/
def eap_line (eap_method : Int) : String :=
  if eap_method = AUTH_EAP_METHOD_TLS then "        eap=TLS\n"
  else if eap_method = AUTH_EAP_METHOD_PEAP then "        eap=PEAP\n"
  else if eap_method = AUTH_EAP_METHOD_TTLS then "        eap=TTLS\n"
  else ""

/-- An indented line `key="value"` that is present exactly when the value is set. -/
def quoted_line (key : String) (value : Option String) : String :=
  match value with
  | some v => "        " ++ key ++ "=\"" ++ v ++ "\"\n"
  | none => ""

/-- The lines of the authentication descriptor of a network block, in their
order. -/
def auth_lines (auth : WIFIAuthentication) : String :=
  key_mgmt_line auth.key_management ++ eap_line auth.eap_method ++
    quoted_line "identity" auth.identity ++
    quoted_line "anonymous_identity" auth.anonymous_identity ++
    quoted_line (if auth.key_management = AUTH_KEY_MANAGEMENT_WPA_PSK then "psk" else "password")
      auth.password ++
    quoted_line "ca_cert" auth.ca_certificate ++
    quoted_line "client_cert" auth.client_certificate ++
    quoted_line "private_key" auth.client_key ++
    quoted_line "private_key_passwd" auth.client_key_password

/-- The network block of one access point. -/
def network_block (ap : WiFiAccessPoint) : String :=
  "network=\x7b\n" ++ ("        ssid=\"" ++ fmt_s ap.ssid ++ "\"\n") ++ auth_lines ap.auth ++ "\x7d\n\n"

/-- The text that opens every WiFi credentials document: four comment lines and
the two directives, with a blank line after the third and after the last
line. -/
def wifi_preamble : String :=
  "# WPA Supplicant Configuration\n" ++
  "# this goes in /etc/net-manager/wpa_supplicant.conf on Photon OS\n" ++
  "# chown root, chmod 600 \n" ++
  "\n" ++
  "# allow frontend (e.g., wpa_cli) to be used by all users in 'wheel' group\n" ++
  "ctrl_interface=DIR=/run/wpa_supplicant GROUP=wheel\n" ++
  "update_config=1\n" ++
  "\n"

/-- The lines of a text: the runs of characters between newlines; a last line
without its newline counts when it is not empty. -/
def split_lines : List Char → List (List Char)
  | [] => []
  | c :: cs =>
    if c = '\n' then [] :: split_lines cs
    else
      match split_lines cs with
      | [] => [[c]]
      | l :: ls => (c :: l) :: ls

/-- The values read back from the `Address=` lines of a configuration text, in
their order. -/
def read_addresses (text : String) : List String :=
  (split_lines text.toList).filterMap
    (fun l => if "Address=".toList.isPrefixOf l then some (String.mk (l.drop 8)) else none)

/-- A string that holds no newline. -/
def one_line (s : String) : Prop := '\n' ∉ s.toList

/-- The DHCP mode line of the network section: absent for an unset mode, else the
name from the table of the structured-document path or of the command-line
path. -/
def dhcp_mode_line (X : Externals) (n : Network) : String :=
  if n.dhcp_type = _DHCP_MODE_INVALID then ""
  else if n.parser_type = PARSER_TYPE_YAML then
    "DHCP=" ++ fmt_s (dhcp_modes_to_name n.dhcp_type) ++ "\n"
  else "DHCP=" ++ fmt_s (Externals.dracut_to_networkd_dhcp_mode_to_name X n.dhcp_type) ++ "\n"

/-- The link-local addressing line of the network section, absent for an unset
mode. -/
def link_local_line (n : Network) : String :=
  if n.link_local = _LINK_LOCAL_ADDRESS_INVALID then ""
  else "LinkLocalAddressing=" ++ fmt_s (link_local_address_type_to_name n.link_local) ++ "\n"

/-- A text that is empty or begins with the given header. -/
def empty_or_begins (header : String) (text : String) : Prop :=
  text = "" ∨ ∃ rest, text = header ++ rest

/-- The record of `network_new` with the static address 192.168.1.10/24, the given
gateway and the on-link tri-state true. -/
def static_with_gateway (gateway : IPAddress) : Network :=
  { network_new.2 with
    addresses := some ⟨["192.168.1.10/24"]⟩, gateway := some gateway, gateway_onlink := 1 }

/-- The IPv4 address 192.168.1.1 without a prefix length. -/
def gateway_192_168_1_1 : IPAddress :=
  { family := AF_INET, bytes := [192, 168, 1, 1], prefix_len := 0, label := none,
    lifetime := none }

/-- An environment for evaluating the serializer on concrete records: an address
is null when all its bytes are zero and prints in dotted notation, with the
prefix length after a slash when it is positive; the command-line name table
is left empty. -/
def dotted_externals : Externals :=
  { dracut_to_networkd_dhcp_mode_to_name := fun _ => none
    ip_is_null := fun a => a.bytes.all (fun b => b == 0)
    ip_to_string := fun _ a => some (".".intercalate (a.bytes.map toString))
    ip_to_string_prefix := fun _ a =>
      some (if a.prefix_len = 0 then ".".intercalate (a.bytes.map toString)
        else ".".intercalate (a.bytes.map toString) ++ "/" ++ toString a.prefix_len) }

/-- Whether a string holds no newline can be computed. -/
instance one_line_decidable (s : String) : Decidable (one_line s) := by
  unfold one_line
  infer_instance

/-- The record of Scenario A: interface `eth0` from the structured-document path
with DHCP mode yes and no other member set. -/
def eth0_dhcp_yes : Network :=
  { network_new.2 with
    ifname := some "eth0", parser_type := PARSER_TYPE_YAML, dhcp_type := DHCP_MODE_YES }

/-- The rule record with every member zero. -/
def routing_policy_rule_new0 : RoutingPolicyRule :=
  { to_ := ip_address_new0, from_ := ip_address_new0, oif := ⟨0, none⟩, iif := ⟨0, none⟩,
    invert := false, ipproto := none, sport := none, dport := none, tos := 0, type := 0,
    fwmark := 0, table := 0, priority := 0, uid_range := (0, 0) }

/-- Whether a text is built from hexadecimal digits, dots, colons and a slash. -/
def looks_like_address (s : String) : Bool :=
  !s.isEmpty && s.toList.all (fun c => c.isDigit || c == '.' || c == ':' || c == '/' ||
    (decide ('a' ≤ c) && decide (c ≤ 'f')))

/-- Externals for the examples.  `scalar` of a node that is no scalar yields the
empty text; the address parser accepts the texts that look like an address and
keeps the characters of the text as the bytes of the record; new records have
every member zero; every record is a new key of its table. -/
def example_externals : ParserExternals :=
  { scalar_other := fun _ => "",
    parse_ip_from_string := fun s =>
      if looks_like_address s then
        (0, { ip_address_new0 with family := AF_INET, bytes := s.toList.map Char.toNat })
      else (-EINVAL, ip_address_new0),
    route_new := ⟨ip_address_new0, ip_address_new0⟩,
    routing_policy_rule_new := routing_policy_rule_new0,
    netdev_link_new := ⟨0, []⟩,
    route_equal := fun _ _ => false,
    routing_policy_rule_equal := fun _ _ => false }

/-- Converters for the examples that all fail: each returns `-EINVAL` and writes
nothing. -/
def failing_converters : YamlConverters :=
  { convert := fun _ _ _ _ auth => auth,
    convert_network := fun _ _ _ _ network => (-EINVAL, network),
    convert_route := fun _ _ _ _ rt => (-EINVAL, rt),
    convert_rule := fun _ _ _ _ rule => (-EINVAL, rule),
    convert_link := fun _ _ _ _ link => (-EINVAL, link) }

/-- Modelled from the spec: the converters of yaml-parser.c are missing from the
sources.  A converter turns the scalar value into the kind of the target and
writes it through the field locator; when the value cannot be converted it
returns a negative value and leaves the member as it is.  This set carries
`parse_yaml_string`, for the text members of `WIFIAuthentication` and for
`Network.ifname`, and `parse_yaml_bool`, through `parse_boolean`, for the
tri-states `Network.lldp` and `Network.ipv6_accept_ra` and for the DHCPv4
tri-states `Network.dhcp4_use_dns`, `Network.dhcp4_use_domains` and
`Network.dhcp4_use_mtu` of network.h, which network.c reads under the names
`use_dns`, `use_domains` and `use_mtu`; every other converter and locator
returns 0 and writes nothing. -/
def locator_converters : YamlConverters :=
  { convert := fun parser _ value offset auth =>
      if parser = "parse_yaml_string" then
        if offset = "WIFIAuthentication.password" then { auth with password := some value }
        else if offset = "WIFIAuthentication.identity" then { auth with identity := some value }
        else if offset = "WIFIAuthentication.anonymous_identity" then
          { auth with anonymous_identity := some value }
        else if offset = "WIFIAuthentication.ca_certificate" then
          { auth with ca_certificate := some value }
        else if offset = "WIFIAuthentication.client_certificate" then
          { auth with client_certificate := some value }
        else if offset = "WIFIAuthentication.client_key" then
          { auth with client_key := some value }
        else if offset = "WIFIAuthentication.client_key_password" then
          { auth with client_key_password := some value }
        else auth
      else auth,
    convert_network := fun parser _ v offset network =>
      match v with
      | some (.scalar value) =>
        if parser = "parse_yaml_string" then
          if offset = "Network.ifname" then (0, { network with ifname := some value })
          else (0, network)
        else if parser = "parse_yaml_bool" then
          if parse_boolean (some value) < 0 then (parse_boolean (some value), network)
          else if offset = "Network.lldp" then
            (0, { network with lldp := parse_boolean (some value) })
          else if offset = "Network.ipv6_accept_ra" then
            (0, { network with ipv6_accept_ra := parse_boolean (some value) })
          else if offset = "Network.dhcp4_use_dns" then
            (0, { network with use_dns := parse_boolean (some value) })
          else if offset = "Network.dhcp4_use_domains" then
            (0, { network with use_domains := parse_boolean (some value) })
          else if offset = "Network.dhcp4_use_mtu" then
            (0, { network with use_mtu := parse_boolean (some value) })
          else (0, network)
        else (0, network)
      | _ => (-EINVAL, network),
    convert_route := fun _ _ _ _ rt => (0, rt),
    convert_rule := fun _ _ _ _ rule => (0, rule),
    convert_link := fun _ _ _ _ link => (0, link) }

/-- An access point after the converter of a table entry has written into its
authentication record. -/
def auth_written (C : YamlConverters) (parser key value offset : String)
    (ap : WiFiAccessPoint) : WiFiAccessPoint :=
  { ap with auth := YamlConverters.convert C parser key value offset ap.auth }

/-- Whether `parse_config` calls a converter for a pair: its key has an entry in the
table and the entry has a converter. -/
def dispatched (Y : ParserExternals) (config : GHashTable ParserTable)
    (p : yaml_node_t × Option yaml_node_t) : Bool :=
  match g_hash_table_lookup config (scalar Y (some p.1)) with
  | some table => table.parser.isSome
  | none => false

/-- The record after the body of the loop of `parse_network_config` for a key of
the network table. -/
def table_key_written (C : YamlConverters) (Y : ParserExternals) (table : ParserTable)
    (k : yaml_node_t) (v : Option yaml_node_t) (network : Network) : Network :=
  match table.parser with
  | some parser =>
    { (YamlConverters.convert_network C parser (scalar Y (some k)) v table.offset network).2 with
      modified := true }
  | none => network

/-- A mapping of scalars. -/
def scalar_mapping (pairs : List (String × String)) : yaml_node_t :=
  .mapping (pairs.map (fun p => (.scalar p.1, .scalar p.2)))

/-- The address record that `parse_address` adds for an address literal when the
caller hands it a pending descriptor: the parsed record with the label and the
lifetime of the descriptor, as far as the descriptor has them. -/
def with_pending (pending address : IPAddress) : IPAddress :=
  let address := match pending.label with
    | some label => { address with label := some label }
    | none => address
  match pending.lifetime with
  | some lifetime => { address with lifetime := some lifetime }
  | none => address

/-- The record after `parse_address` has added an address record for a literal key
and, when the key has a value node, passed the text of the value to
`parse_address_from_string_and_add`. -/
def address_added (Y : ParserExternals) (address : IPAddress) (v : Option yaml_node_t)
    (network : Network) : Network :=
  let network :=
    if network.addresses.isSome then
      { network with address_records := set_add_record network.address_records address }
    else network
  let network := { network with modified := true }
  match v with
  | some v =>
    { network with
      addresses := network.addresses.map
        (fun set => (parse_address_from_string_and_add Y (scalar Y (some v)) set).2) }
  | none => network

/-- The match identity of a record, as far as `parse_ethernet_config` sets it: the
interface name and the parser type. -/
def identity (network : Network) : Option String × Int :=
  (network.ifname, network.parser_type)

/-- Converters that write through their locator as far as the identity goes: none
changes the parser type, and only a converter that is handed the locator of
`Network.ifname` changes the interface name. -/
def keeps_identity (C : YamlConverters) : Prop :=
  ∀ (parser key : String) (v : Option yaml_node_t) (offset : String) (network : Network),
    (YamlConverters.convert_network C parser key v offset network).2.parser_type =
        network.parser_type ∧
      (offset ≠ "Network.ifname" →
        (YamlConverters.convert_network C parser key v offset network).2.ifname =
          network.ifname)

/-- Whether a value node, read as a match section, holds the key `name`. -/
def names_interface (Y : ParserExternals) (v : Option yaml_node_t) : Bool :=
  match v with
  | some node => (mapping_pairs node).any (fun p => scalar Y (some p.1) == "name")
  | none => false

mutual
/-- Whether a tree holds, at any depth, a pair with the key `match` whose value
holds the key `name`; the pairs of a node are the ones that the parser reads
(`mapping_pairs`). -/
def rewrites_name (Y : ParserExternals) : yaml_node_t → Bool
  | .scalar _ => false
  | .sequence items =>
    (items_as_pairs items).any
        (fun p => scalar Y (some p.1) == "match" && names_interface Y p.2) ||
      rewrites_name_items Y items
  | .mapping pairs =>
    pairs.any (fun p => scalar Y (some p.1) == "match" && names_interface Y (some p.2)) ||
      rewrites_name_pairs Y pairs
/-- The items of a sequence: whether one of them holds such a pair. -/
def rewrites_name_items (Y : ParserExternals) : List yaml_node_t → Bool
  | [] => false
  | n :: items => rewrites_name Y n || rewrites_name_items Y items
/-- The pairs of a mapping: whether a key or a value holds such a pair. -/
def rewrites_name_pairs (Y : ParserExternals) : List (yaml_node_t × yaml_node_t) → Bool
  | [] => false
  | (k, v) :: pairs => rewrites_name Y k || rewrites_name Y v || rewrites_name_pairs Y pairs
end
/-- The record that `parse_ethernet_config` creates for a selector key before it
walks the subtree of the interface. -/
def interface_record (key : String) : Network :=
  { { network_new.2 with parser_type := PARSER_TYPE_YAML } with ifname := some key }

/-- The record of an interface after the walk of its subtree (the created record
when the walk does not end). -/
def walked_record (C : YamlConverters) (Y : ParserExternals) (m : YAMLManager)
    (e : String × yaml_node_t) : Network :=
  ((parse_network_config C Y m e.2 (interface_record e.1)).map (fun r => r.2)).getD
    (interface_record e.1)

/-- The top-level mapping with the given selector keys and subtrees. -/
def interfaces (entries : List (String × yaml_node_t)) : yaml_node_t :=
  .mapping (entries.map (fun e => (.scalar e.1, e.2)))

/-- A subtree with a match section that names another interface. -/
def match_eth1 : yaml_node_t :=
  .mapping [(.scalar "match", scalar_mapping [("name", "eth1")])]

/-! ## Name tables -/

/-- What the claim says of one name table with its two conversions: every valid id
has a name, the member of the table at that index, that converts back to the id;
names that are equal ignoring ASCII case convert alike; a name that no member
equals ignoring case gives `-EINVAL`; a negative id has the name "n/a"; an id past
the end has no name. -/
def round_trips (table : List String) (to_name : Int → Option String)
    (to_mode : String → Int) : Prop :=
  (∀ id : Int, 0 ≤ id → id < table.length →
      ∃ nm, table[id.toNat]? = some nm ∧ to_name id = some nm ∧ to_mode nm = id) ∧
  (∀ a b, equals_ignoring_case a b → to_mode a = to_mode b) ∧
  (∀ a, (∀ t ∈ table, ¬ equals_ignoring_case a t) → to_mode a = -EINVAL) ∧
  (∀ id : Int, id < 0 → to_name id = some "n/a") ∧
  (∀ id : Int, (table.length : Int) ≤ id → to_name id = none)

/-! ## Registration of the tables -/

/-- A manager whose lookup tables are all newly created and empty; the link table,
which `yaml_register_network` does not touch, is a parameter. -/
def empty_manager (link_config : GHashTable ParserTable) : YAMLManager :=
  { wifi_config := [], match_config := [], network_config := [], dhcp4_config := [],
    dhcp6_config := [], address_config := [], routing_policy_rule_config := [],
    route_config := [], nameserver_config := [], link_config := link_config }

/-- The keys of a table, in the order of its entries. -/
def table_keys (table : List ParserTable) : List String := table.map (fun p => p.key)

/-- Every entry of the table is found in the lookup table under its own key. -/
def finds_own_entries (table : List ParserTable) (config : GHashTable ParserTable) : Prop :=
  ∀ p ∈ table, g_hash_table_lookup config p.key = some p

/-! ## The dispatch of `parse_network_config` -/

/-- The names of the nested sections, in the order in which `parse_network_config`
tests them. -/
def section_names : List String :=
  ["match", "dhcp4-overrides", "dhcp6-overrides", "addresses", "routes", "routing-policy",
    "nameservers"]

/-- What the walk of an interface does with a key: hand the pair to the converter
of the key's entry in the network table, walk the value as the nested section
of the given name, or walk the value as a nested interface subtree. -/
inductive Dispatch where
  | entry (table : ParserTable)
  | nested_section (name : String)
  | nested_interface
  deriving DecidableEq

/-- The choice that the loop body of `parse_network_config`
(yaml-network-parser.c:414-447) makes for a key: first the lookup in the network
table, and only for a key without an entry the chain of `string_equal` tests
against the section names. -/
def dispatch_of_code (m : YAMLManager) (key : String) : Dispatch :=
  match g_hash_table_lookup m.network_config key with
  | some table => .entry table
  | none =>
    if string_equal key "match" then .nested_section "match"
    else if string_equal key "dhcp4-overrides" then .nested_section "dhcp4-overrides"
    else if string_equal key "dhcp6-overrides" then .nested_section "dhcp6-overrides"
    else if string_equal key "addresses" then .nested_section "addresses"
    else if string_equal key "routes" then .nested_section "routes"
    else if string_equal key "routing-policy" then .nested_section "routing-policy"
    else if string_equal key "nameservers" then .nested_section "nameservers"
    else .nested_interface

/-- The choice as the specification words it: first the test of the key against
the nested-section names, and only otherwise the lookup in the active table; a
key that is neither is walked as a nested subtree. -/
def dispatch_of_spec (m : YAMLManager) (key : String) : Dispatch :=
  if key ∈ section_names then .nested_section key
  else
    match g_hash_table_lookup m.network_config key with
    | some table => .entry table
    | none => .nested_interface

/-- What the loop body of `parse_network_config` does once the choice is made, for
the pair of key `k` and value `v`: the branch of the code for an entry of the
network table, for each section name, and for any other key; after a walk the
return value is checked and the key is looked up in the link table. -/
def perform (C : YamlConverters) (Y : ParserExternals) (m : YAMLManager)
    (k : yaml_node_t) (v : Option yaml_node_t) (nested : Network → Option (Int × Network))
    (network : Network) (d : Dispatch) : Option (Int × Network) :=
  let key := scalar Y (some k)
  match d with
  | .entry table =>
    match table.parser with
    | some parser =>
      let network := (YamlConverters.convert_network C parser key v table.offset network).2
      some (0, { network with modified := true })
    | none => some (0, network)
  | d =>
    let walked : Option (Int × Network) :=
      match v with
      | none => none
      | some node =>
        if d = .nested_section "match" then
          some (parse_config C Y m.match_config node network)
        else if d = .nested_section "dhcp4-overrides" then
          some (parse_config C Y m.dhcp4_config node network)
        else if d = .nested_section "dhcp6-overrides" then
          some (parse_config C Y m.dhcp6_config node network)
        else if d = .nested_section "addresses" then
          (parse_address Y node network none).map (fun r => (r.1, r.2.1))
        else if d = .nested_section "routes" then
          some (parse_route C Y m.route_config node network)
        else if d = .nested_section "routing-policy" then
          some (parse_routing_policy_rule_config C Y m.routing_policy_rule_config node network)
        else if d = .nested_section "nameservers" then
          some (parse_config C Y m.nameserver_config node network)
        else
          nested network
    match walked with
    | none => none
    | some (r, network) =>
      if r < 0 then
        some (r, network)
      else
        match g_hash_table_lookup m.link_config key with
        | some link_table =>
          let link := match network.link with
            | none => { ParserExternals.netdev_link_new Y with parser_type := PARSER_TYPE_YAML }
            | some link => link
          let link := match link_table.parser with
            | some parser =>
              (YamlConverters.convert_link C parser key v link_table.offset link).2
            | none => link
          some (0, { network with link := some link })
        | none => some (0, network)

/-- A manager whose network table has an entry under the section name `match`. -/
def manager_with_match_key : YAMLManager :=
  { yaml_manager [] with
    network_config := [("match", ⟨"match", CONF_TYPE_NETWORK, none, "Network.ifname"⟩)] }

/-- The value node `sub` nested under the given keys, outermost first: each key is
the only key of a mapping whose value is the rest. -/
def nested_under (keys : List yaml_node_t) (sub : yaml_node_t) : yaml_node_t :=
  keys.foldr (fun k node => .mapping [(k, node)]) sub

/-- A key that `parse_network_config` knows in no way: its text has no entry in the
network table, is no section name, and has no entry in the link table. -/
def unknown_key (Y : ParserExternals) (m : YAMLManager) (k : yaml_node_t) : Prop :=
  g_hash_table_lookup m.network_config (scalar Y (some k)) = none ∧
    scalar Y (some k) ∉ section_names ∧
    g_hash_table_lookup m.link_config (scalar Y (some k)) = none

/-! ## Scenario C -/

/-- The subtree of the interface of Scenario C: the section `dhcp4-overrides` with
`use-dns: false` and `use-mtu: true`. -/
def dhcp4_overrides_subtree : yaml_node_t :=
  .mapping [(.scalar "dhcp4-overrides",
    scalar_mapping [("use-dns", "false"), ("use-mtu", "true")])]

/-- The record of the interface `eth0` with the DHCPv4 tri-states of Scenario C:
`use_dns` false, `use_mtu` true, `use_domains` unset. -/
def scenario_c_record : Network :=
  { interface_record "eth0" with use_dns := 0, use_mtu := 1, modified := true }

/-- The record after the walk of the subtree of Scenario C with any converters: the
converter `parse_yaml_bool` has been called for `use-dns` with the locator of
`dhcp4_use_dns`, then for `use-mtu` with the locator of `dhcp4_use_mtu`. -/
def scenario_c_written (C : YamlConverters) (network : Network) : Network :=
  let network :=
    { (YamlConverters.convert_network C "parse_yaml_bool" "use-dns" (some (.scalar "false"))
        "Network.dhcp4_use_dns" network).2 with modified := true }
  { (YamlConverters.convert_network C "parse_yaml_bool" "use-mtu" (some (.scalar "true"))
      "Network.dhcp4_use_mtu" network).2 with modified := true }

/-! ## The tables of routes and of routing policy rules -/

theorem char_toNat_inj {a b : Char} (h : a.toNat = b.toNat) : a = b := by
  apply Char.ext
  apply UInt32.ext
  exact h

theorem toNat_ofNat_small (n : Nat) (h : n < 0xd800) : (Char.ofNat n).toNat = n := by
  have hv : n.isValidChar := Or.inl h
  simp only [Char.ofNat, dif_pos hv]
  rfl

theorem toLower_eq_iff (a b : Char) : a.toLower = b.toLower ↔ same_letter a b := by
  unfold same_letter Char.toLower
  simp only [ge_iff_le]
  by_cases ha : 65 ≤ a.toNat ∧ a.toNat ≤ 90 <;> by_cases hb : 65 ≤ b.toNat ∧ b.toNat ≤ 90
  · rw [if_pos ha, if_pos hb]
    constructor
    · intro h
      have h2 := congrArg Char.toNat h
      rw [toNat_ofNat_small _ (by omega), toNat_ofNat_small _ (by omega)] at h2
      exact Or.inl (char_toNat_inj (by omega))
    · rintro (h | h | h)
      · rw [h]
      · omega
      · omega
  · rw [if_pos ha, if_neg hb]
    constructor
    · intro h
      have h2 := congrArg Char.toNat h
      rw [toNat_ofNat_small _ (by omega)] at h2
      exact Or.inr (Or.inl ⟨ha.1, ha.2, h2.symm⟩)
    · rintro (h | h | h)
      · subst h; exact absurd ha hb
      · apply char_toNat_inj
        rw [toNat_ofNat_small _ (by omega)]; omega
      · omega
  · rw [if_neg ha, if_pos hb]
    constructor
    · intro h
      have h2 := congrArg Char.toNat h
      rw [toNat_ofNat_small _ (by omega)] at h2
      exact Or.inr (Or.inr ⟨hb.1, hb.2, h2⟩)
    · rintro (h | h | h)
      · subst h; exact absurd hb ha
      · omega
      · apply char_toNat_inj
        rw [toNat_ofNat_small _ (by omega)]; omega
  · rw [if_neg ha, if_neg hb]
    constructor
    · intro h; exact Or.inl h
    · rintro (h | h | h)
      · exact h
      · omega
      · omega

theorem map_toLower_eq_iff (a b : List Char) :
    a.map Char.toLower = b.map Char.toLower ↔ List.Forall₂ same_letter a b := by
  induction a generalizing b with
  | nil =>
    cases b with
    | nil => simp
    | cons y ys => simp
  | cons x xs ih =>
    cases b with
    | nil => simp
    | cons y ys =>
      simp only [List.map_cons, List.cons.injEq, List.forall₂_cons, ih, toLower_eq_iff]

/-- The model of `string_equal_fold` is equality up to the case of ASCII letters. -/
theorem string_equal_fold_iff (a b : String) :
    string_equal_fold a b = true ↔ equals_ignoring_case a b := by
  unfold string_equal_fold equals_ignoring_case
  rw [beq_iff_eq, map_toLower_eq_iff]

theorem forall₂_same_letter_of_no_letter (a t : List Char) (ht : ∀ c ∈ t, c.toNat < 65) :
    List.Forall₂ same_letter a t ↔ a = t := by
  induction a generalizing t with
  | nil => cases t <;> simp
  | cons x xs ih =>
    cases t with
    | nil => simp
    | cons y ys =>
      have hy : y.toNat < 65 := ht y (List.mem_cons_self _ _)
      have hys : ∀ c ∈ ys, c.toNat < 65 := fun c hc => ht c (List.mem_cons_of_mem _ hc)
      have hxy : same_letter x y ↔ x = y := by
        unfold same_letter
        constructor
        · rintro (h | h | h)
          · exact h
          · omega
          · omega
        · intro h; exact Or.inl h
      simp only [List.forall₂_cons, ih ys hys, hxy, List.cons.injEq]

/-- For a token without letters, equality up to case is equality. -/
theorem equals_ignoring_case_of_no_letter (v t : String) (ht : ∀ c ∈ t.toList, c.toNat < 65) :
    equals_ignoring_case v t ↔ v = t := by
  unfold equals_ignoring_case
  rw [forall₂_same_letter_of_no_letter _ _ ht, String.toList_inj]

theorem equals_ignoring_case_iff (s t : String) :
    equals_ignoring_case s t ↔ s.toList.map Char.toLower = t.toList.map Char.toLower :=
  (map_toLower_eq_iff _ _).symm

theorem string_equal_one_iff (s : String) :
    string_equal s "1" = true ↔ s.toList.map Char.toLower = "1".toList.map Char.toLower := by
  rw [← equals_ignoring_case_iff, equals_ignoring_case_of_no_letter _ _ (by decide)]
  simp [string_equal]

theorem string_equal_zero_iff (s : String) :
    string_equal s "0" = true ↔ s.toList.map Char.toLower = "0".toList.map Char.toLower := by
  rw [← equals_ignoring_case_iff, equals_ignoring_case_of_no_letter _ _ (by decide)]
  simp [string_equal]

/-- C1: `parse_boolean` returns 1 exactly for the strings that equal a true token
ignoring ASCII letter case, 0 exactly for those that equal a false token, and
`-EINVAL` for every other string and for the NULL pointer. -/
theorem parse_boolean_tokens (v : Option String) :
    (parse_boolean v = 1 ↔
      ∃ s, v = some s ∧ ∃ t ∈ true_tokens, equals_ignoring_case s t) ∧
    (parse_boolean v = 0 ↔
      ∃ s, v = some s ∧ ∃ t ∈ false_tokens, equals_ignoring_case s t) ∧
    (parse_boolean v = -EINVAL ↔
      v = none ∨ ∃ s, v = some s ∧ (∀ t ∈ true_tokens, ¬ equals_ignoring_case s t) ∧
        ∀ t ∈ false_tokens, ¬ equals_ignoring_case s t) := by
  cases v with
  | none => simp [parse_boolean, EINVAL]
  | some s =>
    simp only [parse_boolean, Bool.or_eq_true, string_equal_one_iff, string_equal_zero_iff,
      string_equal_fold, beq_iff_eq, true_tokens, false_tokens, equals_ignoring_case_iff,
      Option.some.injEq, List.mem_cons, List.mem_singleton, exists_eq_left', EINVAL,
      exists_eq_or_imp, exists_eq_left, forall_eq_or_imp, forall_eq, List.not_mem_nil,
      reduceCtorEq, false_or, or_false, IsEmpty.forall_iff, and_true, false_and, exists_false]
    generalize s.toList.map Char.toLower = L
    split_ifs with hA hB
    · rcases hA with (((((h | h) | h) | h) | h) | h) <;> subst h <;> decide
    · rcases hB with (((((h | h) | h) | h) | h) | h) <;> subst h <;> decide
    · simp only [not_or] at hA hB
      obtain ⟨⟨⟨⟨⟨a1, a2⟩, a3⟩, a4⟩, a5⟩, a6⟩ := hA
      obtain ⟨⟨⟨⟨⟨b1, b2⟩, b3⟩, b4⟩, b5⟩, b6⟩ := hB
      simp only [a1, a2, a3, a4, a5, a6, b1, b2, b3, b4, b5, b6]
      decide

/-! ## Digits -/

theorem isDigit_iff (c : Char) : c.isDigit = true ↔ 48 ≤ c.toNat ∧ c.toNat ≤ 57 := by
  simp only [Char.isDigit, Char.toNat, ge_iff_le, Bool.and_eq_true, decide_eq_true_eq,
    UInt32.le_def, UInt32.toNat]
  rfl

theorem is_digit_of_ten (c : Char) : is_digit_of 10 c = c.isDigit := by
  rw [Bool.eq_iff_iff, isDigit_iff]
  unfold is_digit_of digit_value
  split_ifs with h1 h2 h3 <;> simp <;> omega

theorem is_digit_of_eight (c : Char) : is_digit_of 8 c = is_octal_digit c := by
  rw [Bool.eq_iff_iff]
  unfold is_digit_of digit_value is_octal_digit
  split_ifs with h1 h2 h3 <;> simp <;> omega

theorem is_digit_of_sixteen (c : Char) : is_digit_of 16 c = is_hex_digit c := by
  rw [Bool.eq_iff_iff]
  unfold is_digit_of digit_value is_hex_digit
  simp only [Bool.or_eq_true, isDigit_iff, decide_eq_true_eq]
  split_ifs with h1 h2 h3 <;> simp <;> omega

theorem digit_value_decimal (c : Char) (h : c.isDigit = true) :
    (digit_value c).getD 0 = c.toNat - '0'.toNat := by
  rw [isDigit_iff] at h
  unfold digit_value
  rw [if_pos h]
  rfl

theorem digit_value_octal (c : Char) (h : is_octal_digit c = true) :
    (digit_value c).getD 0 = c.toNat - '0'.toNat := by
  unfold is_octal_digit at h
  simp only [decide_eq_true_eq] at h
  unfold digit_value
  rw [if_pos ⟨h.1, by omega⟩]
  rfl

theorem digit_value_hex (c : Char) (h : is_hex_digit c = true) :
    (digit_value c).getD 0 = hex_digit_value c := by
  unfold is_hex_digit at h
  simp only [Bool.or_eq_true, isDigit_iff, decide_eq_true_eq] at h
  unfold digit_value hex_digit_value
  by_cases hd : c.isDigit = true
  · rw [if_pos hd, if_pos ((isDigit_iff c).1 hd)]; rfl
  · rw [if_neg hd]
    have hd2 : ¬ (48 ≤ c.toNat ∧ c.toNat ≤ 57) := fun h2 => hd ((isDigit_iff c).2 h2)
    rw [if_neg hd2]
    rcases h with (h | h) | h
    · exact absurd h hd2
    · rw [if_pos ⟨h.1, by omega⟩, if_pos h.1]
      show c.toNat - 87 = c.toNat - 97 + 10
      omega
    · rw [if_neg (by omega), if_pos ⟨h.1, by omega⟩, if_neg (by omega)]
      show c.toNat - 55 = c.toNat - 65 + 10
      omega

theorem digits_value_decimal (ds : List Char) (h : ∀ x ∈ ds, x.isDigit = true) :
    digits_value 10 ds = decimal_value ds := by
  unfold digits_value decimal_value
  apply List.foldl_ext
  intro a b hb
  rw [digit_value_decimal b (h b hb)]
  omega

theorem digits_value_octal (ds : List Char) (h : ∀ x ∈ ds, is_octal_digit x = true) :
    digits_value 8 ds = octal_value ds := by
  unfold digits_value octal_value
  apply List.foldl_ext
  intro a b hb
  rw [digit_value_octal b (h b hb)]
  omega

theorem digits_value_hex (ds : List Char) (h : ∀ x ∈ ds, is_hex_digit x = true) :
    digits_value 16 ds = hex_value ds := by
  unfold digits_value hex_value
  apply List.foldl_ext
  intro a b hb
  rw [digit_value_hex b (h b hb)]
  omega

theorem length_takeWhile_le {α : Type} (p : α → Bool) (l : List α) :
    (l.takeWhile p).length ≤ l.length := by
  induction l with
  | nil => simp
  | cons x xs ih =>
    rw [List.takeWhile_cons]
    split
    · simp only [List.length_cons]; omega
    · simp

theorem length_takeWhile_eq_iff {α : Type} (p : α → Bool) (l : List α) :
    (l.takeWhile p).length = l.length ↔ l.all p = true := by
  induction l with
  | nil => simp
  | cons x xs ih =>
    rw [List.takeWhile_cons]
    by_cases hx : p x = true
    · simp only [hx, if_true, List.length_cons, List.all_cons, Bool.true_and]
      rw [← ih]; omega
    · simp [hx]


/-! ## `strtol`: the subject sequence -/

theorem strtol_subject_hex (p : Char) (hs : List Char) (hp : p = 'x' ∨ p = 'X') :
    strtol_subject ('0' :: p :: hs) =
      if (hs.takeWhile (is_digit_of 16)).isEmpty then (0, 1)
      else (digits_value 16 (hs.takeWhile (is_digit_of 16)),
            2 + (hs.takeWhile (is_digit_of 16)).length) := by
  rcases hp with rfl | rfl <;> simp [strtol_subject]

theorem strtol_subject_octal (ds : List Char)
    (h : ¬ (ds.head? = some 'x' ∨ ds.head? = some 'X')) :
    strtol_subject ('0' :: ds) =
      (digits_value 8 ('0' :: ds.takeWhile (is_digit_of 8)),
        1 + (ds.takeWhile (is_digit_of 8)).length) := by
  have h0 : is_digit_of 8 '0' = true := by decide
  simp only [not_or] at h
  simp [strtol_subject, h.1, h.2, List.takeWhile_cons, h0, Nat.add_comm]

theorem strtol_subject_decimal (d : Char) (ds : List Char) (hd : d ≠ '0') :
    strtol_subject (d :: ds) =
      if ((d :: ds).takeWhile (is_digit_of 10)).isEmpty then (0, 0)
      else (digits_value 10 ((d :: ds).takeWhile (is_digit_of 10)),
            ((d :: ds).takeWhile (is_digit_of 10)).length) := by
  simp [strtol_subject, hd]


theorem strtol_subject_nil : strtol_subject [] = (0, 0) := by decide

theorem strtol_subject_le (b : List Char) : (strtol_subject b).2 ≤ b.length := by
  rcases b with _ | ⟨d, ds⟩
  · rw [strtol_subject_nil]; simp
  · by_cases hd : d = '0'
    · subst hd
      by_cases hp : ds.head? = some 'x' ∨ ds.head? = some 'X'
      · rcases ds with _ | ⟨p, hs⟩
        · simp at hp
        · simp only [List.head?_cons, Option.some.injEq] at hp
          rw [strtol_subject_hex p hs hp]
          have := length_takeWhile_le (is_digit_of 16) hs
          split <;> simp only [List.length_cons] <;> omega
      · rw [strtol_subject_octal ds hp]
        have := length_takeWhile_le (is_digit_of 8) ds
        simp only [List.length_cons]; omega
    · rw [strtol_subject_decimal d ds hd]
      have := length_takeWhile_le (is_digit_of 10) (d :: ds)
      split
      · simp
      · exact this

theorem isEmpty_takeWhile_of_length {α : Type} (p : α → Bool) (l : List α)
    (h : (l.takeWhile p).isEmpty = true) : (l.takeWhile p).length = 0 := by
  rw [List.isEmpty_iff] at h
  rw [h]; rfl

theorem strtol_subject_complete (b : List Char) :
    ((strtol_subject b).2 ≠ 0 ∧ (strtol_subject b).2 = b.length) ↔
      is_literal_body b = true := by
  rcases b with _ | ⟨d, ds⟩
  · rw [strtol_subject_nil]; simp [is_literal_body]
  · by_cases hd : d = '0'
    · subst hd
      rcases ds with _ | ⟨p, hs⟩
      · rw [strtol_subject_octal [] (by simp)]
        simp [is_literal_body]
      · by_cases hp : p = 'x' ∨ p = 'X'
        · rw [strtol_subject_hex p hs hp]
          simp only [is_literal_body, if_true, hp]
          have hlen := length_takeWhile_eq_iff (is_digit_of 16) hs
          have hfun : is_digit_of 16 = is_hex_digit := funext is_digit_of_sixteen
          rw [hfun] at hlen ⊢
          by_cases he : (hs.takeWhile is_hex_digit).isEmpty = true
          · rw [if_pos he]
            have h0 := isEmpty_takeWhile_of_length _ _ he
            rcases hs with _ | ⟨y, ys⟩
            · simp
            · have : ¬ ((y :: ys).all is_hex_digit = true) := by
                rw [← hlen, h0]; simp
              simp [this]
          · rw [if_neg he]
            have hne : hs ≠ [] := by
              rintro rfl
              simp at he
            have hne2 : hs.isEmpty = false := by
              cases hs with
              | nil => exact absurd rfl hne
              | cons _ _ => rfl
            simp only [List.length_cons, hne2, Bool.not_false, Bool.true_and, ← hlen]
            omega
        · have hp2 : ¬ ((p :: hs).head? = some 'x' ∨ (p :: hs).head? = some 'X') := by
            simpa using hp
          rw [strtol_subject_octal (p :: hs) hp2]
          simp only [is_literal_body, if_true, hp, if_false]
          have hlen := length_takeWhile_eq_iff (is_digit_of 8) (p :: hs)
          have hfun : is_digit_of 8 = is_octal_digit := funext is_digit_of_eight
          rw [hfun] at hlen ⊢
          rw [← hlen]
          simp only [List.length_cons]
          omega
    · rw [strtol_subject_decimal d ds hd]
      simp only [is_literal_body, hd, if_false]
      have hlen := length_takeWhile_eq_iff (is_digit_of 10) (d :: ds)
      have hfun : is_digit_of 10 = Char.isDigit := funext is_digit_of_ten
      rw [hfun] at hlen ⊢
      rw [List.all_cons] at hlen
      rw [← hlen]
      by_cases he : ((d :: ds).takeWhile Char.isDigit).isEmpty = true
      · rw [if_pos he]
        have h0 := isEmpty_takeWhile_of_length _ _ he
        rw [h0]; simp
      · rw [if_neg he]
        simp only [List.length_cons, and_iff_right_iff_imp]
        intro h; omega


/-! ## `strtol`: the whole call -/

theorem strtol_endptr (c : List Char) :
    (strtol c).endptr =
      if (strtol_subject ((c.dropWhile isspace).drop
            (if (c.dropWhile isspace).head? == some '-' ||
                (c.dropWhile isspace).head? == some '+' then 1 else 0))).2 = 0 then 0
      else (c.takeWhile isspace).length +
        (if (c.dropWhile isspace).head? == some '-' ||
            (c.dropWhile isspace).head? == some '+' then 1 else 0) +
        (strtol_subject ((c.dropWhile isspace).drop
            (if (c.dropWhile isspace).head? == some '-' ||
                (c.dropWhile isspace).head? == some '+' then 1 else 0))).2 := by
  unfold strtol
  simp only [beq_iff_eq]
  split_ifs <;> rfl

theorem length_takeWhile_add_dropWhile (c : List Char) :
    (c.takeWhile isspace).length + (c.dropWhile isspace).length = c.length := by
  rw [← List.length_append, List.takeWhile_append_dropWhile]

/-- The call consumes the whole text, and at least one character of it, exactly
when the text is one complete integer literal. -/
theorem strtol_incomplete_iff (c : List Char) :
    ((strtol c).endptr = 0 ∨ (strtol c).endptr < c.length) ↔ is_integer_literal c = false := by
  rw [strtol_endptr]
  have hlen := length_takeWhile_add_dropWhile c
  unfold is_integer_literal
  generalize c.dropWhile isspace = s at hlen ⊢
  generalize (c.takeWhile isspace).length = n at hlen ⊢
  rcases s with _ | ⟨x, t⟩
  · simp [strtol_subject_nil]
  · by_cases hx : x = '-' ∨ x = '+'
    · have hsign : ((x :: t).head? == some '-' || (x :: t).head? == some '+') = true := by
        rcases hx with rfl | rfl <;> simp
      simp only [hsign, if_true, List.drop_succ_cons, List.drop_zero, hx]
      have hle := strtol_subject_le t
      have hc := strtol_subject_complete t
      simp only [List.length_cons] at hlen
      by_cases hk : (strtol_subject t).2 = 0
      · rw [if_pos hk]
        have : ¬ (is_literal_body t = true) := by
          rw [← hc]; simp [hk]
        simpa using this
      · rw [if_neg hk]
        by_cases hl : is_literal_body t = true
        · have := hc.2 hl
          simp only [hl]
          constructor
          · intro h; omega
          · intro h; exact absurd h (by decide)
        · have h2 : ¬ ((strtol_subject t).2 ≠ 0 ∧ (strtol_subject t).2 = t.length) := by
            rw [hc]; exact hl
          simp only [Bool.not_eq_true] at hl
          simp only [hl, iff_true]
          right
          have : (strtol_subject t).2 ≠ t.length := fun h => h2 ⟨hk, h⟩
          omega
    · have hsign : ((x :: t).head? == some '-' || (x :: t).head? == some '+') = false := by
        simp only [not_or] at hx
        simp [hx.1, hx.2]
      simp only [hsign, Bool.false_eq_true, if_false, List.drop_zero, hx]
      have hle := strtol_subject_le (x :: t)
      have hc := strtol_subject_complete (x :: t)
      by_cases hk : (strtol_subject (x :: t)).2 = 0
      · rw [if_pos hk]
        have : ¬ (is_literal_body (x :: t) = true) := by
          rw [← hc]; simp [hk]
        simpa using this
      · rw [if_neg hk]
        by_cases hl : is_literal_body (x :: t) = true
        · have := hc.2 hl
          simp only [hl]
          constructor
          · intro h; omega
          · intro h; exact absurd h (by decide)
        · have h2 : ¬ ((strtol_subject (x :: t)).2 ≠ 0 ∧
              (strtol_subject (x :: t)).2 = (x :: t).length) := by
            rw [hc]; exact hl
          simp only [Bool.not_eq_true] at hl
          simp only [hl, iff_true]
          right
          have : (strtol_subject (x :: t)).2 ≠ (x :: t).length := fun h => h2 ⟨hk, h⟩
          omega


theorem isspace_of_isDigit (d : Char) (hd : d.isDigit = true) : isspace d = false := by
  rw [isDigit_iff] at hd
  unfold isspace
  have h1 : d ≠ ' ' := by rintro rfl; revert hd; decide
  have h2 : d ≠ '\t' := by rintro rfl; revert hd; decide
  have h3 : d ≠ '\n' := by rintro rfl; revert hd; decide
  have h4 : d ≠ '\x0b' := by rintro rfl; revert hd; decide
  have h5 : d ≠ '\x0c' := by rintro rfl; revert hd; decide
  have h6 : d ≠ '\r' := by rintro rfl; revert hd; decide
  simp [h1, h2, h3, h4, h5, h6]

theorem not_sign_of_isDigit (d : Char) (hd : d.isDigit = true) : d ≠ '-' ∧ d ≠ '+' := by
  rw [isDigit_iff] at hd
  constructor
  · rintro rfl; revert hd; decide
  · rintro rfl; revert hd; decide

/-- The call on a text that starts with a digit: no white space and no sign. -/
theorem strtol_of_digit_head (d : Char) (ds : List Char) (hd : d.isDigit = true) :
    strtol (d :: ds) =
      if (strtol_subject (d :: ds)).2 = 0 then ⟨0, 0, false⟩
      else if (strtol_subject (d :: ds)).1 > 2 ^ 63 - 1 then
        ⟨LONG_MAX, (strtol_subject (d :: ds)).2, true⟩
      else ⟨((strtol_subject (d :: ds)).1 : Int), (strtol_subject (d :: ds)).2, false⟩ := by
  have hs := isspace_of_isDigit d hd
  have hsign := not_sign_of_isDigit d hd
  unfold strtol
  simp [hs, hsign.1, hsign.2, List.takeWhile_cons, List.dropWhile_cons]

theorem parse_integer_of_strtol (c : String) (val errno v : Int)
    (h : strtol c.toList = ⟨v, c.toList.length, false⟩) (hne : c.toList ≠ [])
    (hlo : INT_MIN ≤ v) (hhi : v ≤ INT_MAX) : parse_integer c val errno = (0, v) := by
  have hlen : c.toList.length ≠ 0 := by
    intro h0; exact hne (List.length_eq_zero.1 h0)
  unfold INT_MIN at hlo
  unfold INT_MAX at hhi
  have h1 : ¬ (v = LONG_MAX) := by unfold LONG_MAX; omega
  have h2 : ¬ (v = LONG_MIN) := by unfold LONG_MIN; omega
  have h3 : ¬ (v < INT_MIN) := by unfold INT_MIN; omega
  have h4 : ¬ (v > INT_MAX) := by unfold INT_MAX; omega
  simp only [parse_integer, h]
  have hlen2 : ¬ c.length = 0 := hlen
  simp [hlen2, h1, h2, h3, h4]


theorem takeWhile_eq_self_of_forall {α : Type} (p : α → Bool) (l : List α)
    (h : ∀ x ∈ l, p x = true) : l.takeWhile p = l :=
  List.takeWhile_eq_self_iff.2 h

theorem strtol_decimal (d : Char) (ds : List Char) (hall : ∀ x ∈ d :: ds, x.isDigit = true)
    (hd : d ≠ '0') (hv : decimal_value (d :: ds) ≤ 2 ^ 63 - 1) :
    strtol (d :: ds) = ⟨(decimal_value (d :: ds) : Int), (d :: ds).length, false⟩ := by
  have hsub : strtol_subject (d :: ds) = (decimal_value (d :: ds), (d :: ds).length) := by
    rw [strtol_subject_decimal d ds hd]
    have hfun : is_digit_of 10 = Char.isDigit := funext is_digit_of_ten
    rw [hfun, takeWhile_eq_self_of_forall _ _ hall, digits_value_decimal _ hall]
    simp
  rw [strtol_of_digit_head d ds (hall d (List.mem_cons_self _ _)), hsub]
  have h2 : ¬ (decimal_value (d :: ds) > 2 ^ 63 - 1) := by omega
  simp only [List.length_cons, Nat.add_one_ne_zero, if_false, h2]

theorem octal_value_zero_cons (ds : List Char) : octal_value ('0' :: ds) = octal_value ds := by
  simp [octal_value]

theorem isDigit_of_is_octal_digit (x : Char) (h : is_octal_digit x = true) :
    x.isDigit = true := by
  rw [isDigit_iff]
  unfold is_octal_digit at h
  simp only [decide_eq_true_eq] at h
  omega

theorem strtol_octal (ds : List Char) (hall : ∀ x ∈ ds, is_octal_digit x = true)
    (hv : octal_value ds ≤ 2 ^ 63 - 1) :
    strtol ('0' :: ds) = ⟨(octal_value ds : Int), ('0' :: ds).length, false⟩ := by
  have hx : ¬ (ds.head? = some 'x' ∨ ds.head? = some 'X') := by
    rcases ds with _ | ⟨p, hs⟩
    · simp
    · have hp := hall p (List.mem_cons_self _ _)
      simp only [List.head?_cons, Option.some.injEq]
      rintro (rfl | rfl) <;> revert hp <;> decide
  have hall0 : ∀ x ∈ '0' :: ds, is_octal_digit x = true := by
    intro x hx
    rcases List.mem_cons.1 hx with rfl | hx
    · decide
    · exact hall x hx
  have hsub : strtol_subject ('0' :: ds) = (octal_value ds, ('0' :: ds).length) := by
    rw [strtol_subject_octal ds hx]
    have hfun : is_digit_of 8 = is_octal_digit := funext is_digit_of_eight
    rw [hfun, takeWhile_eq_self_of_forall _ _ hall, digits_value_octal _ hall0,
      octal_value_zero_cons]
    simp [Nat.add_comm]
  rw [strtol_of_digit_head '0' ds (by decide), hsub]
  have h2 : ¬ (octal_value ds > 2 ^ 63 - 1) := by omega
  simp only [List.length_cons, Nat.add_one_ne_zero, if_false, h2]

theorem strtol_hex (p : Char) (ds : List Char) (hp : p = 'x' ∨ p = 'X') (hne : ds ≠ [])
    (hall : ∀ x ∈ ds, is_hex_digit x = true) (hv : hex_value ds ≤ 2 ^ 63 - 1) :
    strtol ('0' :: p :: ds) = ⟨(hex_value ds : Int), ('0' :: p :: ds).length, false⟩ := by
  have hsub : strtol_subject ('0' :: p :: ds) = (hex_value ds, ('0' :: p :: ds).length) := by
    rw [strtol_subject_hex p ds hp]
    have hfun : is_digit_of 16 = is_hex_digit := funext is_digit_of_sixteen
    rw [hfun, takeWhile_eq_self_of_forall _ _ hall, digits_value_hex _ hall]
    have : ds.isEmpty = false := by
      cases ds with
      | nil => exact absurd rfl hne
      | cons _ _ => rfl
    simp only [this, Bool.false_eq_true, if_false, List.length_cons, Prod.mk.injEq, true_and]
    omega
  rw [strtol_of_digit_head '0' (p :: ds) (by decide), hsub]
  have h2 : ¬ (hex_value ds > 2 ^ 63 - 1) := by omega
  simp only [List.length_cons, Nat.add_one_ne_zero, if_false, h2]

theorem not_literal_leading_zero (ds : List Char) (hall : ∀ x ∈ ds, x.isDigit = true)
    (hbad : ∃ x ∈ ds, is_octal_digit x = false) : is_integer_literal ('0' :: ds) = false := by
  rcases ds with _ | ⟨p, hs⟩
  · simp at hbad
  · have hp := hall p (List.mem_cons_self _ _)
    have hpx : ¬ (p = 'x' ∨ p = 'X') := by
      rintro (rfl | rfl) <;> revert hp <;> decide
    have h0 : isspace '0' = false := by decide
    obtain ⟨x, hx, hxo⟩ := hbad
    have : ¬ ((p :: hs).all is_octal_digit = true) := by
      rw [List.all_eq_true]
      intro h
      rw [h x hx] at hxo
      exact absurd hxo (by decide)
    simp only [is_integer_literal, List.dropWhile_cons, h0, Bool.false_eq_true, if_false,
      is_literal_body, if_true, hpx]
    simpa using this


/-! ## The integer parsers -/

theorem parse_integer_reject (c : String) (val errno : Int)
    (h : is_integer_literal c.toList = false) : parse_integer c val errno = (-1, val) := by
  have h2 := (strtol_incomplete_iff c.toList).2 h
  simp only [parse_integer, Bool.or_eq_true, beq_iff_eq, decide_eq_true_eq, h2, if_true]

theorem parse_uint32_reject (c : String) (val : Nat) (errno : Int)
    (h : is_integer_literal c.toList = false) : parse_uint32 c val errno = (-1, val) := by
  have h2 := (strtol_incomplete_iff c.toList).2 h
  simp only [parse_uint32, Bool.or_eq_true, beq_iff_eq, decide_eq_true_eq, h2, if_true]

theorem parse_uint16_reject (c : String) (val : Nat) (errno : Int)
    (h : is_integer_literal c.toList = false) : parse_uint16 c val errno = (-1, val) := by
  have h2 := (strtol_incomplete_iff c.toList).2 h
  simp only [parse_uint16, Bool.or_eq_true, beq_iff_eq, decide_eq_true_eq, h2, if_true]

theorem parse_integer_accept (c : String) (val errno : Int)
    (h : is_integer_literal c.toList = true) : (parse_integer c val errno).1 ≠ -1 := by
  have h2 : ¬ ((strtol c.toList).endptr = 0 ∨ (strtol c.toList).endptr < c.toList.length) := by
    rw [strtol_incomplete_iff, h]; decide
  simp only [parse_integer, Bool.or_eq_true, beq_iff_eq, decide_eq_true_eq, h2, if_false]
  split_ifs <;> simp [ERANGE]

theorem parse_uint32_accept (c : String) (val : Nat) (errno : Int)
    (h : is_integer_literal c.toList = true) : (parse_uint32 c val errno).1 ≠ -1 := by
  have h2 : ¬ ((strtol c.toList).endptr = 0 ∨ (strtol c.toList).endptr < c.toList.length) := by
    rw [strtol_incomplete_iff, h]; decide
  simp only [parse_uint32, Bool.or_eq_true, beq_iff_eq, decide_eq_true_eq, h2, if_false]
  split_ifs <;> simp [ERANGE]

theorem parse_uint16_accept (c : String) (val : Nat) (errno : Int)
    (h : is_integer_literal c.toList = true) : (parse_uint16 c val errno).1 ≠ -1 := by
  have h2 : ¬ ((strtol c.toList).endptr = 0 ∨ (strtol c.toList).endptr < c.toList.length) := by
    rw [strtol_incomplete_iff, h]; decide
  simp only [parse_uint16, Bool.or_eq_true, beq_iff_eq, decide_eq_true_eq, h2, if_false]
  split_ifs <;> simp [ERANGE]

theorem parse_integer_negative_unchanged (c : String) (val errno : Int)
    (h : (parse_integer c val errno).1 < 0) : (parse_integer c val errno).2 = val := by
  revert h
  simp only [parse_integer]
  split_ifs <;> simp

theorem parse_uint32_negative_unchanged (c : String) (val : Nat) (errno : Int)
    (h : (parse_uint32 c val errno).1 < 0) : (parse_uint32 c val errno).2 = val := by
  revert h
  simp only [parse_uint32]
  split_ifs <;> simp

theorem parse_uint16_negative_unchanged (c : String) (val : Nat) (errno : Int)
    (h : (parse_uint16 c val errno).1 < 0) : (parse_uint16 c val errno).2 = val := by
  revert h
  simp only [parse_uint16]
  split_ifs <;> simp

theorem not_literal_of_no_digit (c : List Char) (h : ∀ x ∈ c, x.isDigit = false) :
    is_integer_literal c = false := by
  have hbody : ∀ b : List Char, (∀ x ∈ b, x.isDigit = false) → is_literal_body b = false := by
    intro b hb
    rcases b with _ | ⟨d, ds⟩
    · rfl
    · have hd := hb d (List.mem_cons_self _ _)
      have hd0 : d ≠ '0' := by rintro rfl; revert hd; decide
      simp [is_literal_body, hd0, hd]
  have hsub : ∀ x ∈ c.dropWhile isspace, x.isDigit = false :=
    fun x hx => h x ((List.dropWhile_sublist isspace).subset hx)
  unfold is_integer_literal
  rcases hs : c.dropWhile isspace with _ | ⟨x, t⟩
  · rfl
  · rw [hs] at hsub
    simp only
    split_ifs
    · exact hbody t (fun y hy => hsub y (List.mem_cons_of_mem _ hy))
    · exact hbody (x :: t) hsub

theorem not_literal_body_append (b : List Char) (x : Char) (hx : is_hex_digit x = false)
    (h1 : x ≠ 'x') (h2 : x ≠ 'X') : is_literal_body (b ++ [x]) = false := by
  have hdig : x.isDigit = false := by
    unfold is_hex_digit at hx
    simp only [Bool.or_eq_false_iff] at hx
    exact hx.1.1
  have hoct : is_octal_digit x = false := by
    rw [Bool.eq_false_iff]
    intro h
    rw [isDigit_of_is_octal_digit x h] at hdig
    exact absurd hdig (by decide)
  have h0 : x ≠ '0' := by rintro rfl; revert hdig; decide
  rcases b with _ | ⟨d, _ | ⟨p, hs⟩⟩
  · simp [is_literal_body, h0, hdig]
  · by_cases hd : d = '0'
    · simp [is_literal_body, hd, h1, h2, hoct]
    · simp [is_literal_body, hd, hdig]
  · by_cases hd : d = '0'
    · by_cases hp : p = 'x' ∨ p = 'X'
      · simp [is_literal_body, hd, hp, hx]
      · simp [is_literal_body, hd, hp, hoct]
    · simp [is_literal_body, hd, hdig]

theorem not_literal_append (lit : List Char) (x : Char) (hlit : is_integer_literal lit = true)
    (hx : is_hex_digit x = false) (h1 : x ≠ 'x') (h2 : x ≠ 'X') :
    is_integer_literal (lit ++ [x]) = false := by
  unfold is_integer_literal at hlit ⊢
  have hne : lit.dropWhile isspace ≠ [] := by
    intro h; rw [h] at hlit; exact absurd hlit (by decide)
  have happ : (lit ++ [x]).dropWhile isspace = lit.dropWhile isspace ++ [x] := by
    clear hlit
    induction lit with
    | nil => exact absurd rfl hne
    | cons a l ih =>
      rw [List.cons_append, List.dropWhile_cons, List.dropWhile_cons]
      by_cases ha : isspace a = true
      · rw [if_pos ha, if_pos ha]
        rw [List.dropWhile_cons, if_pos ha] at hne
        exact ih hne
      · rw [if_neg ha, if_neg ha]; rfl
  rw [happ]
  rcases hs : lit.dropWhile isspace with _ | ⟨y, t⟩
  · exact absurd hs hne
  · simp only [List.cons_append]
    split_ifs
    · exact not_literal_body_append t x hx h1 h2
    · exact not_literal_body_append (y :: t) x hx h1 h2


/-- C2: at the text "4294967295", the largest value of the 32-bit unsigned target,
`parse_uint32` returns `-ERANGE` and stores nothing: its range check is the one
of `parse_integer`, `INT_MIN..INT_MAX`, not the width of the target. -/
theorem parse_uint32_rejects_uint32_max (val : Nat) (errno : Int) :
    parse_uint32 "4294967295" val errno = (-ERANGE, val) := by
  have h : strtol "4294967295".toList = ⟨4294967295, 10, false⟩ := by decide
  simp only [parse_uint32, h]
  have h1 : ("4294967295" : String).toList.length = 10 := by decide
  rw [h1]
  simp [LONG_MAX, LONG_MIN, INT_MAX, INT_MIN]

/-- C3: at the text "-1" `parse_uint16` returns 0 and stores 65535: it checks the
upper bound `0xffff` only, so a negative value is stored reduced modulo 2^16. -/
theorem parse_uint16_accepts_negative (val : Nat) (errno : Int) :
    parse_uint16 "-1" val errno = (0, 65535) := by
  have h : strtol "-1".toList = ⟨-1, 2, false⟩ := by decide
  simp only [parse_uint16, h]
  have h1 : ("-1" : String).toList.length = 2 := by decide
  rw [h1]
  simp [LONG_MAX, LONG_MIN]

/-- C4, as stated, fails: digits that start with a zero are read in base 8, so
"010" gives 8 and not 10, and "08" is rejected. -/
theorem parse_integer_leading_zero_not_decimal :
    parse_integer "010" 0 0 = (0, 8) ∧ parse_integer "010" 0 0 ≠ (0, 10) ∧
      parse_integer "08" 0 0 = (-1, 0) ∧ parse_integer "08" 0 0 ≠ (0, 8) := by
  decide

/-- C4, amended: a non-empty string of decimal digits that does not start with
`0` and whose base-10 value is at most 2^31-1 is stored with that value; digits
that start with `0` are read in base 8 (stored with the base-8 value when all of
them are octal digits, rejected with -1 when a digit 8 or 9 occurs); a `0x`
or `0X` prefix followed by hexadecimal digits of value at most 2^31-1 is stored
with the base-16 value. -/
theorem parse_integer_literal_value (c : String) (val errno : Int) :
    (c.toList ≠ [] → (∀ x ∈ c.toList, x.isDigit = true) → c.toList.head? ≠ some '0' →
        decimal_value c.toList ≤ 2 ^ 31 - 1 →
        parse_integer c val errno = (0, (decimal_value c.toList : Int))) ∧
    (∀ ds, c.toList = '0' :: ds → (∀ x ∈ ds, is_octal_digit x = true) →
        octal_value ds ≤ 2 ^ 31 - 1 →
        parse_integer c val errno = (0, (octal_value ds : Int))) ∧
    (∀ ds, c.toList = '0' :: ds → (∀ x ∈ ds, x.isDigit = true) →
        (∃ x ∈ ds, is_octal_digit x = false) →
        parse_integer c val errno = (-1, val)) ∧
    (∀ p ds, c.toList = '0' :: p :: ds → (p = 'x' ∨ p = 'X') → ds ≠ [] →
        (∀ x ∈ ds, is_hex_digit x = true) → hex_value ds ≤ 2 ^ 31 - 1 →
        parse_integer c val errno = (0, (hex_value ds : Int))) := by
  refine ⟨?_, ?_, ?_, ?_⟩
  · intro hne hall hz hv
    obtain ⟨d, ds, hc⟩ := List.exists_cons_of_ne_nil hne
    have hd : d ≠ '0' := by
      intro h; apply hz; rw [hc, h]; rfl
    have hst := strtol_decimal d ds (by rw [← hc]; exact hall) hd (by rw [← hc]; omega)
    rw [← hc] at hst
    apply parse_integer_of_strtol c val errno _ hst hne
    · unfold INT_MIN; omega
    · unfold INT_MAX; omega
  · intro ds hc hall hv
    have hst := strtol_octal ds hall (by omega)
    rw [← hc] at hst
    apply parse_integer_of_strtol c val errno _ hst (by rw [hc]; simp)
    · unfold INT_MIN; omega
    · unfold INT_MAX; omega
  · intro ds hc hall hbad
    apply parse_integer_reject
    rw [hc]
    exact not_literal_leading_zero ds hall hbad
  · intro p ds hc hp hne hall hv
    have hst := strtol_hex p ds hp hne hall (by omega)
    rw [← hc] at hst
    apply parse_integer_of_strtol c val errno _ hst (by rw [hc]; simp)
    · unfold INT_MIN; omega
    · unfold INT_MAX; omega

/-- The amended C4 at "2147483647", "010", "08" and "0x1F". -/
theorem parse_integer_literal_value_witness :
    parse_integer "2147483647" 5 0 = (0, 2147483647) ∧ parse_integer "010" 5 0 = (0, 8) ∧
      parse_integer "08" 5 0 = (-1, 5) ∧ parse_integer "0x1F" 5 0 = (0, 31) :=
  ⟨(parse_integer_literal_value "2147483647" 5 0).1 (by decide) (by decide) (by decide)
      (by decide),
   (parse_integer_literal_value "010" 5 0).2.1 "10".toList rfl (by decide) (by decide),
   (parse_integer_literal_value "08" 5 0).2.2.1 "8".toList rfl (by decide) (by decide),
   (parse_integer_literal_value "0x1F" 5 0).2.2.2 'x' "1F".toList rfl (by decide) (by decide)
      (by decide) (by decide)⟩

/-- C5: a text that is not one complete integer literal (in particular the empty
text, a text without a digit, a literal followed by a character that is no
digit and no `x`, "12x", "12 ") makes `parse_integer`, `parse_uint32` and
`parse_uint16` return -1 with the output variable unchanged, while a complete
literal is never answered with -1; and whenever one of the three returns a
negative result the output variable is unchanged. -/
theorem parsers_reject_incomplete_text (c : String) (val : Int) (uval : Nat) (errno : Int) :
    (is_integer_literal c.toList = false →
        parse_integer c val errno = (-1, val) ∧ parse_uint32 c uval errno = (-1, uval) ∧
          parse_uint16 c uval errno = (-1, uval)) ∧
    (is_integer_literal c.toList = true →
        (parse_integer c val errno).1 ≠ -1 ∧ (parse_uint32 c uval errno).1 ≠ -1 ∧
          (parse_uint16 c uval errno).1 ≠ -1) ∧
    ((parse_integer c val errno).1 < 0 → (parse_integer c val errno).2 = val) ∧
    ((parse_uint32 c uval errno).1 < 0 → (parse_uint32 c uval errno).2 = uval) ∧
    ((parse_uint16 c uval errno).1 < 0 → (parse_uint16 c uval errno).2 = uval) ∧
    (c.toList = [] → is_integer_literal c.toList = false) ∧
    ((∀ x ∈ c.toList, x.isDigit = false) → is_integer_literal c.toList = false) ∧
    (∀ lit x, c.toList = lit ++ [x] → is_integer_literal lit = true →
        is_hex_digit x = false → x ≠ 'x' → x ≠ 'X' → is_integer_literal c.toList = false) ∧
    is_integer_literal "12x".toList = false ∧ is_integer_literal "12 ".toList = false := by
  refine ⟨fun h => ⟨parse_integer_reject c val errno h, parse_uint32_reject c uval errno h,
      parse_uint16_reject c uval errno h⟩,
    fun h => ⟨parse_integer_accept c val errno h, parse_uint32_accept c uval errno h,
      parse_uint16_accept c uval errno h⟩,
    parse_integer_negative_unchanged c val errno, parse_uint32_negative_unchanged c uval errno,
    parse_uint16_negative_unchanged c uval errno, ?_, not_literal_of_no_digit c.toList, ?_,
    by decide, by decide⟩
  · intro h; rw [h]; rfl
  · intro lit x hc hlit hx h1 h2
    rw [hc]
    exact not_literal_append lit x hlit hx h1 h2

/-- C5 at the texts "12x", "12 ", "" and "abc". -/
theorem parsers_reject_incomplete_text_witness :
    (parse_integer "12x" 7 0 = (-1, 7) ∧ parse_uint32 "12x" 9 0 = (-1, 9) ∧
        parse_uint16 "12x" 9 0 = (-1, 9)) ∧
    (parse_integer "12 " 7 0 = (-1, 7) ∧ parse_uint32 "12 " 9 0 = (-1, 9) ∧
        parse_uint16 "12 " 9 0 = (-1, 9)) ∧
    (parse_integer "" 7 0 = (-1, 7) ∧ parse_uint32 "" 9 0 = (-1, 9) ∧
        parse_uint16 "" 9 0 = (-1, 9)) ∧
    (parse_integer "abc" 7 0 = (-1, 7) ∧ parse_uint32 "abc" 9 0 = (-1, 9) ∧
        parse_uint16 "abc" 9 0 = (-1, 9)) ∧
    (parse_uint32 "4294967296" 9 0).2 = 9 :=
  ⟨(parsers_reject_incomplete_text "12x" 7 9 0).1
      ((parsers_reject_incomplete_text "12x" 7 9 0).2.2.2.2.2.2.2.2.1),
   (parsers_reject_incomplete_text "12 " 7 9 0).1
      ((parsers_reject_incomplete_text "12 " 7 9 0).2.2.2.2.2.2.2.1 "12".toList ' ' rfl
        (by decide) (by decide) (by decide) (by decide)),
   (parsers_reject_incomplete_text "" 7 9 0).1
      ((parsers_reject_incomplete_text "" 7 9 0).2.2.2.2.2.1 rfl),
   (parsers_reject_incomplete_text "abc" 7 9 0).1
      ((parsers_reject_incomplete_text "abc" 7 9 0).2.2.2.2.2.2.1 (by decide)),
   (parsers_reject_incomplete_text "4294967296" 7 9 0).2.2.2.1 (by decide)⟩


/-! ## The serializer -/

theorem ite_append (c : Prop) [Decidable c] (s t : String) :
    (if c then s ++ t else s) = s ++ (if c then t else "") := by
  split <;> simp

theorem foldl_append_init (l : List String) (init : String) :
    l.foldl (fun r s => r ++ s) init = init ++ l.foldl (fun r s => r ++ s) "" := by
  induction l generalizing init with
  | nil => simp
  | cons x xs ih =>
    simp only [List.foldl_cons, String.empty_append]
    rw [ih (init ++ x), ih x, String.append_assoc]

theorem join_cons (x : String) (xs : List String) :
    String.join (x :: xs) = x ++ String.join xs := by
  unfold String.join
  rw [List.foldl_cons, String.empty_append, foldl_append_init]

theorem join_nil : String.join [] = "" := rfl

theorem foldl_append_eq (f : String → String) (keys : List String) (config : String) :
    keys.foldl (fun acc key => acc ++ f key) config = config ++ String.join (keys.map f) := by
  induction keys generalizing config with
  | nil => simp [join_nil]
  | cons k ks ih =>
    rw [List.foldl_cons, ih, List.map_cons, join_cons, String.append_assoc]

theorem set_foreach_append_nameservers (s : Set) (config : String) :
    set_foreach s append_nameservers config =
      config ++ String.join (s.keys.map (fun k => k ++ " ")) := by
  unfold set_foreach append_nameservers g_string_append
  exact foldl_append_eq (fun k => k ++ " ") s.keys config

theorem set_foreach_append_ntp (s : Set) (config : String) :
    set_foreach s append_ntp config =
      config ++ String.join (s.keys.map (fun k => k ++ " ")) := by
  unfold set_foreach append_ntp g_string_append
  exact foldl_append_eq (fun k => k ++ " ") s.keys config

theorem set_foreach_append_addresses (s : Set) (config : String) :
    set_foreach s append_addresses config =
      config ++ String.join (s.keys.map (fun a => "\n[Address]\nAddress=" ++ a ++ "\n")) := by
  unfold set_foreach append_addresses g_string_append
  simp only [String.append_assoc]
  exact foldl_append_eq (fun a => "\n[Address]\n" ++ ("Address=" ++ (a ++ "\n"))) s.keys config

theorem append_routes_eq (X : Externals) (route : Route) (config : String) :
    append_routes X route config = config ++ route_section X route := by
  unfold append_routes route_section g_string_append
  cases h1 : Externals.ip_is_null X route.destination <;>
    cases h2 : Externals.ip_is_null X route.gw <;> simp [String.append_assoc]

theorem foldl_append_routes (X : Externals) (routes : List Route) (config : String) :
    routes.foldl (fun config route => append_routes X route config) config =
      config ++ String.join (routes.map (route_section X)) := by
  induction routes generalizing config with
  | nil => simp [join_nil]
  | cons r rs ih =>
    rw [List.foldl_cons, ih, List.map_cons, join_cons, append_routes_eq, String.append_assoc]


theorem generate_match_eq (n : Network) (config : String) :
    generate_match n config = config ++ match_section n := by
  cases hi : n.ifname <;> cases hm : n.match_mac <;>
    simp [generate_match, match_section, g_string_append, opt_line, fmt_s, hi, hm,
      String.append_assoc]

theorem generate_link_eq (n : Network) (config : String) :
    generate_link n config = config ++ link_section n := by
  by_cases h1 : 0 < n.mtu <;> cases hm : n.mac <;>
    simp [generate_link, link_section, g_string_append, opt_line, fmt_s, h1, hm,
      String.append_assoc]

theorem list_line_eq_of_keys (key : String) (s : Set) (config : String) :
    (if set_size s > 0 then
        config ++ (key ++ "=") ++ String.join (s.keys.map (fun k => k ++ " ")) ++ "\n"
      else config) = config ++ list_line key (some s) := by
  unfold set_size list_line
  rcases hk : s.keys with _ | ⟨k, ks⟩
  · simp [hk]
  · simp [hk, String.append_assoc]

theorem generate_network_eq (X : Externals) (n : Network) (config : String) :
    generate_network X n config =
      config ++ "[Network]\n" ++ network_lines X n ++ list_line "DNS" n.nameservers ++
        list_line "NTP" n.ntps := by
  have hdns : ∀ c : String, (match n.nameservers with
      | some nameservers =>
        if set_size nameservers > 0 then
          let config := g_string_append c "DNS="
          let config := set_foreach nameservers append_nameservers config
          g_string_append config "\n"
        else c
      | none => c) = c ++ list_line "DNS" n.nameservers := by
    intro c
    cases n.nameservers with
    | none => simp [list_line]
    | some s =>
      simp only [g_string_append, set_foreach_append_nameservers]
      exact list_line_eq_of_keys "DNS" s c
  have hntp : ∀ c : String, (match n.ntps with
      | some ntps =>
        if set_size ntps > 0 then
          let config := g_string_append c "NTP="
          let config := set_foreach ntps append_ntp config
          g_string_append config "\n"
        else c
      | none => c) = c ++ list_line "NTP" n.ntps := by
    intro c
    cases n.ntps with
    | none => simp [list_line]
    | some s =>
      simp only [g_string_append, set_foreach_append_ntp]
      exact list_line_eq_of_keys "NTP" s c
  unfold generate_network
  simp only [hdns, hntp]
  by_cases h1 : n.dhcp_type = _DHCP_MODE_INVALID <;>
    by_cases h2 : n.parser_type = PARSER_TYPE_YAML <;>
    by_cases h3 : n.lldp = -1 <;>
    by_cases h4 : n.link_local = _LINK_LOCAL_ADDRESS_INVALID <;>
    by_cases h5 : n.ipv6_accept_ra = -1 <;>
    simp [network_lines, tri_line, g_string_append, h1, h2, h3, h4, h5, String.append_assoc]

theorem generate_dhcp_eq (n : Network) (config : String) :
    generate_dhcp n config = config ++ dhcp_section n := by
  by_cases h1 : n.use_dns = -1 <;>
    by_cases h2 : n.use_domains = -1 <;>
    by_cases h3 : n.use_mtu = -1 <;>
    by_cases h4 : n.dhcp_client_identifier_type = _DHCP_CLIENT_IDENTIFIER_INVALID <;>
    simp [generate_dhcp, dhcp_section, tri_line, g_string_append, h1, h2, h3, h4,
      String.append_assoc]

theorem generate_addresses_eq (n : Network) (config : String) :
    generate_addresses n config = config ++ address_sections n := by
  unfold generate_addresses address_sections
  cases n.addresses with
  | none => simp
  | some s =>
    simp only [set_foreach_append_addresses, set_size]
    rcases hk : s.keys with _ | ⟨k, ks⟩
    · simp [join_nil]
    · simp

theorem generate_gateway_eq (X : Externals) (n : Network) (config : String) :
    generate_gateway X n config = config ++ gateway_section X n := by
  unfold generate_gateway gateway_section
  cases n.gateway with
  | none => simp
  | some g =>
    by_cases h1 : Externals.ip_is_null X g = true <;>
      by_cases h2 : n.gateway_onlink = -1 <;>
      simp [tri_line, g_string_append, h1, h2, String.append_assoc]

theorem generate_routes_eq (X : Externals) (n : Network) (config : String) :
    generate_routes X n config = config ++ route_sections X n := by
  unfold generate_routes route_sections
  cases n.routes with
  | none => simp
  | some rs => exact foldl_append_routes X rs config

/-- The output of the serializer, section by section. -/
theorem generate_network_config_sections (X : Externals) (n : Network) :
    (generate_network_config X n).2 =
      match_section n ++ link_section n ++ "[Network]\n" ++ network_lines X n ++
        list_line "DNS" n.nameservers ++ list_line "NTP" n.ntps ++ dhcp_section n ++
        address_sections n ++ gateway_section X n ++ route_sections X n := by
  simp only [generate_network_config, generate_match_eq, generate_link_eq,
    generate_network_eq, generate_dhcp_eq, generate_addresses_eq, generate_gateway_eq,
    generate_routes_eq, String.empty_append]


/-- C6: the output of `generate_network_config` begins with the line `[Match]`;
the section holds `Name=<ifname>` exactly when the name is set, then
`MACAddress=<match_mac>` exactly when the match MAC is set, and nothing else:
the blank line that ends it follows, and after it the header of the next
section, `[Link]` or `[Network]`. -/
theorem match_section_first (X : Externals) (n : Network) :
    ∃ rest, (generate_network_config X n).2 =
        "[Match]\n" ++ opt_line "Name" n.ifname ++ opt_line "MACAddress" n.match_mac ++ "\n" ++
          rest ∧
      ((∃ r, rest = "[Link]\n" ++ r) ∨ ∃ r, rest = "[Network]\n" ++ r) := by
  refine ⟨link_section n ++ "[Network]\n" ++ network_lines X n ++
      list_line "DNS" n.nameservers ++ list_line "NTP" n.ntps ++ dhcp_section n ++
      address_sections n ++ gateway_section X n ++ route_sections X n, ?_, ?_⟩
  · rw [generate_network_config_sections]
    simp only [match_section, String.append_assoc]
  · by_cases h : 0 < n.mtu ∨ n.mac ≠ none
    · left
      refine ⟨(if 0 < n.mtu then "MTUBytes=" ++ fmt_d n.mtu ++ "\n" else "") ++
        opt_line "MACAddress" n.mac ++ "\n" ++ "[Network]\n" ++ network_lines X n ++
        list_line "DNS" n.nameservers ++ list_line "NTP" n.ntps ++ dhcp_section n ++
        address_sections n ++ gateway_section X n ++ route_sections X n, ?_⟩
      simp only [link_section, if_pos h, String.append_assoc]
    · right
      refine ⟨network_lines X n ++
        list_line "DNS" n.nameservers ++ list_line "NTP" n.ntps ++ dhcp_section n ++
        address_sections n ++ gateway_section X n ++ route_sections X n, ?_⟩
      simp only [link_section, if_neg h, String.append_assoc, String.empty_append]

/-- C8: the `[Network]` header is always emitted, right after the match and link
sections, and for the record that `network_new` creates, with no field
written, the whole output is the match header, a blank line and the network
header. -/
theorem network_header_always (X : Externals) :
    (∀ n : Network, ∃ rest, (generate_network_config X n).2 =
        match_section n ++ link_section n ++ "[Network]\n" ++ rest) ∧
      network_new.1 = 0 ∧
      generate_network_config X network_new.2 = (0, "[Match]\n\n[Network]\n") := by
  refine ⟨fun n => ⟨network_lines X n ++
      list_line "DNS" n.nameservers ++ list_line "NTP" n.ntps ++ dhcp_section n ++
      address_sections n ++ gateway_section X n ++ route_sections X n, ?_⟩, rfl, rfl⟩
  rw [generate_network_config_sections]
  simp only [String.append_assoc]

/-- C9: between the network section and the address sections the output holds a
`[DHCP]` section exactly when one of use-DNS, use-domains, use-MTU or the
client identifier is set; its lines are, in this order, `ClientIdentifier=`,
`UseDNS=`, `UseDomains=` and `UseMTU=`, each present exactly when its own field
is set. -/
theorem dhcp_section_emitted (X : Externals) (n : Network) :
    (generate_network_config X n).2 =
      match_section n ++ link_section n ++ "[Network]\n" ++ network_lines X n ++
        list_line "DNS" n.nameservers ++ list_line "NTP" n.ntps ++
        (if n.use_dns ≠ -1 ∨ n.use_domains ≠ -1 ∨ n.use_mtu ≠ -1 ∨
            n.dhcp_client_identifier_type ≠ _DHCP_CLIENT_IDENTIFIER_INVALID then
          "\n[DHCP]\n" ++
            (if n.dhcp_client_identifier_type ≠ _DHCP_CLIENT_IDENTIFIER_INVALID then
              "ClientIdentifier=" ++
                fmt_s (dhcp_client_identifier_to_name n.dhcp_client_identifier_type) ++ "\n"
             else "") ++
            (if n.use_dns ≠ -1 then "UseDNS=" ++ bool_to_string n.use_dns ++ "\n" else "") ++
            (if n.use_domains ≠ -1 then "UseDomains=" ++ bool_to_string n.use_domains ++ "\n"
             else "") ++
            (if n.use_mtu ≠ -1 then "UseMTU=" ++ bool_to_string n.use_mtu ++ "\n" else "")
         else "") ++
        address_sections n ++ gateway_section X n ++ route_sections X n := by
  rw [generate_network_config_sections]
  congr 3
  by_cases h1 : n.use_dns = -1 <;>
    by_cases h2 : n.use_domains = -1 <;>
    by_cases h3 : n.use_mtu = -1 <;>
    by_cases h4 : n.dhcp_client_identifier_type = _DHCP_CLIENT_IDENTIFIER_INVALID <;>
    simp [dhcp_section, tri_line, h1, h2, h3, h4]

/-- C10, as stated, fails: the DNS line of a record with two nameservers ends with
a space, a separator follows the last nameserver. -/
theorem dns_line_has_trailing_space :
    (∀ X : Externals, (generate_network_config X two_nameservers).2 =
        "[Match]\n\n[Network]\nDNS=8.8.8.8 1.1.1.1 \n") ∧
      "[Match]\n\n[Network]\nDNS=8.8.8.8 1.1.1.1 \n" ≠
        "[Match]\n\n[Network]\nDNS=8.8.8.8 1.1.1.1\n" :=
  ⟨fun _ => rfl, by decide⟩

/-- C10, amended: in the network section, after the lines of the scalar fields, a
record with a non-empty nameserver set has one line `DNS=` followed by every
nameserver, each followed by one space (so a space precedes the end of the
line); a record whose nameserver set is empty or absent has no DNS line. -/
theorem dns_line_emitted (X : Externals) (n : Network) :
    (generate_network_config X n).2 =
        match_section n ++ link_section n ++ "[Network]\n" ++ network_lines X n ++
          list_line "DNS" n.nameservers ++ list_line "NTP" n.ntps ++ dhcp_section n ++
          address_sections n ++ gateway_section X n ++ route_sections X n ∧
      (∀ s : Set, n.nameservers = some s → s.keys ≠ [] →
        list_line "DNS" n.nameservers =
          "DNS=" ++ String.join (s.keys.map (fun k => k ++ " ")) ++ "\n") ∧
      (∀ s : Set, n.nameservers = some s → s.keys = [] → list_line "DNS" n.nameservers = "") ∧
      (n.nameservers = none → list_line "DNS" n.nameservers = "") := by
  refine ⟨generate_network_config_sections X n, ?_, ?_, ?_⟩
  · intro s hs hk
    rw [hs]
    simp [list_line, hk]
  · intro s hs hk
    rw [hs]
    simp [list_line, hk]
  · intro h
    rw [h]
    rfl

/-- The amended C10 at the record with two nameservers. -/
theorem dns_line_emitted_witness :
    list_line "DNS" two_nameservers.nameservers = "DNS=8.8.8.8 1.1.1.1 \n" :=
  ((dns_line_emitted ⟨fun _ => none, fun _ => true, fun _ _ => none, fun _ _ => none⟩
    two_nameservers).2.1 ⟨["8.8.8.8", "1.1.1.1"]⟩ rfl (by decide)).trans (by decide)


/-! ## The accepted range of `parse_uint32` on decimal texts -/

theorem strtol_decimal_clamped (d : Char) (ds : List Char)
    (hall : ∀ x ∈ d :: ds, x.isDigit = true) (hd : d ≠ '0') :
    strtol (d :: ds) =
      if decimal_value (d :: ds) > 2 ^ 63 - 1 then ⟨LONG_MAX, (d :: ds).length, true⟩
      else ⟨(decimal_value (d :: ds) : Int), (d :: ds).length, false⟩ := by
  have hsub : strtol_subject (d :: ds) = (decimal_value (d :: ds), (d :: ds).length) := by
    rw [strtol_subject_decimal d ds hd]
    have hfun : is_digit_of 10 = Char.isDigit := funext is_digit_of_ten
    rw [hfun, takeWhile_eq_self_of_forall _ _ hall, digits_value_decimal _ hall]
    simp
  rw [strtol_of_digit_head d ds (hall d (List.mem_cons_self _ _)), hsub]
  simp only [List.length_cons, Nat.add_one_ne_zero, if_false]

/-- On a decimal text without leading zero `parse_uint32` accepts exactly the
values up to `INT_MAX`: a value from 2^31 on is answered with `-ERANGE`. -/
theorem parse_uint32_decimal_range (c : String) (val : Nat) (errno : Int)
    (hne : c.toList ≠ []) (hall : ∀ x ∈ c.toList, x.isDigit = true)
    (hz : c.toList.head? ≠ some '0') :
    (decimal_value c.toList ≤ 2 ^ 31 - 1 →
        parse_uint32 c val errno = (0, decimal_value c.toList)) ∧
    (2 ^ 31 ≤ decimal_value c.toList → parse_uint32 c val errno = (-ERANGE, val)) := by
  obtain ⟨d, ds, hc⟩ := List.exists_cons_of_ne_nil hne
  have hd : d ≠ '0' := by
    intro h; apply hz; rw [hc, h]; rfl
  have hst := strtol_decimal_clamped d ds (by rw [← hc]; exact hall) hd
  rw [← hc] at hst
  have hlen : ¬ c.length = 0 := by
    intro h0; exact hne (List.length_eq_zero.1 h0)
  generalize decimal_value c.toList = v at hst ⊢
  constructor
  · intro hv
    have h1 : ¬ (v > 2 ^ 63 - 1) := by omega
    rw [if_neg h1] at hst
    simp only [parse_uint32, hst]
    have h2 : ¬ ((v : Int) = LONG_MAX) := by unfold LONG_MAX; omega
    have h3 : ¬ ((v : Int) = LONG_MIN) := by unfold LONG_MIN; omega
    have h4 : ¬ ((v : Int) < INT_MIN) := by unfold INT_MIN; omega
    have h5 : ¬ ((v : Int) > INT_MAX) := by unfold INT_MAX; omega
    have h7 : ((v : Int) % 4294967296).toNat = v := by omega
    simp [hlen, h2, h3, h4, h5, h7]
  · intro hv
    by_cases h1 : v > 2 ^ 63 - 1
    · rw [if_pos h1] at hst
      simp only [parse_uint32, hst]
      simp [hlen]
    · rw [if_neg h1] at hst
      simp only [parse_uint32, hst]
      have h5 : (v : Int) > INT_MAX := by unfold INT_MAX; omega
      simp only [h5]
      simp [hlen]


/-! ## `parse_uint16` on negative decimal texts -/

theorem strtol_negative_decimal (d : Char) (ds : List Char)
    (hall : ∀ x ∈ d :: ds, x.isDigit = true) (hd : d ≠ '0')
    (hv : decimal_value (d :: ds) ≤ 2 ^ 63) :
    strtol ('-' :: d :: ds) =
      ⟨-(decimal_value (d :: ds) : Int), ('-' :: d :: ds).length, false⟩ := by
  have hsub : strtol_subject (d :: ds) = (decimal_value (d :: ds), (d :: ds).length) := by
    rw [strtol_subject_decimal d ds hd]
    have hfun : is_digit_of 10 = Char.isDigit := funext is_digit_of_ten
    rw [hfun, takeWhile_eq_self_of_forall _ _ hall, digits_value_decimal _ hall]
    simp
  have hs : isspace '-' = false := by decide
  have h2 : ¬ (decimal_value (d :: ds) > 2 ^ 63) := by omega
  unfold strtol
  simp only [List.takeWhile_cons, List.dropWhile_cons, hs, Bool.false_eq_true, if_false,
    List.head?_cons, beq_self_eq_true, Bool.true_or, if_true, List.drop_succ_cons,
    List.drop_zero, hsub, List.length_nil, List.length_cons, h2]
  simp only [beq_iff_eq, Nat.add_one_ne_zero, if_false, StrtolResult.mk.injEq, true_and,
    and_true]
  omega

/-- A negative decimal text is accepted by `parse_uint16` and stored reduced modulo
2^16. -/
theorem parse_uint16_negative_decimal (c : String) (val : Nat) (errno : Int)
    (d : Char) (ds : List Char) (hc : c.toList = '-' :: d :: ds)
    (hall : ∀ x ∈ d :: ds, x.isDigit = true) (hd : d ≠ '0')
    (hv : decimal_value (d :: ds) < 2 ^ 63) :
    parse_uint16 c val errno = (0, ((-(decimal_value (d :: ds) : Int)) % 2 ^ 16).toNat) := by
  have hst := strtol_negative_decimal d ds hall hd (by omega)
  rw [← hc] at hst
  have hlen : ¬ c.length = 0 := by
    intro h0
    have : c.toList = [] := List.length_eq_zero.1 h0
    rw [hc] at this
    exact absurd this (by simp)
  generalize decimal_value (d :: ds) = v at hst hv ⊢
  simp only [parse_uint16, hst]
  have h2 : ¬ (-(v : Int) = LONG_MAX) := by unfold LONG_MAX; omega
  have h3 : ¬ (-(v : Int) = LONG_MIN) := by unfold LONG_MIN; omega
  have h4 : ¬ (-(v : Int) > 65535) := by omega
  simp [hlen, h2, h3, h4]


/-! ## The WiFi credentials document -/

theorem append_wpa_auth_conf_eq (auth : WIFIAuthentication) (s : String) :
    append_wpa_auth_conf auth s = s ++ auth_lines auth := by
  unfold append_wpa_auth_conf
  lift_lets
  intro s1 s2 s3 s4 s5 s6 s7 s8 s9
  have h1 : s1 = s ++ key_mgmt_line auth.key_management := by
    simp only [s1, key_mgmt_line, g_string_append]
    split_ifs <;> simp_all [AUTH_KEY_MANAGEMENT_NONE, AUTH_KEY_MANAGEMENT_WPA_PSK,
      AUTH_KEY_MANAGEMENT_WPA_EAP, AUTH_KEY_MANAGEMENT_8021X]
  have h2 : s2 = s1 ++ eap_line auth.eap_method := by
    simp only [s2, eap_line, g_string_append]
    split_ifs <;> simp_all [AUTH_EAP_METHOD_NONE, AUTH_EAP_METHOD_TLS, AUTH_EAP_METHOD_PEAP,
      AUTH_EAP_METHOD_TTLS]
  have h3 : s3 = s2 ++ quoted_line "identity" auth.identity := by
    cases h : auth.identity <;> simp [s3, quoted_line, fmt_s, g_string_append, h]
  have h4 : s4 = s3 ++ quoted_line "anonymous_identity" auth.anonymous_identity := by
    cases h : auth.anonymous_identity <;> simp [s4, quoted_line, fmt_s, g_string_append, h]
  have h5 : s5 = s4 ++ quoted_line
      (if auth.key_management = AUTH_KEY_MANAGEMENT_WPA_PSK then "psk" else "password")
      auth.password := by
    cases h : auth.password <;>
      by_cases hk : auth.key_management = AUTH_KEY_MANAGEMENT_WPA_PSK <;>
      simp [s5, quoted_line, fmt_s, g_string_append, h, hk]
  have h6 : s6 = s5 ++ quoted_line "ca_cert" auth.ca_certificate := by
    cases h : auth.ca_certificate <;> simp [s6, quoted_line, fmt_s, g_string_append, h]
  have h7 : s7 = s6 ++ quoted_line "client_cert" auth.client_certificate := by
    cases h : auth.client_certificate <;> simp [s7, quoted_line, fmt_s, g_string_append, h]
  have h8 : s8 = s7 ++ quoted_line "private_key" auth.client_key := by
    cases h : auth.client_key <;> simp [s8, quoted_line, fmt_s, g_string_append, h]
  have h9 : s9 = s8 ++ quoted_line "private_key_passwd" auth.client_key_password := by
    cases h : auth.client_key_password <;> simp [s9, quoted_line, fmt_s, g_string_append, h]
  rw [h9, h8, h7, h6, h5, h4, h3, h2, h1]
  simp only [auth_lines, String.append_assoc]

theorem append_access_points_eq (ap : WiFiAccessPoint) (config : String) :
    append_access_points ap config = config ++ network_block ap := by
  simp only [append_access_points, network_block, g_string_append, append_wpa_auth_conf_eq,
    String.append_assoc]

theorem foldl_append_access_points (aps : List WiFiAccessPoint) (config : String) :
    aps.foldl (fun config value => append_access_points value config) config =
      config ++ String.join (aps.map network_block) := by
  induction aps generalizing config with
  | nil => simp [join_nil]
  | cons a as ih =>
    rw [List.foldl_cons, ih, List.map_cons, join_cons, append_access_points_eq,
      String.append_assoc]

/-- The WiFi credentials document is the preamble followed by the network blocks
of the access points. -/
theorem generate_wifi_config_blocks (n : Network) :
    generate_wifi_config n =
      (0, wifi_preamble ++ String.join ((n.access_points.getD []).map network_block)) := by
  unfold generate_wifi_config
  cases h : n.access_points with
  | none =>
    simp [g_string_append, wifi_preamble, join_nil]
  | some aps =>
    simp [g_string_append, wifi_preamble, foldl_append_access_points]

/-- C16: serialization is total: for every record `generate_network_config`
returns 0 with an output text, and `generate_wifi_config` returns 0 with an
output text. -/
theorem serialization_total (X : Externals) (n : Network) :
    (∃ text, generate_network_config X n = (0, text)) ∧
      ∃ text, generate_wifi_config n = (0, text) :=
  ⟨⟨_, rfl⟩, ⟨_, rfl⟩⟩

/-- C17: in the lines that `append_wpa_auth_conf` appends, the password comes after
the key-management, EAP, identity and anonymous-identity lines and before the
certificate and key lines; it is the line `psk="<value>"` when the key
management is WPA-PSK, the line `password="<value>"` for every other key
management, and there is no such line when no password is set. -/
theorem password_line_emitted (auth : WIFIAuthentication) (s : String) :
    append_wpa_auth_conf auth s =
        s ++ (key_mgmt_line auth.key_management ++ eap_line auth.eap_method ++
          quoted_line "identity" auth.identity ++
          quoted_line "anonymous_identity" auth.anonymous_identity) ++
        quoted_line
          (if auth.key_management = AUTH_KEY_MANAGEMENT_WPA_PSK then "psk" else "password")
          auth.password ++
        (quoted_line "ca_cert" auth.ca_certificate ++
          quoted_line "client_cert" auth.client_certificate ++
          quoted_line "private_key" auth.client_key ++
          quoted_line "private_key_passwd" auth.client_key_password) ∧
      (∀ v, auth.password = some v → auth.key_management = AUTH_KEY_MANAGEMENT_WPA_PSK →
        quoted_line
          (if auth.key_management = AUTH_KEY_MANAGEMENT_WPA_PSK then "psk" else "password")
          auth.password = "        psk=\"" ++ v ++ "\"\n") ∧
      (∀ v, auth.password = some v → auth.key_management ≠ AUTH_KEY_MANAGEMENT_WPA_PSK →
        quoted_line
          (if auth.key_management = AUTH_KEY_MANAGEMENT_WPA_PSK then "psk" else "password")
          auth.password = "        password=\"" ++ v ++ "\"\n") ∧
      (auth.password = none →
        quoted_line
          (if auth.key_management = AUTH_KEY_MANAGEMENT_WPA_PSK then "psk" else "password")
          auth.password = "") := by
  refine ⟨?_, ?_, ?_, ?_⟩
  · rw [append_wpa_auth_conf_eq]
    simp only [auth_lines, String.append_assoc]
  · intro v hv hk
    rw [hv, if_pos hk]
    simp [quoted_line]
  · intro v hv hk
    rw [hv, if_neg hk]
    simp [quoted_line]
  · intro hv
    rw [hv]
    rfl

/-- An authentication descriptor with WPA-PSK key management and the password
`secret`. -/
theorem password_line_emitted_witness :
    quoted_line "psk" (some "secret") = "        psk=\"secret\"\n" ∧
      quoted_line "password" (some "secret") = "        password=\"secret\"\n" :=
  ⟨(password_line_emitted
      ⟨AUTH_KEY_MANAGEMENT_WPA_PSK, 0, none, none, some "secret", none, none, none, none⟩ "").2.1
      "secret" rfl rfl,
   (password_line_emitted
      ⟨AUTH_KEY_MANAGEMENT_NONE, 0, none, none, some "secret", none, none, none, none⟩ "").2.2.1
      "secret" rfl (by decide)⟩

/-- C18: a network block is the opening line, the quoted SSID, then the lines
key_mgmt, eap, identity, anonymous_identity, password or psk, ca_cert,
client_cert, private_key and private_key_passwd in this order, and the closing
line.  The key_mgmt line is absent for key management none and present for
WPA-PSK, WPA-EAP and 802.1X, the eap line is absent for method none and present
for TLS, PEAP and TTLS, and each quoted line is present exactly when its field
is set. -/
theorem network_block_lines (ap : WiFiAccessPoint) (config : String) :
    append_access_points ap config =
        config ++ "network=\x7b\n" ++ ("        ssid=\"" ++ fmt_s ap.ssid ++ "\"\n") ++
          key_mgmt_line ap.auth.key_management ++ eap_line ap.auth.eap_method ++
          quoted_line "identity" ap.auth.identity ++
          quoted_line "anonymous_identity" ap.auth.anonymous_identity ++
          quoted_line
            (if ap.auth.key_management = AUTH_KEY_MANAGEMENT_WPA_PSK then "psk" else "password")
            ap.auth.password ++
          quoted_line "ca_cert" ap.auth.ca_certificate ++
          quoted_line "client_cert" ap.auth.client_certificate ++
          quoted_line "private_key" ap.auth.client_key ++
          quoted_line "private_key_passwd" ap.auth.client_key_password ++ "\x7d\n\n" ∧
      (key_mgmt_line AUTH_KEY_MANAGEMENT_NONE = "" ∧
        key_mgmt_line AUTH_KEY_MANAGEMENT_WPA_PSK = "        key_mgmt=WPA-PSK\n" ∧
        key_mgmt_line AUTH_KEY_MANAGEMENT_WPA_EAP = "        key_mgmt=WPA-EAP\n" ∧
        key_mgmt_line AUTH_KEY_MANAGEMENT_8021X = "        key_mgmt=IEEE8021X\n") ∧
      (eap_line AUTH_EAP_METHOD_NONE = "" ∧
        eap_line AUTH_EAP_METHOD_TLS = "        eap=TLS\n" ∧
        eap_line AUTH_EAP_METHOD_PEAP = "        eap=PEAP\n" ∧
        eap_line AUTH_EAP_METHOD_TTLS = "        eap=TTLS\n") ∧
      (∀ key : String, quoted_line key none = "" ∧
        ∀ v : String, quoted_line key (some v) = "        " ++ key ++ "=\"" ++ v ++ "\"\n") := by
  refine ⟨?_, ⟨rfl, rfl, rfl, rfl⟩, ⟨rfl, rfl, rfl, rfl⟩, fun key => ⟨rfl, fun v => rfl⟩⟩
  rw [append_access_points_eq]
  simp only [network_block, auth_lines, String.append_assoc]

/-- C19, as stated, fails: the document of a record without access points is the
preamble alone, and the preamble has eight lines, not two. -/
theorem wifi_preamble_not_two_lines :
    (generate_wifi_config network_new.2).2 =
        "# WPA Supplicant Configuration\n# this goes in /etc/net-manager/wpa_supplicant.conf on Photon OS\n# chown root, chmod 600 \n\n# allow frontend (e.g., wpa_cli) to be used by all users in 'wheel' group\nctrl_interface=DIR=/run/wpa_supplicant GROUP=wheel\nupdate_config=1\n\n" ∧
      (split_lines (generate_wifi_config network_new.2).2.toList).length = 8 ∧
      (split_lines (generate_wifi_config network_new.2).2.toList).length ≠ 2 := by
  have h : (generate_wifi_config network_new.2).2 = wifi_preamble := by
    rw [generate_wifi_config_blocks]
    simp [network_new, join_nil]
  have hp : wifi_preamble =
      "# WPA Supplicant Configuration\n# this goes in /etc/net-manager/wpa_supplicant.conf on Photon OS\n# chown root, chmod 600 \n\n# allow frontend (e.g., wpa_cli) to be used by all users in 'wheel' group\nctrl_interface=DIR=/run/wpa_supplicant GROUP=wheel\nupdate_config=1\n\n" := by
    simp [wifi_preamble]
  refine ⟨h.trans hp, ?_, ?_⟩
  · rw [h]; decide
  · rw [h]; decide

/-- C19, amended: the document is a fixed preamble, the same for every record,
followed by exactly one network block per access point, each opened by
`network={` and closed by `}` and a blank line; the preamble holds four comment
lines and two blank lines, and its other lines are exactly the two directives
`ctrl_interface=...` and `update_config=1`. -/
theorem wifi_document_blocks (n : Network) :
    generate_wifi_config n =
        (0, wifi_preamble ++ String.join ((n.access_points.getD []).map network_block)) ∧
      ((n.access_points.getD []).map network_block).length = (n.access_points.getD []).length ∧
      (∀ ap : WiFiAccessPoint, ∃ body, network_block ap = "network=\x7b\n" ++ body ++ "\x7d\n\n") ∧
      ((split_lines wifi_preamble.toList).filter
          (fun l => !l.isEmpty && l.head? != some '#')).map String.mk =
        ["ctrl_interface=DIR=/run/wpa_supplicant GROUP=wheel", "update_config=1"] ∧
      (split_lines wifi_preamble.toList).length = 8 := by
  refine ⟨generate_wifi_config_blocks n, List.length_map _ _, fun ap => ⟨_, rfl⟩, by decide,
    by decide⟩

/-! ## The sections of the network file -/

theorem network_lines_eq (X : Externals) (n : Network) :
    network_lines X n =
      dhcp_mode_line X n ++ tri_line "LLDP" n.lldp ++ link_local_line n ++
        tri_line "IPv6AcceptRA" n.ipv6_accept_ra := rfl

theorem gateway_section_none (X : Externals) (n : Network) (h : n.gateway = none) :
    gateway_section X n = "" := by
  unfold gateway_section
  rw [h]

theorem gateway_section_null (X : Externals) (n : Network) (g : IPAddress)
    (h : n.gateway = some g) (hn : Externals.ip_is_null X g = true) :
    gateway_section X n = "" := by
  unfold gateway_section
  rw [h]
  simp [hn]

theorem gateway_section_some (X : Externals) (n : Network) (g : IPAddress)
    (h : n.gateway = some g) (hn : Externals.ip_is_null X g = false) :
    gateway_section X n =
      "\n[Route]\n" ++ ("Gateway=" ++ fmt_s (Externals.ip_to_string_prefix X AF_INET g) ++ "\n") ++
        (if n.gateway_onlink = -1 then ""
          else "GatewayOnlink=" ++ bool_to_string n.gateway_onlink ++ "\n") := by
  unfold gateway_section
  rw [h]
  simp only [hn, Bool.false_eq_true, if_false, tri_line]
  split <;> simp [String.append_assoc]

/-- C12: the output holds the default-gateway `[Route]` section, after the address
sections and before the sections of the routes collection, exactly when a
gateway is set and is not the null address; the section is the line
`Gateway=<gateway>`, followed exactly when the on-link tri-state is set by the
line `GatewayOnlink=yes` or `GatewayOnlink=no`.  A record with the address
192.168.1.10/24, a gateway that prints as 192.168.1.1 and on-link true yields
one address section and the route section with `GatewayOnlink=yes`. -/
theorem gateway_section_emitted (X : Externals) (n : Network) :
    (generate_network_config X n).2 =
        match_section n ++ link_section n ++ "[Network]\n" ++ network_lines X n ++
          list_line "DNS" n.nameservers ++ list_line "NTP" n.ntps ++ dhcp_section n ++
          address_sections n ++ gateway_section X n ++ route_sections X n ∧
      (n.gateway = none → gateway_section X n = "") ∧
      (∀ g, n.gateway = some g → Externals.ip_is_null X g = true → gateway_section X n = "") ∧
      (∀ g, n.gateway = some g → Externals.ip_is_null X g = false →
        gateway_section X n =
          "\n[Route]\n" ++
            ("Gateway=" ++ fmt_s (Externals.ip_to_string_prefix X AF_INET g) ++ "\n") ++
            (if n.gateway_onlink = -1 then ""
              else "GatewayOnlink=" ++ bool_to_string n.gateway_onlink ++ "\n")) ∧
      bool_to_string 1 = "yes" ∧ bool_to_string 0 = "no" ∧
      (∀ g, Externals.ip_is_null X g = false →
        Externals.ip_to_string_prefix X AF_INET g = some "192.168.1.1" →
        (generate_network_config X (static_with_gateway g)).2 =
          "[Match]\n\n[Network]\n\n[Address]\nAddress=192.168.1.10/24\n\n[Route]\nGateway=192.168.1.1\nGatewayOnlink=yes\n") := by
  refine ⟨generate_network_config_sections X n, gateway_section_none X n,
    gateway_section_null X n, gateway_section_some X n, rfl, rfl, ?_⟩
  intro g hn hs
  rw [generate_network_config_sections,
    gateway_section_some X (static_with_gateway g) g rfl hn, hs]
  rfl

/-- The claim C12 at the gateway 192.168.1.1 printed in dotted notation. -/
theorem gateway_section_emitted_witness :
    (generate_network_config dotted_externals (static_with_gateway gateway_192_168_1_1)).2 =
      "[Match]\n\n[Network]\n\n[Address]\nAddress=192.168.1.10/24\n\n[Route]\nGateway=192.168.1.1\nGatewayOnlink=yes\n" :=
  (gateway_section_emitted dotted_externals (static_with_gateway gateway_192_168_1_1)).2.2.2.2.2.2
    gateway_192_168_1_1 (by decide) (by decide)

theorem route_section_null (X : Externals) (r : Route)
    (h1 : Externals.ip_is_null X r.destination = true) (h2 : Externals.ip_is_null X r.gw = true) :
    route_section X r = "" := by
  simp [route_section, h1, h2]

theorem route_section_of_keep (X : Externals) (r : Route)
    (h : (!(Externals.ip_is_null X r.destination && Externals.ip_is_null X r.gw)) = true) :
    route_section X r =
      "\n[Route]\n" ++
        (if Externals.ip_is_null X r.destination = true then ""
          else "Destination=" ++ fmt_s (Externals.ip_to_string X AF_INET r.destination) ++ "\n") ++
        (if Externals.ip_is_null X r.gw = true then ""
          else "Gateway=" ++ fmt_s (Externals.ip_to_string X AF_INET r.gw) ++ "\n") := by
  have h' : ¬ (Externals.ip_is_null X r.destination = true ∧
      Externals.ip_is_null X r.gw = true) := by
    rintro ⟨ha, hb⟩
    rw [ha, hb] at h
    exact absurd h (by decide)
  unfold route_section
  rw [if_neg h']

theorem join_map_filter {α : Type} (f : α → String) (p : α → Bool) (l : List α)
    (h : ∀ x ∈ l, p x = false → f x = "") :
    String.join (l.map f) = String.join ((l.filter p).map f) := by
  induction l with
  | nil => rfl
  | cons a as ih =>
    have ih' := ih (fun x hx => h x (List.mem_cons_of_mem _ hx))
    rw [List.map_cons, join_cons, ih']
    cases hp : p a with
    | true => rw [List.filter_cons_of_pos (by simpa using hp), List.map_cons, join_cons]
    | false =>
      rw [List.filter_cons_of_neg (by simpa using hp), h a (List.mem_cons_self _ _) hp,
        String.empty_append]

/-- C13: after the default-gateway section the output holds, for the routes of the
collection that have a non-null destination or a non-null gateway, one `[Route]`
section each, in the order of the collection: the header, `Destination=` exactly
when the destination is not null, `Gateway=` exactly when the gateway is not
null.  A route with both null contributes no text, so there are as many such
sections as routes with one of the two set. -/
theorem route_sections_emitted (X : Externals) (n : Network) :
    (generate_network_config X n).2 =
        match_section n ++ link_section n ++ "[Network]\n" ++ network_lines X n ++
          list_line "DNS" n.nameservers ++ list_line "NTP" n.ntps ++ dhcp_section n ++
          address_sections n ++ gateway_section X n ++
          String.join (((n.routes.getD []).filter
              (fun r => !(Externals.ip_is_null X r.destination && Externals.ip_is_null X r.gw))).map
            (fun r => "\n[Route]\n" ++
              (if Externals.ip_is_null X r.destination = true then ""
                else "Destination=" ++
                  fmt_s (Externals.ip_to_string X AF_INET r.destination) ++ "\n") ++
              (if Externals.ip_is_null X r.gw = true then ""
                else "Gateway=" ++ fmt_s (Externals.ip_to_string X AF_INET r.gw) ++ "\n"))) ∧
      (((n.routes.getD []).filter
            (fun r => !(Externals.ip_is_null X r.destination && Externals.ip_is_null X r.gw))).map
          (route_section X)).length =
        (n.routes.getD []).countP
          (fun r => !(Externals.ip_is_null X r.destination && Externals.ip_is_null X r.gw)) ∧
      (∀ r : Route, Externals.ip_is_null X r.destination = true →
        Externals.ip_is_null X r.gw = true → append_routes X r = id) := by
  refine ⟨?_, ?_, ?_⟩
  · rw [generate_network_config_sections]
    congr 1
    have hrs : route_sections X n = String.join ((n.routes.getD []).map (route_section X)) := by
      unfold route_sections
      cases n.routes <;> rfl
    rw [hrs, join_map_filter (route_section X)
      (fun r => !(Externals.ip_is_null X r.destination && Externals.ip_is_null X r.gw))]
    · congr 1
      apply List.map_congr_left
      intro r hr
      exact route_section_of_keep X r (List.mem_filter.1 hr).2
    · intro r _ hr
      have : Externals.ip_is_null X r.destination = true ∧
          Externals.ip_is_null X r.gw = true := by
        simpa using hr
      exact route_section_null X r this.1 this.2
  · rw [List.length_map, List.countP_eq_length_filter]
  · intro r h1 h2
    funext config
    rw [append_routes_eq, route_section_null X r h1 h2, String.append_empty]
    rfl

theorem tri_line_begins (key : String) (v : Int) :
    empty_or_begins (key ++ "=") (tri_line key v) := by
  unfold tri_line
  split
  · exact Or.inl rfl
  · exact Or.inr ⟨bool_to_string v ++ "\n", by simp only [String.append_assoc]⟩

theorem list_line_begins (key : String) (s : Option Set) :
    empty_or_begins (key ++ "=") (list_line key s) := by
  unfold list_line
  split
  · split
    · exact Or.inl rfl
    · exact Or.inr ⟨_, by rw [String.append_assoc]⟩
  · exact Or.inl rfl

/-- C14: the sections of the output come in the order match, link (if any),
network, DHCP (if any), the address sections, the default-gateway route section
(if any), the route sections of the collection; and the lines of the network
section in the order DHCP, LLDP, LinkLocalAddressing, IPv6AcceptRA, DNS, NTP.
Each part is empty or begins with its own header or key. -/
theorem sections_in_order (X : Externals) (n : Network) :
    (generate_network_config X n).2 =
        match_section n ++ link_section n ++
          ("[Network]\n" ++ dhcp_mode_line X n ++ tri_line "LLDP" n.lldp ++ link_local_line n ++
            tri_line "IPv6AcceptRA" n.ipv6_accept_ra ++ list_line "DNS" n.nameservers ++
            list_line "NTP" n.ntps) ++
          dhcp_section n ++ address_sections n ++ gateway_section X n ++ route_sections X n ∧
      (∃ rest, match_section n = "[Match]\n" ++ rest) ∧
      empty_or_begins "[Link]\n" (link_section n) ∧
      empty_or_begins "DHCP=" (dhcp_mode_line X n) ∧
      empty_or_begins "LLDP=" (tri_line "LLDP" n.lldp) ∧
      empty_or_begins "LinkLocalAddressing=" (link_local_line n) ∧
      empty_or_begins "IPv6AcceptRA=" (tri_line "IPv6AcceptRA" n.ipv6_accept_ra) ∧
      empty_or_begins "DNS=" (list_line "DNS" n.nameservers) ∧
      empty_or_begins "NTP=" (list_line "NTP" n.ntps) ∧
      empty_or_begins "\n[DHCP]\n" (dhcp_section n) ∧
      address_sections n =
        String.join (((n.addresses.getD ⟨[]⟩).keys).map
          (fun a => "\n[Address]\nAddress=" ++ a ++ "\n")) ∧
      empty_or_begins "\n[Route]\n" (gateway_section X n) ∧
      route_sections X n = String.join ((n.routes.getD []).map (route_section X)) ∧
      ∀ r : Route, empty_or_begins "\n[Route]\n" (route_section X r) := by
  refine ⟨?_, ?_, ?_, ?_, tri_line_begins "LLDP" n.lldp, ?_,
    tri_line_begins "IPv6AcceptRA" n.ipv6_accept_ra, list_line_begins "DNS" n.nameservers,
    list_line_begins "NTP" n.ntps, ?_, ?_, ?_, ?_, ?_⟩
  · rw [generate_network_config_sections, network_lines_eq]
    simp only [String.append_assoc]
  · simp only [match_section, String.append_assoc]
    exact ⟨_, rfl⟩
  · unfold link_section
    split
    · simp only [String.append_assoc]
      exact Or.inr ⟨_, rfl⟩
    · exact Or.inl rfl
  · unfold dhcp_mode_line
    split_ifs
    · exact Or.inl rfl
    · simp only [String.append_assoc]
      exact Or.inr ⟨_, rfl⟩
    · simp only [String.append_assoc]
      exact Or.inr ⟨_, rfl⟩
  · unfold link_local_line
    split
    · exact Or.inl rfl
    · simp only [String.append_assoc]
      exact Or.inr ⟨_, rfl⟩
  · unfold dhcp_section
    split
    · simp only [String.append_assoc]
      exact Or.inr ⟨_, rfl⟩
    · exact Or.inl rfl
  · unfold address_sections
    cases n.addresses with
    | none => rfl
    | some s => rfl
  · unfold gateway_section
    split
    · split
      · exact Or.inl rfl
      · simp only [String.append_assoc]
        exact Or.inr ⟨_, rfl⟩
    · exact Or.inl rfl
  · unfold route_sections
    cases n.routes <;> rfl
  · intro r
    unfold route_section
    split
    · exact Or.inl rfl
    · simp only [String.append_assoc]
      exact Or.inr ⟨_, rfl⟩

/-- C15: the boolean lines of the output (LLDP, IPv6AcceptRA, UseDNS, UseDomains,
UseMTU, GatewayOnlink) are rendered by one rule: the value is `yes` for a
tri-state of 1 and `no` for a tri-state of 0, the line is absent for the unset
tri-state -1, and whatever the field holds the value is `yes` or `no`. -/
theorem boolean_lines_yes_no (X : Externals) (n : Network) :
    (generate_network_config X n).2 =
        match_section n ++ link_section n ++
          ("[Network]\n" ++ dhcp_mode_line X n ++ tri_line "LLDP" n.lldp ++ link_local_line n ++
            tri_line "IPv6AcceptRA" n.ipv6_accept_ra ++ list_line "DNS" n.nameservers ++
            list_line "NTP" n.ntps) ++
          dhcp_section n ++ address_sections n ++ gateway_section X n ++ route_sections X n ∧
      dhcp_section n =
        (if n.use_dns ≠ -1 ∨ n.use_domains ≠ -1 ∨ n.use_mtu ≠ -1 ∨
            n.dhcp_client_identifier_type ≠ _DHCP_CLIENT_IDENTIFIER_INVALID then
          "\n[DHCP]\n" ++
            (if n.dhcp_client_identifier_type = _DHCP_CLIENT_IDENTIFIER_INVALID then ""
              else "ClientIdentifier=" ++
                fmt_s (dhcp_client_identifier_to_name n.dhcp_client_identifier_type) ++ "\n") ++
            tri_line "UseDNS" n.use_dns ++ tri_line "UseDomains" n.use_domains ++
            tri_line "UseMTU" n.use_mtu
         else "") ∧
      (∀ g, n.gateway = some g → Externals.ip_is_null X g = false →
        gateway_section X n =
          "\n[Route]\n" ++
            ("Gateway=" ++ fmt_s (Externals.ip_to_string_prefix X AF_INET g) ++ "\n") ++
            tri_line "GatewayOnlink" n.gateway_onlink) ∧
      (∀ key : String, tri_line key 1 = key ++ "=" ++ "yes" ++ "\n" ∧
        tri_line key 0 = key ++ "=" ++ "no" ++ "\n" ∧ tri_line key (-1) = "") ∧
      (∀ (key : String) (v : Int), tri_line key v = "" ∨
        tri_line key v = key ++ "=" ++ "yes" ++ "\n" ∨
        tri_line key v = key ++ "=" ++ "no" ++ "\n") ∧
      ∀ v : Int, bool_to_string v = "yes" ∨ bool_to_string v = "no" := by
  refine ⟨?_, rfl, ?_, fun key => ⟨rfl, rfl, rfl⟩, ?_, ?_⟩
  · rw [generate_network_config_sections, network_lines_eq]
    simp only [String.append_assoc]
  · intro g hg hn
    unfold gateway_section
    rw [hg]
    simp only [hn, Bool.false_eq_true, if_false]
  · intro key v
    unfold tri_line bool_to_string
    split_ifs
    · exact Or.inl rfl
    · exact Or.inr (Or.inl rfl)
    · exact Or.inr (Or.inr rfl)
  · intro v
    unfold bool_to_string
    split_ifs
    · exact Or.inl rfl
    · exact Or.inr rfl

/-- The rule of C15 at a record with LLDP true and use-DNS false. -/
theorem boolean_lines_yes_no_witness :
    (generate_network_config dotted_externals
        { network_new.2 with lldp := 1, use_dns := 0 }).2 =
      "[Match]\n\n[Network]\nLLDP=yes\n\n[DHCP]\nUseDNS=no\n" :=
  ((boolean_lines_yes_no dotted_externals { network_new.2 with lldp := 1, use_dns := 0 }).1).trans
    (by decide)

/-! ## Reading the address lines back -/

/-- Inserting under a key that the table already holds reports FALSE, keeps the
number of entries and leaves the new value under the key. -/
theorem g_hash_table_insert_existing {β : Type} (t : GHashTable β) (key : String) (value : β)
    (h : g_hash_table_lookup t key ≠ none) :
    (g_hash_table_insert t key value).2 = false ∧
    (g_hash_table_insert t key value).1.length = t.length ∧
    g_hash_table_lookup (g_hash_table_insert t key value).1 key = some value := by
  have hany : t.any (fun e => e.1 == key) = true := by
    induction t with
    | nil => exact absurd rfl h
    | cons e t ih =>
      by_cases he : (e.1 == key) = true
      · simp [List.any_cons, he]
      · have h2 : g_hash_table_lookup t key ≠ none := by
          simpa [g_hash_table_lookup, List.find?_cons, he] using h
        simp [List.any_cons, ih h2]
  unfold g_hash_table_insert
  rw [if_pos hany]
  refine ⟨rfl, by simp, ?_⟩
  show g_hash_table_lookup (t.map (fun e => if e.1 == key then (e.1, value) else e)) key
    = some value
  clear h
  induction t with
  | nil => exact absurd hany (by simp)
  | cons e t ih =>
    by_cases he : (e.1 == key) = true
    · show Option.map _ (List.find? _ ((if e.1 == key then (e.1, value) else e) :: _)) = _
      rw [if_pos he, List.find?_cons]
      have hp : ((e.1, value) : String × β).1 == key := he
      simp only [hp, Option.map_some']
    · have h2 : t.any (fun e => e.1 == key) = true := by
        simpa [List.any_cons, he] using hany
      show Option.map _ (List.find? _ ((if e.1 == key then (e.1, value) else e) :: _)) = _
      rw [if_neg he, List.find?_cons]
      have hn : (e.1 == key) = false := by simpa using he
      simp only [hn]
      exact ih h2

/-- A second "ssid-name" for an SSID that the table already holds, in any state and
before any further entries: the walk stops with 0, the table has as many entries
as before, and the entry of the SSID is the access point just allocated. -/
theorem parse_wifi_repeated_ssid (C : YamlConverters) (m : YAMLManager) (ssid : String)
    (entries : List (String × String)) (st : WifiState)
    (h : g_hash_table_lookup (st.access_points.getD []) ssid ≠ none) :
    ∃ st2 : WifiState,
      parse_wifi_access_points_config C m (("ssid-name", ssid) :: entries) st = some (0, st2) ∧
      st2.heap = st.heap ++ [wifi_access_point_new ssid] ∧
      (st2.access_points.getD []).length = (st.access_points.getD []).length ∧
      access_point_of st2 ssid = some (wifi_access_point_new ssid) := by
  obtain ⟨h1, h2, h3⟩ := g_hash_table_insert_existing (st.access_points.getD []) ssid
    st.heap.length h
  refine ⟨{ heap := st.heap ++ [wifi_access_point_new ssid],
            access_points := some (g_hash_table_insert (st.access_points.getD []) ssid
              st.heap.length).1,
            wifi_access_point := some st.heap.length }, ?_, rfl, h2, ?_⟩
  · rw [parse_wifi_access_points_config]
    have hk : string_equal "ssid-name" "ssid-name" = true := by decide
    simp only [hk, if_true, h1, Bool.not_false]
  · unfold access_point_of
    show (match g_hash_table_lookup (g_hash_table_insert (st.access_points.getD []) ssid
      st.heap.length).1 ssid with
      | some address => (st.heap ++ [wifi_access_point_new ssid])[address]?
      | none => none) = _
    rw [h3]
    simp

/-- C20: a second "ssid-name" with an SSID that the collection already holds is not
rejected.  For every converter set, the walk over `ssid-name: home`,
`password: secret`, `ssid-name: home` returns 0 and leaves one entry for "home",
and that entry is the second access point, the one just allocated with every
authentication field zero; the first access point, which holds what the
password converter wrote, is no longer in the collection.  The entry equals the
first access point only when the converter wrote nothing. -/
theorem duplicate_ssid_replaces_access_point (C : YamlConverters) :
    ∃ st : WifiState,
      parse_wifi_access_points_config C wifi_manager
          [("ssid-name", "home"), ("password", "secret"), ("ssid-name", "home")]
          wifi_state_new = some (0, st) ∧
      st.heap[0]? = some { ssid := some "home",
                           auth := YamlConverters.convert C "parse_yaml_string" "password"
                             "secret" "WIFIAuthentication.password"
                             (wifi_access_point_new "home").auth } ∧
      st.heap[1]? = some (wifi_access_point_new "home") ∧
      st.access_points = some [("home", 1)] ∧
      access_point_of st "home" = some (wifi_access_point_new "home") ∧
      (access_point_of st "home" = st.heap[0]? →
        YamlConverters.convert C "parse_yaml_string" "password" "secret"
          "WIFIAuthentication.password" (wifi_access_point_new "home").auth
          = (wifi_access_point_new "home").auth) := by
  refine ⟨_, rfl, rfl, rfl, rfl, rfl, ?_⟩
  intro h
  have h2 : some (wifi_access_point_new "home") = some
      ({ ssid := some "home",
         auth := YamlConverters.convert C "parse_yaml_string" "password"
                             "secret" "WIFIAuthentication.password"
                             (wifi_access_point_new "home").auth } : WiFiAccessPoint) := h
  injection h2 with h3
  injection h3 with _ h4
  exact h4.symm

/-! ## Scenario A -/

/-- C30: for the record with interface name `eth0`, parser type YAML, DHCP mode yes
and no other member set, the output of `generate_network_config` is the match
section with `Name=eth0` and the network section with `DHCP=yes`; it holds no
`[Address]` section and no `Address=` line. -/
theorem scenario_a_output (X : Externals) :
    generate_network_config X eth0_dhcp_yes =
        (0, "[Match]\nName=eth0\n\n[Network]\nDHCP=yes\n") ∧
      match_section eth0_dhcp_yes = "[Match]\nName=eth0\n\n" ∧
      "[Network]\n" ++ network_lines X eth0_dhcp_yes = "[Network]\nDHCP=yes\n" ∧
      address_sections eth0_dhcp_yes = "" ∧
      read_addresses (generate_network_config X eth0_dhcp_yes).2 = [] := by
  have h : generate_network_config X eth0_dhcp_yes =
      (0, "[Match]\nName=eth0\n\n[Network]\nDHCP=yes\n") := by
    simp [generate_network_config, generate_match, generate_link, generate_network,
      generate_dhcp, generate_addresses, generate_gateway, generate_routes, eth0_dhcp_yes,
      network_new, g_string_append, set_size, set_foreach, fmt_s, dhcp_modes_to_name,
      table_to_name, dhcp_modes]
    decide
  refine ⟨h, by decide, ?_, by decide, ?_⟩
  · simp [network_lines, eth0_dhcp_yes, network_new]
    decide
  · rw [h]
    decide

/-! ## Adding an address literal to a set -/

theorem set_contains_set_add (a : Set) (s : String) : set_contains (set_add a s) s = true := by
  unfold set_add set_contains
  split_ifs with h
  · exact h
  · simp

/-- C22: for a literal that `parse_ip_from_string` accepts, the first call of
`parse_address_from_string_and_add` on the empty set returns 0 and leaves the
set with the literal as its one member, a second call leaves that set as it is,
of size 1; and for every set that already holds the literal the call leaves the
set unchanged. -/
theorem address_literal_added_once (Y : ParserExternals) (s : String)
    (h : 0 ≤ (ParserExternals.parse_ip_from_string Y s).1) :
    parse_address_from_string_and_add Y s ⟨[]⟩ = (0, ⟨[s]⟩) ∧
      (parse_address_from_string_and_add Y s
        (parse_address_from_string_and_add Y s ⟨[]⟩).2).2 = ⟨[s]⟩ ∧
      set_size (parse_address_from_string_and_add Y s
        (parse_address_from_string_and_add Y s ⟨[]⟩).2).2 = 1 ∧
      (∀ a : Set, set_contains a s = true → (parse_address_from_string_and_add Y s a).2 = a) ∧
      ∀ a : Set, set_contains a s = false →
        (parse_address_from_string_and_add Y s a).2 = ⟨a.keys ++ [s]⟩ ∧
        (parse_address_from_string_and_add Y s
          (parse_address_from_string_and_add Y s a).2).2 = ⟨a.keys ++ [s]⟩ := by
  have hnot : ¬ (ParserExternals.parse_ip_from_string Y s).1 < 0 := not_lt.mpr h
  have hkeep : ∀ a : Set, set_contains a s = true →
      (parse_address_from_string_and_add Y s a).2 = a := by
    intro a ha
    unfold parse_address_from_string_and_add
    rw [if_pos ha]
  have hadd : ∀ a : Set, set_contains a s = false →
      parse_address_from_string_and_add Y s a = (0, ⟨a.keys ++ [s]⟩) := by
    intro a ha
    have hc : a.keys.contains s = false := ha
    unfold parse_address_from_string_and_add
    simp only [ha, Bool.false_eq_true, if_false, hnot, set_add, hc]
  have hmem : ∀ a : Set, set_contains ⟨a.keys ++ [s]⟩ s = true := by
    intro a
    simp [set_contains]
  have h1 : parse_address_from_string_and_add Y s ⟨[]⟩ = (0, ⟨[s]⟩) := hadd ⟨[]⟩ rfl
  refine ⟨h1, ?_, ?_, hkeep, ?_⟩
  · rw [h1]
    exact hkeep ⟨[s]⟩ (by simp [set_contains])
  · rw [h1, hkeep ⟨[s]⟩ (by simp [set_contains])]
    rfl
  · intro a ha
    rw [hadd a ha]
    exact ⟨rfl, hkeep _ (hmem a)⟩

/-- The claim C22 at the literal 192.168.1.10/24. -/
theorem address_literal_added_once_witness :
    parse_address_from_string_and_add example_externals "192.168.1.10/24" ⟨[]⟩ =
        (0, ⟨["192.168.1.10/24"]⟩) ∧
      set_size (parse_address_from_string_and_add example_externals "192.168.1.10/24"
        (parse_address_from_string_and_add example_externals "192.168.1.10/24" ⟨[]⟩).2).2 = 1 :=
  ⟨(address_literal_added_once example_externals "192.168.1.10/24" (by decide)).1,
    (address_literal_added_once example_externals "192.168.1.10/24" (by decide)).2.2.1⟩

/-- C23, as stated, fails: for every address parser the call for a literal that
the set already holds returns `-EEXIST`, which is not 0. -/
theorem duplicate_address_returns_eexist :
    -EEXIST ≠ 0 ∧
      ∀ Y : ParserExternals,
        parse_address_from_string_and_add Y "192.168.1.10/24" ⟨["192.168.1.10/24"]⟩ =
          (-EEXIST, ⟨["192.168.1.10/24"]⟩) := by
  refine ⟨by decide, fun Y => ?_⟩
  unfold parse_address_from_string_and_add
  rw [if_pos (by decide)]

/-- C23, amended: the call of `parse_address_from_string_and_add` for a literal
that the set already holds leaves the set unchanged and returns `-EEXIST`. -/
theorem duplicate_address_unchanged (Y : ParserExternals) (s : String) (a : Set)
    (h : set_contains a s = true) :
    parse_address_from_string_and_add Y s a = (-EEXIST, a) := by
  unfold parse_address_from_string_and_add
  rw [if_pos h]

/-- The amended claim C23 at a set of two literals. -/
theorem duplicate_address_unchanged_witness :
    parse_address_from_string_and_add example_externals "10.0.0.1/8"
        ⟨["192.168.1.10/24", "10.0.0.1/8"]⟩ =
      (-EEXIST, ⟨["192.168.1.10/24", "10.0.0.1/8"]⟩) :=
  duplicate_address_unchanged example_externals "10.0.0.1/8"
    ⟨["192.168.1.10/24", "10.0.0.1/8"]⟩ (by decide)

/-! ## WiFi access points: the target of a key -/

theorem g_hash_table_insert_new {β : Type} (t : GHashTable β) (key : String) (value : β)
    (h : g_hash_table_lookup t key = none) :
    g_hash_table_insert t key value = (t ++ [(key, value)], true) := by
  have hany : t.any (fun e => e.1 == key) = false := by
    induction t with
    | nil => rfl
    | cons e t ih =>
      by_cases he : (e.1 == key) = true
      · simp [g_hash_table_lookup, List.find?_cons, he] at h
      · have hn : (e.1 == key) = false := by simpa using he
        have h2 : g_hash_table_lookup t key = none := by
          simpa [g_hash_table_lookup, List.find?_cons, hn] using h
        simp [List.any_cons, hn, ih h2]
  unfold g_hash_table_insert
  rw [hany]
  rfl

/-- C21: an "ssid-name" key with an SSID that is not in the table adds one access
point with that SSID and an authentication record whose members are all zero,
enters it into the table and makes it the current one; a later key of the WiFi
table is written by its converter into the authentication record of the
current access point, every other access point stays as it is; a key that is
not in the table changes nothing. -/
theorem access_point_started_and_written (C : YamlConverters) (m : YAMLManager)
    (entries : List (String × String)) (st : WifiState) :
    (∀ ssid : String, g_hash_table_lookup (st.access_points.getD []) ssid = none →
      parse_wifi_access_points_config C m (("ssid-name", ssid) :: entries) st =
        parse_wifi_access_points_config C m entries
          { heap := st.heap ++ [wifi_access_point_new ssid],
            access_points := some (st.access_points.getD [] ++ [(ssid, st.heap.length)]),
            wifi_access_point := some st.heap.length }) ∧
      (∀ ssid : String, (wifi_access_point_new ssid).ssid = some ssid ∧
        (wifi_access_point_new ssid).auth = ⟨0, 0, none, none, none, none, none, none, none⟩) ∧
      (∀ (key value : String) (p : ParserTable) (parser : String) (address : Nat),
        key ≠ "ssid-name" → g_hash_table_lookup m.wifi_config key = some p →
        p.parser = some parser → st.wifi_access_point = some address →
        parse_wifi_access_points_config C m ((key, value) :: entries) st =
            parse_wifi_access_points_config C m entries
              { st with
                heap := List.modify (auth_written C parser key value p.offset) address st.heap } ∧
          (List.modify
              (auth_written C parser key value p.offset)
              address st.heap)[address]? =
            (st.heap[address]?).map (auth_written C parser key value p.offset) ∧
          ∀ i : Nat, i ≠ address →
            (List.modify
              (auth_written C parser key value p.offset)
              address st.heap)[i]? = st.heap[i]?) ∧
      ∀ key value : String, key ≠ "ssid-name" → g_hash_table_lookup m.wifi_config key = none →
        parse_wifi_access_points_config C m ((key, value) :: entries) st =
          parse_wifi_access_points_config C m entries st := by
  refine ⟨?_, fun ssid => ⟨rfl, rfl⟩, ?_, ?_⟩
  · intro ssid h
    rw [parse_wifi_access_points_config]
    have hk : string_equal "ssid-name" "ssid-name" = true := by decide
    simp only [hk, if_true, g_hash_table_insert_new _ ssid st.heap.length h, Bool.not_true,
      Bool.false_eq_true, if_false]
  · intro key value p parser address hkey hp hparser haddr
    have hk : string_equal key "ssid-name" = false := by
      simpa [string_equal] using hkey
    refine ⟨?_, ?_, ?_⟩
    · rw [parse_wifi_access_points_config]
      simp only [hk, Bool.false_eq_true, if_false, hp, haddr, hparser]
      rfl
    · rw [List.getElem?_modify]
      simp
    · intro i hi
      rw [List.getElem?_modify]
      simp [Ne.symm hi]
  · intro key value hkey hp
    have hk : string_equal key "ssid-name" = false := by
      simpa [string_equal] using hkey
    rw [parse_wifi_access_points_config]
    simp only [hk, Bool.false_eq_true, if_false, hp]

/-- The claim C21 on a mapping with two access points: the password goes to the
first, the identity to the second. -/
theorem access_point_started_and_written_witness :
    parse_wifi_access_points_config locator_converters wifi_manager
        [("ssid-name", "home"), ("password", "secret"), ("ssid-name", "office"),
          ("identity", "bob")] wifi_state_new =
      some (0,
        { heap :=
            [ { ssid := some "home",
                auth := ⟨0, 0, none, none, some "secret", none, none, none, none⟩ },
              { ssid := some "office",
                auth := ⟨0, 0, some "bob", none, none, none, none, none, none⟩ } ],
          access_points := some [("home", 0), ("office", 1)],
          wifi_access_point := some 1 }) :=
  ((access_point_started_and_written locator_converters wifi_manager
      [("password", "secret"), ("ssid-name", "office"), ("identity", "bob")]
      wifi_state_new).1 "home" rfl).trans (by decide)

/-! ## `parse_config` -/

theorem parse_config_entry_undispatched (C : YamlConverters) (Y : ParserExternals)
    (config : GHashTable ParserTable) (network : Network) (p : yaml_node_t × Option yaml_node_t)
    (h : dispatched Y config p = false) : parse_config_entry C Y config network p = network := by
  unfold dispatched at h
  unfold parse_config_entry
  cases hl : g_hash_table_lookup config (scalar Y (some p.1)) with
  | none => simp only [hl]
  | some table =>
    rw [hl] at h
    cases hp : table.parser with
    | none => simp only [hl, hp]
    | some parser => simp [hp] at h

theorem parse_config_entry_dispatched (C : YamlConverters) (Y : ParserExternals)
    (config : GHashTable ParserTable) (network : Network) (p : yaml_node_t × Option yaml_node_t)
    (h : dispatched Y config p = true) :
    (parse_config_entry C Y config network p).modified = true := by
  unfold dispatched at h
  unfold parse_config_entry
  cases hl : g_hash_table_lookup config (scalar Y (some p.1)) with
  | none => simp [hl] at h
  | some table =>
    rw [hl] at h
    cases hp : table.parser with
    | none => simp [hp] at h
    | some parser => simp only [hl, hp]

theorem foldl_parse_config_entry_undispatched (C : YamlConverters) (Y : ParserExternals)
    (config : GHashTable ParserTable) (pairs : List (yaml_node_t × Option yaml_node_t))
    (network : Network) (h : ∀ p ∈ pairs, dispatched Y config p = false) :
    pairs.foldl (parse_config_entry C Y config) network = network := by
  induction pairs generalizing network with
  | nil => rfl
  | cons p pairs ih =>
    rw [List.foldl_cons, parse_config_entry_undispatched C Y config network p
      (h p (List.mem_cons_self _ _))]
    exact ih network (fun q hq => h q (List.mem_cons_of_mem _ hq))

theorem foldl_parse_config_entry_dispatched (C : YamlConverters) (Y : ParserExternals)
    (config : GHashTable ParserTable) (pairs : List (yaml_node_t × Option yaml_node_t))
    (network : Network) (h : ∃ p ∈ pairs, dispatched Y config p = true) :
    (pairs.foldl (parse_config_entry C Y config) network).modified = true := by
  induction pairs generalizing network with
  | nil =>
    obtain ⟨p, hp, _⟩ := h
    exact absurd hp (List.not_mem_nil _)
  | cons p pairs ih =>
    rw [List.foldl_cons]
    by_cases hrest : ∃ q ∈ pairs, dispatched Y config q = true
    · exact ih _ hrest
    · have hnone : ∀ q ∈ pairs, dispatched Y config q = false := by
        intro q hq
        cases hd : dispatched Y config q with
        | false => rfl
        | true => exact absurd ⟨q, hq, hd⟩ hrest
      rw [foldl_parse_config_entry_undispatched C Y config pairs _ hnone]
      obtain ⟨q, hq, hd⟩ := h
      rcases List.mem_cons.1 hq with rfl | hq
      · exact parse_config_entry_dispatched C Y config network q hd
      · rw [hnone q hq] at hd
        exact absurd hd (by decide)

/-- C26: `parse_config` returns 0 for every node, whatever the converters return.
The walk of a mapping goes on with the pairs that follow a pair from the record
that the body of the loop leaves, and two sets of converters that write the
same and differ only in what they return give the same walk.  In
`parse_network_config` the body of the loop for a key of the network table ends
with 0, whatever its converter returns, and the walk goes on with the next
pair. -/
theorem converter_failure_never_aborts (C : YamlConverters) (Y : ParserExternals)
    (config : GHashTable ParserTable) (m : YAMLManager) :
    (∀ (node : yaml_node_t) (network : Network), (parse_config C Y config node network).1 = 0) ∧
      (∀ (p : yaml_node_t × yaml_node_t) (pairs : List (yaml_node_t × yaml_node_t))
          (network : Network),
        parse_config C Y config (.mapping (p :: pairs)) network =
          parse_config C Y config (.mapping pairs)
            (parse_config_entry C Y config network (p.1, some p.2))) ∧
      (∀ C2 : YamlConverters,
        (∀ (parser key : String) (v : Option yaml_node_t) (offset : String) (network : Network),
          (YamlConverters.convert_network C2 parser key v offset network).2 =
            (YamlConverters.convert_network C parser key v offset network).2) →
        ∀ (node : yaml_node_t) (network : Network),
          parse_config C2 Y config node network = parse_config C Y config node network) ∧
      (∀ (k : yaml_node_t) (v : Option yaml_node_t) (nested : Network → Option (Int × Network))
          (network : Network) (table : ParserTable),
        g_hash_table_lookup m.network_config (scalar Y (some k)) = some table →
        parse_network_entry C Y m k v nested network =
          some (0, table_key_written C Y table k v network)) ∧
      ∀ (k v : yaml_node_t) (pairs : List (yaml_node_t × yaml_node_t)) (network : Network)
          (table : ParserTable),
        g_hash_table_lookup m.network_config (scalar Y (some k)) = some table →
        parse_network_config C Y m (.mapping ((k, v) :: pairs)) network =
          parse_network_config C Y m (.mapping pairs)
            (table_key_written C Y table k (some v) network) := by
  have hentry : ∀ (k : yaml_node_t) (v : Option yaml_node_t)
      (nested : Network → Option (Int × Network)) (network : Network) (table : ParserTable),
      g_hash_table_lookup m.network_config (scalar Y (some k)) = some table →
      parse_network_entry C Y m k v nested network =
        some (0, table_key_written C Y table k v network) := by
    intro k v nested network table h
    unfold parse_network_entry table_key_written
    simp only [h]
    cases table.parser <;> rfl
  refine ⟨fun node network => rfl, ?_, ?_, hentry, ?_⟩
  · intro p pairs network
    unfold parse_config
    simp only [mapping_pairs, List.map_cons, List.foldl_cons]
  · intro C2 hC node network
    have hstep : parse_config_entry C2 Y config = parse_config_entry C Y config := by
      funext network p
      unfold parse_config_entry
      cases hl : g_hash_table_lookup config (scalar Y (some p.1)) with
      | none => simp only [hl]
      | some table =>
        cases hp : table.parser with
        | none => simp only [hl, hp]
        | some parser => simp only [hl, hp, hC]
    unfold parse_config
    rw [hstep]
  · intro k v pairs network table h
    rw [parse_network_config, parse_network_config, parse_network_pairs, hentry k (some v) _ network
      table h]
    simp

/-- C27, as stated, fails: the one key of the mapping is a key of the table, its
converter fails and writes nothing, and yet the walk sets `modified`. -/
theorem modified_set_after_failed_converter :
    (network_new.2).modified = false ∧
      YamlConverters.convert_network failing_converters "parse_yaml_bool" "lldp"
          (some (.scalar "maybe")) "Network.lldp" network_new.2 = (-EINVAL, network_new.2) ∧
      ∀ Y : ParserExternals,
        parse_config failing_converters Y (registered parser_network_vtable)
            (scalar_mapping [("lldp", "maybe")]) network_new.2 =
          (0, { network_new.2 with modified := true }) := by
  refine ⟨rfl, rfl, fun Y => ?_⟩
  rfl

/-- C27, amended: after `parse_config`, `modified` is true when some key of the
node has an entry with a converter in the table, whether or not the converter
succeeds; when no key has, the record, `modified` included, is as before. -/
theorem modified_set_when_dispatched (C : YamlConverters) (Y : ParserExternals)
    (config : GHashTable ParserTable) (node : yaml_node_t) (network : Network) :
    ((∃ p ∈ mapping_pairs node, dispatched Y config p = true) →
        (parse_config C Y config node network).2.modified = true) ∧
      ((∀ p ∈ mapping_pairs node, dispatched Y config p = false) →
        parse_config C Y config node network = (0, network)) := by
  refine ⟨fun h => ?_, fun h => ?_⟩
  · exact foldl_parse_config_entry_dispatched C Y config _ network h
  · unfold parse_config
    rw [foldl_parse_config_entry_undispatched C Y config _ network h]

/-- The amended claim C27 at a mapping with a key of the table and at a mapping
without one. -/
theorem modified_set_when_dispatched_witness :
    (parse_config locator_converters example_externals (registered parser_network_vtable)
        (scalar_mapping [("lldp", "yes")]) network_new.2).2.modified = true ∧
      parse_config locator_converters example_externals (registered parser_network_vtable)
        (scalar_mapping [("LLDP", "yes")]) network_new.2 = (0, network_new.2) :=
  ⟨(modified_set_when_dispatched locator_converters example_externals
      (registered parser_network_vtable) (scalar_mapping [("lldp", "yes")]) network_new.2).1
      ⟨(.scalar "lldp", some (.scalar "yes")), by simp [scalar_mapping, mapping_pairs], by decide⟩,
    (modified_set_when_dispatched locator_converters example_externals
      (registered parser_network_vtable) (scalar_mapping [("LLDP", "yes")]) network_new.2).2
      (by
        intro p hp
        simp only [scalar_mapping, mapping_pairs, List.map_cons, List.map_nil,
          List.mem_singleton] at hp
        subst hp
        decide)⟩

/-! ## `parse_address`: labels and lifetimes -/

theorem parse_address_scalar (Y : ParserExternals) (value : String) (network : Network)
    (addr : Option IPAddress) :
    parse_address Y (.scalar value) network addr = some (0, network, addr) := by
  rw [parse_address]
  simp only [mapping_pairs, parse_address_mapping]

theorem parse_address_children_scalars (Y : ParserExternals) (pairs : List (String × String))
    (network : Network) (addr : Option IPAddress) :
    parse_address_children Y (pairs.map (fun p => (.scalar p.1, .scalar p.2))) network addr =
      some (network, addr) := by
  induction pairs with
  | nil => simp only [List.map_nil, parse_address_children]
  | cons p pairs ih =>
    rw [List.map_cons, parse_address_children]
    simp only [parse_address_scalar, ih]

theorem parse_address_scalar_mapping (Y : ParserExternals) (pairs : List (String × String))
    (network : Network) (addr : Option IPAddress) :
    parse_address Y (scalar_mapping pairs) network addr =
      parse_address_mapping Y
        (pairs.map (fun p => (.scalar p.1, some (.scalar p.2)))) none network addr := by
  unfold scalar_mapping
  rw [parse_address]
  simp only [parse_address_children_scalars, mapping_pairs, List.map_map]
  rfl

theorem address_added_records (Y : ParserExternals) (address : IPAddress)
    (v : Option yaml_node_t) (network : Network) :
    (address_added Y address v network).address_records =
        (if network.addresses.isSome then set_add_record network.address_records address
          else network.address_records) ∧
      (address_added Y address v network).modified = true := by
  unfold address_added
  cases v <;> cases h : network.addresses <;> simp [h]

theorem parse_address_mapping_literal (Y : ParserExternals) (key : String)
    (v : Option yaml_node_t) (pairs : List (yaml_node_t × Option yaml_node_t))
    (a : Option IPAddress) (network : Network) (addr : Option IPAddress)
    (h1 : key ≠ "lifetime") (h2 : key ≠ "label")
    (hr : 0 ≤ (ParserExternals.parse_ip_from_string Y key).1) :
    parse_address_mapping Y ((.scalar key, v) :: pairs) a network addr =
      parse_address_mapping Y pairs (if a.isNone && addr.isNone then some ip_address_new0 else a)
        (address_added Y
          (match addr with
            | some pending => with_pending pending (ParserExternals.parse_ip_from_string Y key).2
            | none => (ParserExternals.parse_ip_from_string Y key).2)
          v network)
        none := by
  have e1 : string_equal (scalar Y (some (.scalar key))) "lifetime" = false := by
    simpa [string_equal, scalar] using h1
  have e2 : string_equal (scalar Y (some (.scalar key))) "label" = false := by
    simpa [string_equal, scalar] using h2
  have e3 : ¬ (ParserExternals.parse_ip_from_string Y (scalar Y (some (.scalar key)))).1 < 0 := by
    simpa [scalar] using hr
  rw [parse_address_mapping]
  simp only [e1, e2, e3, Bool.false_eq_true, if_false]
  rfl

theorem parse_address_mapping_nil (Y : ParserExternals) (a : Option IPAddress)
    (network : Network) (addr : Option IPAddress) :
    parse_address_mapping Y [] a network addr =
      some (0, network, match a with
        | some a => some a
        | none => addr) := by
  cases a <;> simp only [parse_address_mapping]

theorem parse_address_mapping_label (Y : ParserExternals) (v : Option yaml_node_t)
    (pairs : List (yaml_node_t × Option yaml_node_t)) (a : Option IPAddress) (network : Network)
    (addr : Option IPAddress) (d : IPAddress)
    (h : (if a.isNone && addr.isNone then some ip_address_new0 else a) = some d) :
    parse_address_mapping Y ((.scalar "label", v) :: pairs) a network addr =
      parse_address_mapping Y pairs (some { d with label := some (scalar Y v) }) network addr := by
  have e1 : string_equal (scalar Y (some (.scalar "label"))) "lifetime" = false := rfl
  have e2 : string_equal (scalar Y (some (.scalar "label"))) "label" = true := rfl
  rw [parse_address_mapping]
  simp only [e1, e2, Bool.false_eq_true, if_false, if_true, h]

theorem parse_address_mapping_lifetime (Y : ParserExternals) (v : Option yaml_node_t)
    (pairs : List (yaml_node_t × Option yaml_node_t)) (a : Option IPAddress) (network : Network)
    (addr : Option IPAddress) (d : IPAddress)
    (h : (if a.isNone && addr.isNone then some ip_address_new0 else a) = some d) :
    parse_address_mapping Y ((.scalar "lifetime", v) :: pairs) a network addr =
      parse_address_mapping Y pairs (some { d with lifetime := some (scalar Y v) }) network
        addr := by
  have e1 : string_equal (scalar Y (some (.scalar "lifetime"))) "lifetime" = true := rfl
  rw [parse_address_mapping]
  simp only [e1, if_true, h]

theorem parse_address_label_then_literal (Y : ParserExternals) (key : String) (network : Network)
    (h1 : key ≠ "lifetime") (h2 : key ≠ "label")
    (hr : 0 ≤ (ParserExternals.parse_ip_from_string Y key).1) (label value : String) :
    parse_address Y (scalar_mapping [("label", label), (key, value)]) network none =
      some (0,
        address_added Y (ParserExternals.parse_ip_from_string Y key).2 (some (.scalar value))
          network,
        some { ip_address_new0 with label := some label }) := by
  rw [parse_address_scalar_mapping]
  simp only [List.map_cons, List.map_nil]
  rw [parse_address_mapping_label Y _ _ none network none ip_address_new0 rfl,
    parse_address_mapping_literal Y key _ _ _ _ _ h1 h2 hr, parse_address_mapping_nil]
  try rfl

/-- C24, as stated, fails: for a mapping that holds a label key followed by an
address-literal key, walked without a pending descriptor, the record added to
the set is the one that `parse_ip_from_string` made, without the label; the
label is in the descriptor handed back through `*addr`. -/
theorem label_not_attached_in_same_mapping :
    parse_address example_externals
        (scalar_mapping [("label", "eth0:static"), ("192.168.1.10/24", "")]) network_new.2 none =
      some (0,
        { network_new.2 with
          address_records := [(ParserExternals.parse_ip_from_string example_externals
            "192.168.1.10/24").2],
          modified := true },
        some { ip_address_new0 with label := some "eth0:static" }) ∧
      (ParserExternals.parse_ip_from_string example_externals "192.168.1.10/24").2.label = none ∧
      ∀ (Y : ParserExternals) (address : IPAddress),
        ParserExternals.parse_ip_from_string Y "192.168.1.10/24" = (0, address) →
        ∃ network : Network,
          parse_address Y (scalar_mapping [("label", "eth0:static"), ("192.168.1.10/24", "")])
              network_new.2 none =
            some (0, network, some { ip_address_new0 with label := some "eth0:static" }) ∧
          network.address_records = [address] := by
  refine ⟨by decide, rfl, ?_⟩
  intro Y address h
  refine ⟨address_added Y address (some (.scalar "")) network_new.2, ?_, ?_⟩
  · have hb := parse_address_label_then_literal Y "192.168.1.10/24" network_new.2 (by decide)
      (by decide) (by simp [h]) "eth0:static" ""
    rw [h] at hb
    exact hb
  · rw [(address_added_records Y address _ _).1]
    simp [network_new, set_add_record]

/-- C24, amended: a label or lifetime key of a mapping is stored in a descriptor
that `parse_address` hands back through `*addr` when the walk of the mapping
ends, and it attaches to the address literal that a later walk meets while it
holds that descriptor, as when the mapping with the label and the lifetime is
the value of the address-literal key; it does not attach to an address-literal
key of the same mapping. -/
theorem label_attaches_through_pending (Y : ParserExternals) (key : String) (network : Network)
    (h1 : key ≠ "lifetime") (h2 : key ≠ "label")
    (hr : 0 ≤ (ParserExternals.parse_ip_from_string Y key).1) :
    (∀ label value : String,
      parse_address Y (scalar_mapping [("label", label), (key, value)]) network none =
        some (0,
          address_added Y (ParserExternals.parse_ip_from_string Y key).2 (some (.scalar value))
            network,
          some { ip_address_new0 with label := some label })) ∧
      (∀ (pending : IPAddress) (value : String),
        parse_address Y (scalar_mapping [(key, value)]) network (some pending) =
          some (0,
            address_added Y (with_pending pending (ParserExternals.parse_ip_from_string Y key).2)
              (some (.scalar value)) network,
            none)) ∧
      (∀ label lifetime : String,
        parse_address Y
            (.mapping [(.scalar key, scalar_mapping [("label", label), ("lifetime", lifetime)])])
            network none =
          some (0,
            address_added Y
              { (ParserExternals.parse_ip_from_string Y key).2 with
                label := some label, lifetime := some lifetime }
              (some (scalar_mapping [("label", label), ("lifetime", lifetime)])) network,
            none)) ∧
      ∀ pending address : IPAddress,
        (with_pending pending address).label =
            (if pending.label.isSome then pending.label else address.label) ∧
          (with_pending pending address).lifetime =
            (if pending.lifetime.isSome then pending.lifetime else address.lifetime) := by
  refine ⟨?_, ?_, ?_, ?_⟩
  · intro label value
    exact parse_address_label_then_literal Y key network h1 h2 hr label value
  · intro pending value
    rw [parse_address_scalar_mapping]
    simp only [List.map_cons, List.map_nil]
    rw [parse_address_mapping_literal Y key _ _ _ _ _ h1 h2 hr, parse_address_mapping_nil]
    try rfl
  · intro label lifetime
    rw [parse_address]
    simp only [parse_address_children, parse_address_scalar, parse_address_scalar_mapping,
      List.map_cons, List.map_nil]
    rw [parse_address_mapping_label Y _ _ none network none ip_address_new0 rfl,
      parse_address_mapping_lifetime Y _ _
        (some { ip_address_new0 with label := some (scalar Y (some (.scalar label))) }) network
        none { ip_address_new0 with label := some (scalar Y (some (.scalar label))) } rfl,
      parse_address_mapping_nil]
    simp only [mapping_pairs, List.map_cons, List.map_nil]
    rw [parse_address_mapping_literal Y key _ _ _ _ _ h1 h2 hr, parse_address_mapping_nil]
    try rfl
  · intro pending address
    unfold with_pending
    cases pending.label <;> cases pending.lifetime <;> simp

/-- The amended claim C24 at the address 192.168.1.10/24 with the label
`eth0:static` and the lifetime 100 in the mapping that is the value of the
address key. -/
theorem label_attaches_through_pending_witness :
    (parse_address example_externals
        (.mapping [(.scalar "192.168.1.10/24",
          scalar_mapping [("label", "eth0:static"), ("lifetime", "100")])])
        network_new.2 none).map (fun r => r.2.1.address_records) =
      some [{ (ParserExternals.parse_ip_from_string example_externals "192.168.1.10/24").2 with
        label := some "eth0:static", lifetime := some "100" }] :=
  (congrArg (fun r => Option.map (fun r => r.2.1.address_records) r)
    ((label_attaches_through_pending example_externals "192.168.1.10/24" network_new.2
      (by decide) (by decide) (by decide)).2.2.1 "eth0:static" "100")).trans (by decide)

/-! ## `parse_route` and `parse_routing_policy_rule_config` -/

theorem g_hash_table_lookup_mem {β : Type} (t : GHashTable β) (key : String) (value : β)
    (h : g_hash_table_lookup t key = some value) : (key, value) ∈ t := by
  unfold g_hash_table_lookup at h
  cases hf : t.find? (fun e => e.1 == key) with
  | none => simp [hf] at h
  | some e =>
    rw [hf] at h
    have hv : e.2 = value := by simpa using h
    have hk : (e.1 == key) = true :=
      @List.find?_some _ (fun e : String × β => e.1 == key) e t hf
    have hk2 : e.1 = key := by simpa using hk
    have hm : e ∈ t := List.mem_of_find?_eq_some hf
    have : e = (key, value) := Prod.ext hk2 hv
    rw [← this]
    exact hm

theorem parse_config_entry_identity (C : YamlConverters) (Y : ParserExternals)
    (config : GHashTable ParserTable) (network : Network) (p : yaml_node_t × Option yaml_node_t)
    (hC : keeps_identity C)
    (h : ∀ table, g_hash_table_lookup config (scalar Y (some p.1)) = some table →
      table.offset ≠ "Network.ifname") :
    identity (parse_config_entry C Y config network p) = identity network := by
  unfold parse_config_entry
  cases hl : g_hash_table_lookup config (scalar Y (some p.1)) with
  | none => simp only [hl]
  | some table =>
    cases hp : table.parser with
    | none => simp only [hl, hp]
    | some parser =>
      simp only [hl, hp]
      obtain ⟨h1, h2⟩ := hC parser (scalar Y (some p.1)) p.2 table.offset network
      exact Prod.ext (h2 (h table hl)) h1

theorem parse_config_identity (C : YamlConverters) (Y : ParserExternals)
    (config : GHashTable ParserTable) (node : yaml_node_t) (network : Network)
    (hC : keeps_identity C)
    (h : ∀ p ∈ mapping_pairs node, ∀ table,
      g_hash_table_lookup config (scalar Y (some p.1)) = some table →
      table.offset ≠ "Network.ifname") :
    identity (parse_config C Y config node network).2 = identity network := by
  unfold parse_config
  simp only
  generalize mapping_pairs node = pairs at h
  induction pairs generalizing network with
  | nil => rfl
  | cons p pairs ih =>
    rw [List.foldl_cons, ih _ (fun q hq => h q (List.mem_cons_of_mem _ hq))]
    exact parse_config_entry_identity C Y config network p hC (h p (List.mem_cons_self _ _))

theorem parse_route_mapping_identity (C : YamlConverters) (Y : ParserExternals)
    (config : GHashTable ParserTable) (pairs : List (yaml_node_t × Option yaml_node_t))
    (network : Network) :
    identity (parse_route_mapping C Y config pairs network).2 = identity network := by
  have hfold : ∀ (pairs : List (yaml_node_t × Option yaml_node_t)) (st : Option Route × Network),
      identity (pairs.foldl (parse_route_entry C Y config) st).2 = identity st.2 := by
    intro pairs
    induction pairs with
    | nil => intro st; rfl
    | cons p pairs ih =>
      intro st
      rw [List.foldl_cons, ih]
      unfold parse_route_entry
      cases hl : g_hash_table_lookup config (scalar Y (some p.1)) with
      | none => simp only [hl]
      | some table =>
        cases hp : table.parser with
        | none => simp only [hl, hp]
        | some parser => simp only [hl, hp]; rfl
  unfold parse_route_mapping
  simp only
  have h := hfold pairs (none, network)
  cases hrt : (pairs.foldl (parse_route_entry C Y config) (none, network)).1 with
  | none => simpa using h
  | some rt =>
    simp only
    split_ifs
    · exact h
    · exact h

mutual
theorem parse_route_identity (C : YamlConverters) (Y : ParserExternals)
    (config : GHashTable ParserTable) :
    ∀ (node : yaml_node_t) (network : Network),
      identity (parse_route C Y config node network).2 = identity network
  | .scalar value, network => by
    rw [parse_route]
    exact parse_route_mapping_identity C Y config _ network
  | .sequence items, network => by
    rw [parse_route, parse_route_mapping_identity]
    exact parse_route_sequence_identity C Y config items network
  | .mapping pairs, network => by
    rw [parse_route, parse_route_mapping_identity]
    exact parse_route_children_identity C Y config pairs network
theorem parse_route_sequence_identity (C : YamlConverters) (Y : ParserExternals)
    (config : GHashTable ParserTable) :
    ∀ (items : List yaml_node_t) (network : Network),
      identity (parse_route_sequence C Y config items network) = identity network
  | [], network => by rw [parse_route_sequence]
  | n :: items, network => by
    rw [parse_route_sequence, parse_route_sequence_identity C Y config items,
      parse_route_identity C Y config n]
theorem parse_route_children_identity (C : YamlConverters) (Y : ParserExternals)
    (config : GHashTable ParserTable) :
    ∀ (pairs : List (yaml_node_t × yaml_node_t)) (network : Network),
      identity (parse_route_children C Y config pairs network) = identity network
  | [], network => by rw [parse_route_children]
  | (k, v) :: pairs, network => by
    rw [parse_route_children, parse_route_children_identity C Y config pairs,
      parse_route_identity C Y config v, parse_route_identity C Y config k]
end

theorem parse_routing_policy_rule_mapping_identity (C : YamlConverters) (Y : ParserExternals)
    (config : GHashTable ParserTable) (pairs : List (yaml_node_t × Option yaml_node_t))
    (network : Network) :
    identity (parse_routing_policy_rule_mapping C Y config pairs network).2 = identity network := by
  have hfold : ∀ (pairs : List (yaml_node_t × Option yaml_node_t)) (st : Option RoutingPolicyRule × Network),
      identity (pairs.foldl (parse_routing_policy_rule_entry C Y config) st).2 = identity st.2 := by
    intro pairs
    induction pairs with
    | nil => intro st; rfl
    | cons p pairs ih =>
      intro st
      rw [List.foldl_cons, ih]
      unfold parse_routing_policy_rule_entry
      cases hl : g_hash_table_lookup config (scalar Y (some p.1)) with
      | none => simp only [hl]
      | some table =>
        cases hp : table.parser with
        | none => simp only [hl, hp]
        | some parser => simp only [hl, hp]; rfl
  unfold parse_routing_policy_rule_mapping
  simp only
  have h := hfold pairs (none, network)
  cases hrt : (pairs.foldl (parse_routing_policy_rule_entry C Y config) (none, network)).1 with
  | none => simpa using h
  | some rt =>
    simp only
    split_ifs
    · exact h
    · exact h

mutual
theorem parse_routing_policy_rule_identity (C : YamlConverters) (Y : ParserExternals)
    (config : GHashTable ParserTable) :
    ∀ (node : yaml_node_t) (network : Network),
      identity (parse_routing_policy_rule_config C Y config node network).2 = identity network
  | .scalar value, network => by
    rw [parse_routing_policy_rule_config]
    exact parse_routing_policy_rule_mapping_identity C Y config _ network
  | .sequence items, network => by
    rw [parse_routing_policy_rule_config, parse_routing_policy_rule_mapping_identity]
    exact parse_routing_policy_rule_sequence_identity C Y config items network
  | .mapping pairs, network => by
    rw [parse_routing_policy_rule_config, parse_routing_policy_rule_mapping_identity]
    exact parse_routing_policy_rule_children_identity C Y config pairs network
theorem parse_routing_policy_rule_sequence_identity (C : YamlConverters) (Y : ParserExternals)
    (config : GHashTable ParserTable) :
    ∀ (items : List yaml_node_t) (network : Network),
      identity (parse_routing_policy_rule_sequence C Y config items network) = identity network
  | [], network => by rw [parse_routing_policy_rule_sequence]
  | n :: items, network => by
    rw [parse_routing_policy_rule_sequence, parse_routing_policy_rule_sequence_identity C Y config items,
      parse_routing_policy_rule_identity C Y config n]
theorem parse_routing_policy_rule_children_identity (C : YamlConverters) (Y : ParserExternals)
    (config : GHashTable ParserTable) :
    ∀ (pairs : List (yaml_node_t × yaml_node_t)) (network : Network),
      identity (parse_routing_policy_rule_children C Y config pairs network) = identity network
  | [], network => by rw [parse_routing_policy_rule_children]
  | (k, v) :: pairs, network => by
    rw [parse_routing_policy_rule_children, parse_routing_policy_rule_children_identity C Y config pairs,
      parse_routing_policy_rule_identity C Y config v, parse_routing_policy_rule_identity C Y config k]
end

theorem parse_address_mapping_identity (Y : ParserExternals) :
    ∀ (pairs : List (yaml_node_t × Option yaml_node_t)) (a : Option IPAddress)
      (network : Network) (addr : Option IPAddress) (r : Int × Network × Option IPAddress),
      parse_address_mapping Y pairs a network addr = some r → identity r.2.1 = identity network
  | [], a, network, addr, r, h => by
    rw [parse_address_mapping_nil] at h
    cases h
    rfl
  | (k, v) :: pairs, a, network, addr, r, h => by
    rw [parse_address_mapping] at h
    simp only at h
    split at h
    · split at h
      · exact absurd h (by simp)
      · exact parse_address_mapping_identity Y pairs _ _ _ r h
    · split at h
      · split at h
        · exact absurd h (by simp)
        · exact parse_address_mapping_identity Y pairs _ _ _ r h
      · split at h
        · cases h
          rfl
        · have := parse_address_mapping_identity Y pairs _ _ _ r h
          rw [this]
          cases v <;> cases hs : network.addresses <;> simp [identity, hs]

mutual
theorem parse_address_identity (Y : ParserExternals) :
    ∀ (node : yaml_node_t) (network : Network) (addr : Option IPAddress)
      (r : Int × Network × Option IPAddress),
      parse_address Y node network addr = some r → identity r.2.1 = identity network
  | .scalar value, network, addr, r, h => by
    rw [parse_address] at h
    exact parse_address_mapping_identity Y _ _ _ _ r h
  | .sequence items, network, addr, r, h => by
    rw [parse_address] at h
    cases hs : parse_address_sequence Y items network addr with
    | none => simp [hs] at h
    | some st =>
      rw [hs] at h
      rw [parse_address_mapping_identity Y _ _ _ _ r h]
      exact parse_address_sequence_identity Y items network addr st hs
  | .mapping pairs, network, addr, r, h => by
    rw [parse_address] at h
    cases hs : parse_address_children Y pairs network addr with
    | none => simp [hs] at h
    | some st =>
      rw [hs] at h
      rw [parse_address_mapping_identity Y _ _ _ _ r h]
      exact parse_address_children_identity Y pairs network addr st hs
theorem parse_address_sequence_identity (Y : ParserExternals) :
    ∀ (items : List yaml_node_t) (network : Network) (addr : Option IPAddress)
      (st : Network × Option IPAddress),
      parse_address_sequence Y items network addr = some st → identity st.1 = identity network
  | [], network, addr, st, h => by
    rw [parse_address_sequence] at h
    cases h
    rfl
  | n :: items, network, addr, st, h => by
    rw [parse_address_sequence] at h
    cases hn : parse_address Y n network addr with
    | none => simp [hn] at h
    | some r =>
      rw [hn] at h
      rw [parse_address_sequence_identity Y items _ _ st h]
      exact parse_address_identity Y n network addr r hn
theorem parse_address_children_identity (Y : ParserExternals) :
    ∀ (pairs : List (yaml_node_t × yaml_node_t)) (network : Network) (addr : Option IPAddress)
      (st : Network × Option IPAddress),
      parse_address_children Y pairs network addr = some st → identity st.1 = identity network
  | [], network, addr, st, h => by
    rw [parse_address_children] at h
    cases h
    rfl
  | (k, v) :: pairs, network, addr, st, h => by
    rw [parse_address_children] at h
    cases hk : parse_address Y k network addr with
    | none => simp [hk] at h
    | some r =>
      rw [hk] at h
      simp only at h
      cases hv : parse_address Y v r.2.1 r.2.2 with
      | none => simp [hv] at h
      | some r2 =>
        rw [hv] at h
        rw [parse_address_children_identity Y pairs _ _ st h,
          parse_address_identity Y v _ _ r2 hv]
        exact parse_address_identity Y k network addr r hk
end

theorem network_table_not_ifname (key : String) (table : ParserTable)
    (h : g_hash_table_lookup (registered parser_network_vtable) key = some table) :
    table.offset ≠ "Network.ifname" := by
  have hall : ∀ e ∈ registered parser_network_vtable, e.2.offset ≠ "Network.ifname" := by decide
  exact hall _ (g_hash_table_lookup_mem _ key table h)

theorem dhcp4_table_not_ifname (key : String) (table : ParserTable)
    (h : g_hash_table_lookup (registered parser_dhcp4_overrides_vtable) key = some table) :
    table.offset ≠ "Network.ifname" := by
  have hall : ∀ e ∈ registered parser_dhcp4_overrides_vtable,
      e.2.offset ≠ "Network.ifname" := by decide
  exact hall _ (g_hash_table_lookup_mem _ key table h)

theorem dhcp6_table_not_ifname (key : String) (table : ParserTable)
    (h : g_hash_table_lookup (registered parser_dhcp6_overrides_vtable) key = some table) :
    table.offset ≠ "Network.ifname" := by
  have hall : ∀ e ∈ registered parser_dhcp6_overrides_vtable,
      e.2.offset ≠ "Network.ifname" := by decide
  exact hall _ (g_hash_table_lookup_mem _ key table h)

theorem nameservers_table_not_ifname (key : String) (table : ParserTable)
    (h : g_hash_table_lookup (registered parser_nameservers_vtable) key = some table) :
    table.offset ≠ "Network.ifname" := by
  have hall : ∀ e ∈ registered parser_nameservers_vtable,
      e.2.offset ≠ "Network.ifname" := by decide
  exact hall _ (g_hash_table_lookup_mem _ key table h)

theorem match_table_ifname_is_name (key : String) (table : ParserTable)
    (h : g_hash_table_lookup (registered parser_match_vtable) key = some table)
    (ho : table.offset = "Network.ifname") : key = "name" := by
  have hall : ∀ e ∈ registered parser_match_vtable,
      e.2.offset = "Network.ifname" → e.1 = "name" := by decide
  exact hall _ (g_hash_table_lookup_mem _ key table h) ho

theorem parse_config_match_identity (C : YamlConverters) (Y : ParserExternals)
    (node : yaml_node_t) (network : Network) (hC : keeps_identity C)
    (h : names_interface Y (some node) = false) :
    identity (parse_config C Y (registered parser_match_vtable) node network).2 =
      identity network := by
  apply parse_config_identity C Y _ node network hC
  intro p hp table hl ho
  have hname := match_table_ifname_is_name _ table hl ho
  unfold names_interface at h
  rw [List.any_eq_false] at h
  have := h p hp
  rw [hname] at this
  exact this (by decide)

theorem parse_network_entry_identity (C : YamlConverters) (Y : ParserExternals)
    (link_config : GHashTable ParserTable) (k : yaml_node_t) (v : Option yaml_node_t)
    (nested : Network → Option (Int × Network)) (network : Network) (r : Int × Network)
    (hC : keeps_identity C)
    (hm : (scalar Y (some k) == "match" && names_interface Y v) = false)
    (hn : ∀ r, nested network = some r → identity r.2 = identity network)
    (h : parse_network_entry C Y (yaml_manager link_config) k v nested network = some r) :
    identity r.2 = identity network := by
  unfold parse_network_entry at h
  simp only at h
  cases hl : g_hash_table_lookup (yaml_manager link_config).network_config (scalar Y (some k)) with
  | some table =>
    rw [hl] at h
    simp only at h
    cases hp : table.parser with
    | none =>
      rw [hp] at h
      cases h
      rfl
    | some parser =>
      rw [hp] at h
      cases h
      obtain ⟨h1, h2⟩ := hC parser (scalar Y (some k)) v table.offset network
      exact Prod.ext (h2 (network_table_not_ifname _ table hl)) h1
  | none =>
    rw [hl] at h
    simp only at h
    cases v with
    | none => simp at h
    | some node =>
      simp only at h
      have hwalk : ∀ w : Int × Network,
          (if string_equal (scalar Y (some k)) "match" = true then
            some (parse_config C Y (yaml_manager link_config).match_config node network)
          else if string_equal (scalar Y (some k)) "dhcp4-overrides" = true then
            some (parse_config C Y (yaml_manager link_config).dhcp4_config node network)
          else if string_equal (scalar Y (some k)) "dhcp6-overrides" = true then
            some (parse_config C Y (yaml_manager link_config).dhcp6_config node network)
          else if string_equal (scalar Y (some k)) "addresses" = true then
            (parse_address Y node network none).map (fun r => (r.1, r.2.1))
          else if string_equal (scalar Y (some k)) "routes" = true then
            some (parse_route C Y (yaml_manager link_config).route_config node network)
          else if string_equal (scalar Y (some k)) "routing-policy" = true then
            some (parse_routing_policy_rule_config C Y
              (yaml_manager link_config).routing_policy_rule_config node network)
          else if string_equal (scalar Y (some k)) "nameservers" = true then
            some (parse_config C Y (yaml_manager link_config).nameserver_config node network)
          else nested network) = some w → identity w.2 = identity network := by
        intro w hw
        split_ifs at hw with c1 c2 c3 c4 c5 c6 c7
        · cases hw
          have hk : (scalar Y (some k) == "match") = true := c1
          rw [hk, Bool.true_and] at hm
          exact parse_config_match_identity C Y node network hC hm
        · cases hw
          exact parse_config_identity C Y _ node network hC
            (fun p _ table hl => dhcp4_table_not_ifname _ table hl)
        · cases hw
          exact parse_config_identity C Y _ node network hC
            (fun p _ table hl => dhcp6_table_not_ifname _ table hl)
        · cases ha : parse_address Y node network none with
          | none => simp [ha] at hw
          | some ra =>
            rw [ha] at hw
            cases hw
            exact parse_address_identity Y node network none ra ha
        · cases hw
          exact parse_route_identity C Y _ node network
        · cases hw
          exact parse_routing_policy_rule_identity C Y _ node network
        · cases hw
          exact parse_config_identity C Y _ node network hC
            (fun p _ table hl => nameservers_table_not_ifname _ table hl)
        · exact hn w hw
      generalize hwe : (if string_equal (scalar Y (some k)) "match" = true then
            some (parse_config C Y (yaml_manager link_config).match_config node network)
          else if string_equal (scalar Y (some k)) "dhcp4-overrides" = true then
            some (parse_config C Y (yaml_manager link_config).dhcp4_config node network)
          else if string_equal (scalar Y (some k)) "dhcp6-overrides" = true then
            some (parse_config C Y (yaml_manager link_config).dhcp6_config node network)
          else if string_equal (scalar Y (some k)) "addresses" = true then
            (parse_address Y node network none).map (fun r => (r.1, r.2.1))
          else if string_equal (scalar Y (some k)) "routes" = true then
            some (parse_route C Y (yaml_manager link_config).route_config node network)
          else if string_equal (scalar Y (some k)) "routing-policy" = true then
            some (parse_routing_policy_rule_config C Y
              (yaml_manager link_config).routing_policy_rule_config node network)
          else if string_equal (scalar Y (some k)) "nameservers" = true then
            some (parse_config C Y (yaml_manager link_config).nameserver_config node network)
          else nested network) = walked at h hwalk
      cases walked with
      | none => simp at h
      | some w =>
        have hw := hwalk w rfl
        simp only at h
        split_ifs at h
        · cases h
          exact hw
        · split at h
          · cases h
            exact hw
          · cases h
            exact hw

mutual
theorem parse_network_config_identity (C : YamlConverters) (Y : ParserExternals)
    (link_config : GHashTable ParserTable) (hC : keeps_identity C) :
    ∀ (node : yaml_node_t) (network : Network) (r : Int × Network),
      rewrites_name Y node = false →
      parse_network_config C Y (yaml_manager link_config) node network = some r →
      identity r.2 = identity network
  | .scalar _, network, r, _, h => by
    rw [parse_network_config] at h
    cases h
    rfl
  | .sequence items, network, r, ht, h => by
    rw [parse_network_config] at h
    rw [rewrites_name, Bool.or_eq_false_iff] at ht
    exact parse_network_items_identity C Y link_config hC items network r ht.1 ht.2 h
  | .mapping pairs, network, r, ht, h => by
    rw [parse_network_config] at h
    rw [rewrites_name, Bool.or_eq_false_iff] at ht
    exact parse_network_pairs_identity C Y link_config hC pairs network r ht.1 ht.2 h
theorem parse_network_pairs_identity (C : YamlConverters) (Y : ParserExternals)
    (link_config : GHashTable ParserTable) (hC : keeps_identity C) :
    ∀ (pairs : List (yaml_node_t × yaml_node_t)) (network : Network) (r : Int × Network),
      pairs.any (fun p => scalar Y (some p.1) == "match" && names_interface Y (some p.2)) =
        false →
      rewrites_name_pairs Y pairs = false →
      parse_network_pairs C Y (yaml_manager link_config) pairs network = some r →
      identity r.2 = identity network
  | [], network, r, _, _, h => by
    rw [parse_network_pairs] at h
    cases h
    rfl
  | (k, v) :: pairs, network, r, ha, ht, h => by
    rw [parse_network_pairs] at h
    rw [List.any_cons, Bool.or_eq_false_iff] at ha
    rw [rewrites_name_pairs, Bool.or_eq_false_iff, Bool.or_eq_false_iff] at ht
    cases he : parse_network_entry C Y (yaml_manager link_config) k (some v)
        (parse_network_config C Y (yaml_manager link_config) v) network with
    | none => simp [he] at h
    | some e =>
      rw [he] at h
      have hid := parse_network_entry_identity C Y link_config k (some v) _ network e hC ha.1
        (fun r hr => parse_network_config_identity C Y link_config hC v network r ht.1.2 hr) he
      simp only at h
      split_ifs at h
      · cases h
        exact hid
      · rw [parse_network_pairs_identity C Y link_config hC pairs e.2 r ha.2 ht.2 h]
        exact hid
theorem parse_network_items_identity (C : YamlConverters) (Y : ParserExternals)
    (link_config : GHashTable ParserTable) (hC : keeps_identity C) :
    ∀ (items : List yaml_node_t) (network : Network) (r : Int × Network),
      (items_as_pairs items).any
          (fun p => scalar Y (some p.1) == "match" && names_interface Y p.2) = false →
      rewrites_name_items Y items = false →
      parse_network_items C Y (yaml_manager link_config) items network = some r →
      identity r.2 = identity network
  | [], network, r, _, _, h => by
    rw [parse_network_items] at h
    cases h
    rfl
  | [k], network, r, ha, _, h => by
    rw [parse_network_items] at h
    rw [items_as_pairs, List.any_cons, Bool.or_eq_false_iff] at ha
    cases he : parse_network_entry C Y (yaml_manager link_config) k none (fun _ => none)
        network with
    | none => simp [he] at h
    | some e =>
      rw [he] at h
      have hid := parse_network_entry_identity C Y link_config k none _ network e hC ha.1
        (fun r hr => absurd hr (by simp)) he
      simp only at h
      split_ifs at h
      · cases h
        exact hid
      · cases h
        exact hid
  | k :: v :: items, network, r, ha, ht, h => by
    rw [parse_network_items] at h
    rw [items_as_pairs, List.any_cons, Bool.or_eq_false_iff] at ha
    rw [rewrites_name_items, rewrites_name_items, Bool.or_eq_false_iff,
      Bool.or_eq_false_iff] at ht
    cases he : parse_network_entry C Y (yaml_manager link_config) k (some v)
        (parse_network_config C Y (yaml_manager link_config) v) network with
    | none => simp [he] at h
    | some e =>
      rw [he] at h
      have hid := parse_network_entry_identity C Y link_config k (some v) _ network e hC ha.1
        (fun r hr => parse_network_config_identity C Y link_config hC v network r ht.2.1 hr) he
      simp only at h
      split_ifs at h
      · cases h
        exact hid
      · rw [parse_network_items_identity C Y link_config hC items e.2 r ha.2 ht.2.2 h]
        exact hid
end

theorem locator_converters_keeps_identity : keeps_identity locator_converters := by
  intro parser key v offset network
  unfold locator_converters
  simp only
  cases v with
  | none => exact ⟨rfl, fun _ => rfl⟩
  | some node =>
    cases node with
    | scalar value =>
      simp only
      split_ifs with h1 h2 h3 h4 h5 h6 h7 h8 h9
      · exact ⟨rfl, fun h => absurd h2 h⟩
      · exact ⟨rfl, fun _ => rfl⟩
      · exact ⟨rfl, fun _ => rfl⟩
      · exact ⟨rfl, fun _ => rfl⟩
      · exact ⟨rfl, fun _ => rfl⟩
      · exact ⟨rfl, fun _ => rfl⟩
      · exact ⟨rfl, fun _ => rfl⟩
      · exact ⟨rfl, fun _ => rfl⟩
      · exact ⟨rfl, fun _ => rfl⟩
      · exact ⟨rfl, fun _ => rfl⟩
    | sequence items => exact ⟨rfl, fun _ => rfl⟩
    | mapping pairs => exact ⟨rfl, fun _ => rfl⟩

/-- C28, as stated, fails: the subtree of the interface `eth0` holds a match section
with the key `name`, and after the walk the interface name of the record is the
value of that key; `parse_ethernet_config` stores the record under that name. -/
theorem match_name_rewrites_ifname :
    (interface_record "eth0").ifname = some "eth0" ∧
      (parse_network_config locator_converters example_externals (yaml_manager []) match_eth1
        (interface_record "eth0")).map (fun r => (r.1, r.2.ifname)) = some (0, some "eth1") ∧
      (parse_ethernet_config locator_converters example_externals (yaml_manager [])
        (interfaces [("eth0", match_eth1)]) ⟨[]⟩).map
          (fun r => r.2.networks.map (fun p => (p.1, p.2.ifname))) =
        some [("eth1", some "eth1")] := by
  refine ⟨rfl, by decide, by decide⟩

/-- C28, amended: for converters that write through their locator, the interface
name and the parser type of a record are after the walk of a subtree what they
were before it, whenever the subtree holds no match section with the key
`name`, whatever other keys it holds; the key `name` of a match section is the
one key whose table entry locates the interface name. -/
theorem ifname_kept_without_match_name (C : YamlConverters) (Y : ParserExternals)
    (link_config : GHashTable ParserTable) (node : yaml_node_t) (network : Network)
    (r : Int × Network) (hC : keeps_identity C) (ht : rewrites_name Y node = false)
    (h : parse_network_config C Y (yaml_manager link_config) node network = some r) :
    r.2.ifname = network.ifname ∧ r.2.parser_type = network.parser_type ∧
      (∀ (key : String) (table : ParserTable),
        (g_hash_table_lookup (yaml_manager link_config).match_config key = some table →
          table.offset = "Network.ifname" → key = "name") ∧
        (g_hash_table_lookup (yaml_manager link_config).network_config key = some table →
          table.offset ≠ "Network.ifname") ∧
        (g_hash_table_lookup (yaml_manager link_config).dhcp4_config key = some table →
          table.offset ≠ "Network.ifname") ∧
        (g_hash_table_lookup (yaml_manager link_config).dhcp6_config key = some table →
          table.offset ≠ "Network.ifname") ∧
        (g_hash_table_lookup (yaml_manager link_config).nameserver_config key = some table →
          table.offset ≠ "Network.ifname")) := by
  have hid := parse_network_config_identity C Y link_config hC node network r ht h
  refine ⟨congrArg Prod.fst hid, congrArg Prod.snd hid, fun key table => ⟨?_, ?_, ?_, ?_, ?_⟩⟩
  · exact match_table_ifname_is_name key table
  · exact network_table_not_ifname key table
  · exact dhcp4_table_not_ifname key table
  · exact dhcp6_table_not_ifname key table
  · exact nameservers_table_not_ifname key table

/-- The amended claim C28 at a subtree with table keys, one with a value that its
converter rejects, and an unknown key with a nested mapping. -/
theorem ifname_kept_without_match_name_witness :
    (parse_network_config locator_converters example_externals (yaml_manager [])
        (.mapping [(.scalar "lldp", .scalar "maybe"), (.scalar "accept-ra", .scalar "yes"),
          (.scalar "extra", scalar_mapping [("lldp", "no")])])
        (interface_record "eth0")).map (fun r => (r.2.ifname, r.2.lldp)) =
      some (some "eth0", 0) :=
  match h : parse_network_config locator_converters example_externals (yaml_manager [])
      (.mapping [(.scalar "lldp", .scalar "maybe"), (.scalar "accept-ra", .scalar "yes"),
        (.scalar "extra", scalar_mapping [("lldp", "no")])])
      (interface_record "eth0") with
  | none => absurd h (by decide)
  | some r => by
    have hk := (ifname_kept_without_match_name locator_converters example_externals []
      _ (interface_record "eth0") r locator_converters_keeps_identity (by decide) h).1
    have hl : (parse_network_config locator_converters example_externals (yaml_manager [])
        (.mapping [(.scalar "lldp", .scalar "maybe"), (.scalar "accept-ra", .scalar "yes"),
          (.scalar "extra", scalar_mapping [("lldp", "no")])])
        (interface_record "eth0")).map (fun r => r.2.lldp) = some 0 := by decide
    rw [h] at hl
    simp only [Option.map_some', Option.some.injEq] at hl
    simp only [Option.map_some', hk, hl]
    rfl

/-! ## `parse_ethernet_config` -/

theorem g_hash_table_lookup_none_of_not_mem {β : Type} (t : GHashTable β) (key : String)
    (h : key ∉ t.map Prod.fst) : g_hash_table_lookup t key = none := by
  cases hl : g_hash_table_lookup t key with
  | none => rfl
  | some value =>
    exact absurd (List.mem_map.2 ⟨(key, value), g_hash_table_lookup_mem t key value hl, rfl⟩) h

theorem parse_ethernet_entries_distinct (C : YamlConverters) (Y : ParserExternals)
    (link_config : GHashTable ParserTable) (hC : keeps_identity C) :
    ∀ (entries : List (String × yaml_node_t)) (table : GHashTable Network),
      (table.map Prod.fst ++ entries.map Prod.fst).Nodup →
      (∀ e ∈ entries, rewrites_name Y e.2 = false) →
      (∀ e ∈ entries,
        (parse_network_config C Y (yaml_manager link_config) e.2
          (interface_record e.1)).isSome = true) →
      parse_ethernet_entries C Y (yaml_manager link_config)
          (entries.map (fun e => ((.scalar e.1 : yaml_node_t), some e.2))) ⟨table⟩ =
        some (0, ⟨table ++ entries.map
          (fun e => (e.1, walked_record C Y (yaml_manager link_config) e))⟩)
  | [], table, _, _, _ => by
    simp only [List.map_nil, parse_ethernet_entries, List.append_nil]
  | e :: entries, table, hd, ht, hw => by
    rw [List.map_cons, parse_ethernet_entries]
    have hs : scalar Y (some (.scalar e.1)) = e.1 := rfl
    have hrec : ({ { network_new.2 with parser_type := PARSER_TYPE_YAML } with
        ifname := some (scalar Y (some (.scalar e.1))) } : Network) = interface_record e.1 := rfl
    simp only [hrec]
    have hsome := hw e (List.mem_cons_self _ _)
    cases hp : parse_network_config C Y (yaml_manager link_config) e.2 (interface_record e.1) with
    | none => simp [hp] at hsome
    | some r =>
      have hid := parse_network_config_identity C Y link_config hC e.2 (interface_record e.1) r
        (ht e (List.mem_cons_self _ _)) hp
      have hname : r.2.ifname = some e.1 := congrArg Prod.fst hid
      have hwalked : walked_record C Y (yaml_manager link_config) e = r.2 := by
        unfold walked_record
        rw [hp]
        rfl
      have hnot : e.1 ∉ table.map Prod.fst := by
        intro hmem
        rw [List.map_cons] at hd
        exact (List.nodup_append.1 hd).2.2 hmem (List.mem_cons_self _ _) 
      have hins := g_hash_table_insert_new table e.1 r.2
        (g_hash_table_lookup_none_of_not_mem table e.1 hnot)
      simp only [Option.map_some', hname, hins, Bool.not_true, Bool.false_eq_true, if_false]
      have hd2 : ((table ++ [(e.1, r.2)]).map Prod.fst ++ entries.map Prod.fst).Nodup := by
        rw [List.map_append, List.append_assoc]
        simpa using hd
      rw [parse_ethernet_entries_distinct C Y link_config hC entries (table ++ [(e.1, r.2)]) hd2
        (fun x hx => ht x (List.mem_cons_of_mem _ hx))
        (fun x hx => hw x (List.mem_cons_of_mem _ hx))]
      rw [List.map_cons, hwalked, List.append_assoc]
      rfl

/-- C29, as stated, fails: the top-level mapping has the two selector keys `eth0`
and `eth1`, the subtree of `eth0` holds a match section that names `eth1`;
`parse_ethernet_config` returns `-ENOMEM` and leaves one record in the
collection. -/
theorem two_selectors_one_record :
    log_oom ≠ 0 ∧
      (parse_ethernet_config locator_converters example_externals (yaml_manager [])
        (interfaces [("eth0", match_eth1), ("eth1", scalar_mapping [])]) ⟨[]⟩).map
          (fun r => (r.1, r.2.networks.map (fun p => (p.1, p.2.ifname)))) =
        some (log_oom, [("eth1", some "eth1")]) := by
  refine ⟨by decide, by decide⟩

/-- C29, amended: for a top-level mapping with pairwise distinct selector keys whose
subtrees hold no match section with the key `name`, and converters that write
through their locator, `parse_ethernet_config` on an empty collection returns 0
and leaves one record per key, in the order of the keys, each stored under its
key with that key as interface name and the parser type YAML, whatever the
walks of the subtrees return, as long as each of them ends. -/
theorem one_record_per_selector (C : YamlConverters) (Y : ParserExternals)
    (link_config : GHashTable ParserTable) (entries : List (String × yaml_node_t))
    (hC : keeps_identity C) (hd : (entries.map Prod.fst).Nodup)
    (ht : ∀ e ∈ entries, rewrites_name Y e.2 = false)
    (hw : ∀ e ∈ entries,
      (parse_network_config C Y (yaml_manager link_config) e.2
        (interface_record e.1)).isSome = true) :
    ∃ nets : Networks,
      parse_ethernet_config C Y (yaml_manager link_config) (interfaces entries) ⟨[]⟩ =
          some (0, nets) ∧
        nets.networks.length = entries.length ∧
        nets.networks.map Prod.fst = entries.map Prod.fst ∧
        ∀ p ∈ nets.networks,
          p.2.ifname = some p.1 ∧ p.2.parser_type = PARSER_TYPE_YAML := by
  refine ⟨⟨entries.map (fun e => (e.1, walked_record C Y (yaml_manager link_config) e))⟩,
    ?_, ?_, ?_, ?_⟩
  · unfold parse_ethernet_config interfaces
    simp only [mapping_pairs, List.map_map]
    have h := parse_ethernet_entries_distinct C Y link_config hC entries [] (by simpa using hd)
      ht hw
    simpa using h
  · simp
  · simp [List.map_map, Function.comp]
  · intro p hp
    obtain ⟨e, he, rfl⟩ := List.mem_map.1 hp
    have hsome := hw e he
    cases hp2 : parse_network_config C Y (yaml_manager link_config) e.2
        (interface_record e.1) with
    | none => simp [hp2] at hsome
    | some r =>
      have hid := parse_network_config_identity C Y link_config hC e.2 (interface_record e.1) r
        (ht e he) hp2
      have hwalked : walked_record C Y (yaml_manager link_config) e = r.2 := by
        unfold walked_record
        rw [hp2]
        rfl
      simp only [hwalked]
      exact ⟨congrArg Prod.fst hid, congrArg Prod.snd hid⟩

/-- The amended claim C29 at two interfaces; the second subtree holds a value that
its converter rejects. -/
theorem one_record_per_selector_witness :
    ∃ nets : Networks,
      parse_ethernet_config locator_converters example_externals (yaml_manager [])
          (interfaces [("eth0", scalar_mapping [("lldp", "yes")]),
            ("eth1", scalar_mapping [("lldp", "maybe")])]) ⟨[]⟩ = some (0, nets) ∧
        nets.networks.length = 2 ∧
        nets.networks.map Prod.fst = ["eth0", "eth1"] ∧
        ∀ p ∈ nets.networks, p.2.ifname = some p.1 ∧ p.2.parser_type = PARSER_TYPE_YAML :=
  one_record_per_selector locator_converters example_externals []
    [("eth0", scalar_mapping [("lldp", "yes")]), ("eth1", scalar_mapping [("lldp", "maybe")])]
    locator_converters_keeps_identity (by decide) (by decide) (by decide)

/-! ## network.c: the name tables -/

/-- The loop result does not depend on the letter case of the name: it only reads
the name through `string_equal_fold`. -/
theorem table_to_mode_from_fold (a b : String) (invalid : Int)
    (h : equals_ignoring_case a b) (table : List String) (i : Int) :
    table_to_mode_from a invalid table i = table_to_mode_from b invalid table i := by
  have hab : a.toList.map Char.toLower = b.toList.map Char.toLower :=
    (equals_ignoring_case_iff a b).1 h
  induction table generalizing i with
  | nil => rfl
  | cons t rest ih =>
    simp only [table_to_mode_from, string_equal_fold, hab]
    rw [ih]

theorem table_to_mode_from_unknown (name : String) (invalid : Int) (table : List String)
    (h : ∀ t ∈ table, ¬ equals_ignoring_case name t) (i : Int) :
    table_to_mode_from name invalid table i = invalid := by
  induction table generalizing i with
  | nil => rfl
  | cons t rest ih =>
    have ht : string_equal_fold name t = false := by
      rw [Bool.eq_false_iff]
      intro hc
      exact h t (List.mem_cons_self _ _) ((string_equal_fold_iff name t).1 hc)
    simp only [table_to_mode_from, ht]
    exact ih (fun t ht => h t (List.mem_cons_of_mem _ ht)) _

theorem table_to_mode_from_known (name : String) (invalid : Int) (table : List String)
    (h : ∃ t ∈ table, equals_ignoring_case name t) (i : Int) :
    i ≤ table_to_mode_from name invalid table i ∧
      table_to_mode_from name invalid table i < i + table.length := by
  induction table generalizing i with
  | nil => obtain ⟨t, ht, _⟩ := h; cases ht
  | cons t rest ih =>
    simp only [table_to_mode_from, List.length_cons]
    by_cases ht : string_equal_fold name t = true
    · rw [if_pos ht]; constructor <;> push_cast <;> omega
    · rw [if_neg ht]
      have h2 : ∃ t ∈ rest, equals_ignoring_case name t := by
        obtain ⟨u, hu, hn⟩ := h
        rcases List.mem_cons.1 hu with rfl | hu
        · exact absurd ((string_equal_fold_iff name u).2 hn) ht
        · exact ⟨u, hu, hn⟩
      have := ih h2 (i + 1)
      constructor <;> push_cast <;> omega

theorem table_to_name_negative (table : List String) (id : Int) (h : id < 0) :
    table_to_name table id = some "n/a" := by
  simp [table_to_name, h]

theorem table_to_name_past_end (table : List String) (id : Int) (h : (table.length : Int) ≤ id) :
    table_to_name table id = none := by
  have h1 : ¬ id < 0 := by omega
  have h2 : id.toNat ≥ table.length := by omega
  simp [table_to_name, h1, h2]

theorem round_trips_of_valid (table : List String) (invalid : Int) (hinv : invalid = -EINVAL)
    (h : ∀ id : Int, 0 ≤ id → id < table.length →
      ∃ nm, table[id.toNat]? = some nm ∧ table_to_name table id = some nm ∧
        table_to_mode table nm invalid = id) :
    round_trips table (table_to_name table) (fun name => table_to_mode table name invalid) :=
  ⟨h, fun a b hab => table_to_mode_from_fold a b invalid hab table 0,
    fun a ha => by
      show table_to_mode_from a invalid table 0 = -EINVAL
      rw [table_to_mode_from_unknown a invalid table ha 0, hinv],
    table_to_name_negative table, table_to_name_past_end table⟩

theorem dhcp_modes_valid (id : Int) (h0 : 0 ≤ id) (h1 : id < dhcp_modes.length) :
    ∃ nm, dhcp_modes[id.toNat]? = some nm ∧ table_to_name dhcp_modes id = some nm ∧
      table_to_mode dhcp_modes nm _DHCP_MODE_INVALID = id := by
  obtain ⟨n, rfl⟩ := Int.eq_ofNat_of_zero_le h0
  have hn : n < 4 := by simpa [dhcp_modes] using h1
  interval_cases n <;> exact ⟨_, rfl, rfl, by decide⟩

theorem dhcp_client_identifier_valid (id : Int) (h0 : 0 ≤ id)
    (h1 : id < dhcp_client_identifier.length) :
    ∃ nm, dhcp_client_identifier[id.toNat]? = some nm ∧
      table_to_name dhcp_client_identifier id = some nm ∧
      table_to_mode dhcp_client_identifier nm _DHCP_CLIENT_IDENTIFIER_INVALID = id := by
  obtain ⟨n, rfl⟩ := Int.eq_ofNat_of_zero_le h0
  have hn : n < 3 := by simpa [dhcp_client_identifier] using h1
  interval_cases n <;> exact ⟨_, rfl, rfl, by decide⟩

theorem dhcp_client_duid_type_valid (id : Int) (h0 : 0 ≤ id)
    (h1 : id < dhcp_client_duid_type.length) :
    ∃ nm, dhcp_client_duid_type[id.toNat]? = some nm ∧
      table_to_name dhcp_client_duid_type id = some nm ∧
      table_to_mode dhcp_client_duid_type nm _DHCP_CLIENT_DUID_TYPE_INVALID = id := by
  obtain ⟨n, rfl⟩ := Int.eq_ofNat_of_zero_le h0
  have hn : n < 4 := by simpa [dhcp_client_duid_type] using h1
  interval_cases n <;> exact ⟨_, rfl, rfl, by decide⟩

theorem link_local_address_type_valid (id : Int) (h0 : 0 ≤ id)
    (h1 : id < link_local_address_type.length) :
    ∃ nm, link_local_address_type[id.toNat]? = some nm ∧
      table_to_name link_local_address_type id = some nm ∧
      table_to_mode link_local_address_type nm _LINK_LOCAL_ADDRESS_INVALID = id := by
  obtain ⟨n, rfl⟩ := Int.eq_ofNat_of_zero_le h0
  have hn : n < 6 := by simpa [link_local_address_type] using h1
  interval_cases n <;> exact ⟨_, rfl, rfl, by decide⟩

theorem auth_key_management_type_valid (id : Int) (h0 : 0 ≤ id)
    (h1 : id < auth_key_management_type.length) :
    ∃ nm, auth_key_management_type[id.toNat]? = some nm ∧
      table_to_name auth_key_management_type id = some nm ∧
      table_to_mode auth_key_management_type nm _AUTH_KEY_MANAGEMENT_INVALID = id := by
  obtain ⟨n, rfl⟩ := Int.eq_ofNat_of_zero_le h0
  have hn : n < 4 := by simpa [auth_key_management_type] using h1
  interval_cases n <;> exact ⟨_, rfl, rfl, by decide⟩

theorem auth_eap_method_type_valid (id : Int) (h0 : 0 ≤ id)
    (h1 : id < auth_eap_method_type.length) :
    ∃ nm, auth_eap_method_type[id.toNat]? = some nm ∧
      table_to_name auth_eap_method_type id = some nm ∧
      table_to_mode auth_eap_method_type nm _AUTH_EAP_METHOD_INVALID = id := by
  obtain ⟨n, rfl⟩ := Int.eq_ofNat_of_zero_le h0
  have hn : n < 4 := by simpa [auth_eap_method_type] using h1
  interval_cases n <;> exact ⟨_, rfl, rfl, by decide⟩

/-- C37: each of the six name tables of network.c round-trips: for every valid id
the name of the id converts back to the id, the conversion from a name ignores
ASCII case, a name that equals no member of the table ignoring case gives the
invalid value `-EINVAL`, a negative id has the name "n/a" and an id at or above
the table size has no name; the sizes are 4, 3, 4, 6, 4 and 4. -/
theorem name_tables_round_trip :
    round_trips dhcp_modes dhcp_modes_to_name dhcp_name_to_mode ∧
    round_trips dhcp_client_identifier dhcp_client_identifier_to_name
      dhcp_client_identifier_to_mode ∧
    round_trips dhcp_client_duid_type dhcp_client_duid_type_to_name
      dhcp_client_duid_type_to_mode ∧
    round_trips link_local_address_type link_local_address_type_to_name
      link_local_address_type_to_mode ∧
    round_trips auth_key_management_type auth_key_management_type_to_name
      auth_key_management_type_to_mode ∧
    round_trips auth_eap_method_type auth_eap_method_to_name auth_eap_method_to_mode ∧
    [dhcp_modes.length, dhcp_client_identifier.length, dhcp_client_duid_type.length,
      link_local_address_type.length, auth_key_management_type.length,
      auth_eap_method_type.length] = [4, 3, 4, 6, 4, 4] :=
  ⟨round_trips_of_valid dhcp_modes _DHCP_MODE_INVALID rfl dhcp_modes_valid,
   round_trips_of_valid dhcp_client_identifier _DHCP_CLIENT_IDENTIFIER_INVALID rfl
     dhcp_client_identifier_valid,
   round_trips_of_valid dhcp_client_duid_type _DHCP_CLIENT_DUID_TYPE_INVALID rfl
     dhcp_client_duid_type_valid,
   round_trips_of_valid link_local_address_type _LINK_LOCAL_ADDRESS_INVALID rfl
     link_local_address_type_valid,
   round_trips_of_valid auth_key_management_type _AUTH_KEY_MANAGEMENT_INVALID rfl
     auth_key_management_type_valid,
   round_trips_of_valid auth_eap_method_type _AUTH_EAP_METHOD_INVALID rfl
     auth_eap_method_type_valid, rfl⟩

theorem dhcp_name_to_mode_cases (s : String) :
    dhcp_name_to_mode s =
      if string_equal_fold s "no" = true then DHCP_MODE_NO
      else if string_equal_fold s "yes" = true then DHCP_MODE_YES
      else if string_equal_fold s "ipv4" = true then DHCP_MODE_IPV4
      else if string_equal_fold s "ipv6" = true then DHCP_MODE_IPV6
      else _DHCP_MODE_INVALID := rfl

theorem dhcp_mode_names_differ (s : String) :
    (equals_ignoring_case s "no" → ¬ equals_ignoring_case s "yes" ∧
      ¬ equals_ignoring_case s "ipv4" ∧ ¬ equals_ignoring_case s "ipv6") ∧
    (equals_ignoring_case s "yes" → ¬ equals_ignoring_case s "ipv4" ∧
      ¬ equals_ignoring_case s "ipv6") ∧
    (equals_ignoring_case s "ipv4" → ¬ equals_ignoring_case s "ipv6") := by
  simp only [equals_ignoring_case_iff]
  generalize s.toList.map Char.toLower = l
  refine ⟨?_, ?_, ?_⟩
  · rintro rfl; decide
  · rintro rfl; decide
  · rintro rfl; decide

theorem four_way_choice (A B C D : Prop) [Decidable A] [Decidable B] [Decidable C]
    [Decidable D] (h1 : A → ¬ B ∧ ¬ C ∧ ¬ D) (h2 : B → ¬ C ∧ ¬ D) (h3 : C → ¬ D) (r : Int)
    (hr : r = if A then 0 else if B then 1 else if C then 2 else if D then 3 else -22) :
    (r = 0 ↔ A) ∧ (r = 1 ↔ B) ∧ (r = 2 ↔ C) ∧ (r = 3 ↔ D) ∧
      ((0 ≤ r ∧ r ≤ 3) ↔ (B ∨ A ∨ C ∨ D)) ∧ (r = -22 ↔ ¬ (B ∨ A ∨ C ∨ D)) := by
  subst hr
  by_cases a : A <;> by_cases b : B <;> by_cases c : C <;> by_cases d : D <;> simp_all

/-- C33: `dhcp_name_to_mode` returns `DHCP_MODE_NO`, `DHCP_MODE_YES`,
`DHCP_MODE_IPV4`, `DHCP_MODE_IPV6` exactly for the strings that equal "no", "yes",
"ipv4", "ipv6" ignoring ASCII case; its result is one of the four valid modes
exactly for those strings and `_DHCP_MODE_INVALID` for every other string, among
them the boolean spellings "true", "on" and "1". -/
theorem dhcp_name_to_mode_accepts_four_modes (s : String) :
    (dhcp_name_to_mode s = DHCP_MODE_NO ↔ equals_ignoring_case s "no") ∧
    (dhcp_name_to_mode s = DHCP_MODE_YES ↔ equals_ignoring_case s "yes") ∧
    (dhcp_name_to_mode s = DHCP_MODE_IPV4 ↔ equals_ignoring_case s "ipv4") ∧
    (dhcp_name_to_mode s = DHCP_MODE_IPV6 ↔ equals_ignoring_case s "ipv6") ∧
    ((DHCP_MODE_NO ≤ dhcp_name_to_mode s ∧ dhcp_name_to_mode s ≤ DHCP_MODE_IPV6) ↔
      (equals_ignoring_case s "yes" ∨ equals_ignoring_case s "no" ∨
        equals_ignoring_case s "ipv4" ∨ equals_ignoring_case s "ipv6")) ∧
    (dhcp_name_to_mode s = _DHCP_MODE_INVALID ↔
      ¬ (equals_ignoring_case s "yes" ∨ equals_ignoring_case s "no" ∨
        equals_ignoring_case s "ipv4" ∨ equals_ignoring_case s "ipv6")) ∧
    dhcp_name_to_mode "true" = _DHCP_MODE_INVALID ∧
    dhcp_name_to_mode "on" = _DHCP_MODE_INVALID ∧
    dhcp_name_to_mode "1" = _DHCP_MODE_INVALID ∧
    _DHCP_MODE_INVALID = -EINVAL := by
  obtain ⟨h1, h2, h3⟩ := dhcp_mode_names_differ s
  simp only [← string_equal_fold_iff] at h1 h2 h3 ⊢
  obtain ⟨g1, g2, g3, g4, g5, g6⟩ := four_way_choice _ _ _ _ h1 h2 h3 (dhcp_name_to_mode s)
    (dhcp_name_to_mode_cases s)
  exact ⟨g1, g2, g3, g4, g5, g6, by decide, by decide, by decide, rfl⟩

/-- C32: the third member of the table `dhcp_client_identifier` is spelled
"duid-ony": the documented name "duid-only" converts to
`_DHCP_CLIENT_IDENTIFIER_INVALID` (`-EINVAL`), not to
`DHCP_CLIENT_IDENTIFIER_DUID_ONLY`, and the name of
`DHCP_CLIENT_IDENTIFIER_DUID_ONLY` is "duid-ony", not "duid-only"; "mac" and
"duid" convert both ways as documented. -/
theorem duid_only_misspelled :
    dhcp_client_identifier_to_mode "duid-only" = _DHCP_CLIENT_IDENTIFIER_INVALID ∧
    dhcp_client_identifier_to_mode "duid-only" = -EINVAL ∧
    dhcp_client_identifier_to_mode "duid-only" ≠ DHCP_CLIENT_IDENTIFIER_DUID_ONLY ∧
    dhcp_client_identifier_to_name DHCP_CLIENT_IDENTIFIER_DUID_ONLY = some "duid-ony" ∧
    dhcp_client_identifier_to_name DHCP_CLIENT_IDENTIFIER_DUID_ONLY ≠ some "duid-only" ∧
    dhcp_client_identifier_to_mode "duid-ony" = DHCP_CLIENT_IDENTIFIER_DUID_ONLY ∧
    dhcp_client_identifier_to_mode "mac" = DHCP_CLIENT_IDENTIFIER_MAC ∧
    dhcp_client_identifier_to_name DHCP_CLIENT_IDENTIFIER_MAC = some "mac" ∧
    dhcp_client_identifier_to_mode "duid" = DHCP_CLIENT_IDENTIFIER_DUID ∧
    dhcp_client_identifier_to_name DHCP_CLIENT_IDENTIFIER_DUID = some "duid" := by
  decide

/-! ## parse-util.c: `parse_uint32` against `parse_integer`, the queue count -/

theorem parse_uint32_status (c : String) (vi : Int) (vu : Nat) (errno : Int) :
    (parse_uint32 c vu errno).1 = (parse_integer c vi errno).1 := by
  simp only [parse_uint32, parse_integer]
  split_ifs <;> rfl

theorem parse_integer_by_strtol (c : String) (vi : Int) (errno : Int) :
    parse_integer c vi errno =
      if is_integer_literal c.toList = false then (-1, vi)
      else if (strtol c.toList).value < INT_MIN ∨ (strtol c.toList).value > INT_MAX then
        (-ERANGE, vi)
      else (0, (strtol c.toList).value) := by
  by_cases hl : is_integer_literal c.toList = false
  · rw [if_pos hl, parse_integer_reject c vi errno hl]
  · rw [if_neg hl]
    have h2 : ¬ ((strtol c.toList).endptr = 0 ∨ (strtol c.toList).endptr < c.toList.length) := by
      rw [strtol_incomplete_iff]; exact hl
    simp only [parse_integer, Bool.or_eq_true, beq_iff_eq, decide_eq_true_eq, h2, if_false]
    generalize strtol c.toList = st
    by_cases h3 : st.value < INT_MIN ∨ st.value > INT_MAX
    · simp only [h3, if_true]
      split_ifs <;> rfl
    · simp only [h3, if_false]
      have h4 : ¬ (st.value = LONG_MAX ∨ st.value = LONG_MIN) := by
        unfold LONG_MAX LONG_MIN
        unfold INT_MIN INT_MAX at h3
        omega
      simp [h4]

theorem parse_integer_success (c : String) (vi : Int) (errno : Int)
    (h : (parse_integer c vi errno).1 = 0) :
    (parse_integer c vi errno).2 = (strtol c.toList).value ∧
      INT_MIN ≤ (strtol c.toList).value ∧ (strtol c.toList).value ≤ INT_MAX := by
  revert h
  rw [parse_integer_by_strtol]
  split_ifs with h1 h2
  · simp
  · simp [ERANGE]
  · intro _
    refine ⟨rfl, ?_, ?_⟩ <;> omega

theorem parse_uint32_success (c : String) (vu : Nat) (errno : Int)
    (h : (parse_uint32 c vu errno).1 = 0) :
    (parse_uint32 c vu errno).2 = ((strtol c.toList).value % 2 ^ 32).toNat := by
  revert h
  simp only [parse_uint32]
  split_ifs <;> simp [ERANGE]

theorem parse_integer_failure (c : String) (vi : Int) (errno : Int)
    (h : (parse_integer c vi errno).1 ≠ 0) :
    (parse_integer c vi errno).1 < 0 ∧ (parse_integer c vi errno).2 = vi := by
  revert h
  simp only [parse_integer]
  split_ifs <;> simp [ERANGE]

/-- C38: `parse_uint32` returns the status of `parse_integer` on every text; when
that status is 0 the value `parse_integer` stores lies in `INT_MIN..INT_MAX` and
`parse_uint32` stores it reduced modulo 2^32; when it is not 0 both leave their
output as it was; "-1" is accepted by both and stored as -1 and 4294967295. -/
theorem parse_uint32_is_parse_integer_mod (c : String) (vi : Int) (vu : Nat) (errno : Int) :
    (parse_uint32 c vu errno).1 = (parse_integer c vi errno).1 ∧
    ((parse_integer c vi errno).1 = 0 →
      INT_MIN ≤ (parse_integer c vi errno).2 ∧ (parse_integer c vi errno).2 ≤ INT_MAX ∧
      (parse_uint32 c vu errno).2 = ((parse_integer c vi errno).2 % 2 ^ 32).toNat) ∧
    ((parse_integer c vi errno).1 ≠ 0 →
      (parse_integer c vi errno).2 = vi ∧ (parse_uint32 c vu errno).2 = vu) ∧
    parse_integer "-1" vi errno = (0, -1) ∧
    parse_uint32 "-1" vu errno = (0, 4294967295) := by
  have hs := parse_uint32_status c vi vu errno
  refine ⟨hs, ?_, ?_, ?_, ?_⟩
  · intro h
    obtain ⟨h1, h3, h4⟩ := parse_integer_success c vi errno h
    rw [h1]
    exact ⟨h3, h4, parse_uint32_success c vu errno (by rw [hs, h])⟩
  · intro h
    obtain ⟨h1, h2⟩ := parse_integer_failure c vi errno h
    exact ⟨h2, parse_uint32_negative_unchanged c vu errno (by rw [hs]; exact h1)⟩
  · have h : strtol "-1".toList = ⟨-1, 2, false⟩ := by decide
    simp only [parse_integer, h]
    have h1 : ("-1" : String).toList.length = 2 := by decide
    rw [h1]
    simp [LONG_MAX, LONG_MIN, INT_MIN, INT_MAX]
  · have h : strtol "-1".toList = ⟨-1, 2, false⟩ := by decide
    simp only [parse_uint32, h]
    have h1 : ("-1" : String).toList.length = 2 := by decide
    rw [h1]
    simp [LONG_MAX, LONG_MIN, INT_MIN, INT_MAX]

theorem parse_uint32_by_strtol (c : String) (vu : Nat) (errno : Int) :
    parse_uint32 c vu errno =
      if is_integer_literal c.toList = false then (-1, vu)
      else if (strtol c.toList).value < INT_MIN ∨ (strtol c.toList).value > INT_MAX then
        (-ERANGE, vu)
      else (0, ((strtol c.toList).value % 2 ^ 32).toNat) := by
  by_cases hl : is_integer_literal c.toList = false
  · rw [if_pos hl, parse_uint32_reject c vu errno hl]
  · rw [if_neg hl]
    have h2 : ¬ ((strtol c.toList).endptr = 0 ∨ (strtol c.toList).endptr < c.toList.length) := by
      rw [strtol_incomplete_iff]; exact hl
    simp only [parse_uint32, Bool.or_eq_true, beq_iff_eq, decide_eq_true_eq, h2, if_false]
    generalize strtol c.toList = st
    by_cases h3 : st.value < INT_MIN ∨ st.value > INT_MAX
    · simp only [h3, if_true]
      split_ifs <;> rfl
    · simp only [h3, if_false]
      have h4 : ¬ (st.value = LONG_MAX ∨ st.value = LONG_MIN) := by
        unfold LONG_MAX LONG_MIN
        unfold INT_MIN INT_MAX at h3
        omega
      simp [h4]

/-- The whole of `parse_link_queue` in terms of the conversion `strtol` makes. -/
theorem parse_link_queue_by_strtol (c : String) (ret v : Nat) (errno : Int) :
    parse_link_queue c ret v errno =
      if is_integer_literal c.toList = true ∧ 0 ≤ (strtol c.toList).value ∧
          (strtol c.toList).value ≤ 4096 then
        (true, (strtol c.toList).value.toNat)
      else (false, ret) := by
  unfold parse_link_queue
  rw [parse_uint32_by_strtol]
  generalize (strtol c.toList).value = x
  generalize is_integer_literal c.toList = b
  cases b
  · simp
  · by_cases h3 : x < INT_MIN ∨ x > INT_MAX
    · have h5 : ¬ (0 ≤ x ∧ x ≤ 4096) := by
        unfold INT_MIN INT_MAX at h3; omega
      simp [ERANGE, h3, h5]
    · have h3b := h3
      unfold INT_MIN INT_MAX at h3b
      by_cases h5 : 0 ≤ x ∧ x ≤ 4096
      · have h6 : ¬ (4096 < (x % 4294967296).toNat) := by omega
        have h7 : (x % 4294967296).toNat = x.toNat := by omega
        simp [h3, h5, h6, h7]
      · have h6 : 4096 < (x % 4294967296).toNat := by omega
        simp [h3, h5, h6]

theorem strtol_negative_decimal_clamped (d : Char) (ds : List Char)
    (hall : ∀ x ∈ d :: ds, x.isDigit = true) (hd : d ≠ '0') :
    strtol ('-' :: d :: ds) =
      if decimal_value (d :: ds) > 2 ^ 63 then ⟨LONG_MIN, ('-' :: d :: ds).length, true⟩
      else ⟨-(decimal_value (d :: ds) : Int), ('-' :: d :: ds).length, false⟩ := by
  have hsub : strtol_subject (d :: ds) = (decimal_value (d :: ds), (d :: ds).length) := by
    rw [strtol_subject_decimal d ds hd]
    have hfun : is_digit_of 10 = Char.isDigit := funext is_digit_of_ten
    rw [hfun, takeWhile_eq_self_of_forall _ _ hall, digits_value_decimal _ hall]
    simp
  have hs : isspace '-' = false := by decide
  unfold strtol
  simp only [List.takeWhile_cons, List.dropWhile_cons, hs, Bool.false_eq_true, if_false,
    List.head?_cons, beq_self_eq_true, Bool.true_or, if_true, List.drop_succ_cons,
    List.drop_zero, hsub, List.length_nil, List.length_cons]
  simp only [beq_iff_eq, Nat.add_one_ne_zero, if_false]
  have hlen : 0 + 1 + (ds.length + 1) = ds.length + 1 + 1 := by omega
  rw [hlen]

theorem foldl_decimal_ge (ds : List Char) (a : Nat) :
    a ≤ ds.foldl (fun n c => 10 * n + (c.toNat - '0'.toNat)) a := by
  induction ds generalizing a with
  | nil => exact Nat.le_refl _
  | cons x xs ih =>
    simp only [List.foldl_cons]
    exact Nat.le_trans (by omega) (ih _)

theorem decimal_value_pos (d : Char) (ds : List Char) (hdig : d.isDigit = true)
    (hd : d ≠ '0') : 0 < decimal_value (d :: ds) := by
  have h1 := (isDigit_iff d).1 hdig
  have h2 : d.toNat ≠ 48 := by
    intro h
    apply hd
    apply char_toNat_inj
    rw [h]; rfl
  have h3 : '0'.toNat = 48 := rfl
  unfold decimal_value
  simp only [List.foldl_cons]
  have := foldl_decimal_ge ds (10 * 0 + (d.toNat - '0'.toNat))
  omega

theorem is_integer_literal_of_digits (l : List Char) (hne : l ≠ [])
    (hall : ∀ x ∈ l, x.isDigit = true) (hz : l.head? ≠ some '0') :
    is_integer_literal l = true := by
  obtain ⟨d, ds, rfl⟩ := List.exists_cons_of_ne_nil hne
  have hd : d ≠ '0' := by
    intro h; apply hz; rw [h]; rfl
  have hdig := hall d (List.mem_cons_self _ _)
  have hs : isspace d = false := by
    have := isspace_of_isDigit d hdig
    simpa using this
  have hm : ¬ (d = '-' ∨ d = '+') := by
    rintro (rfl | rfl) <;> revert hdig <;> decide
  have hrest : ds.all Char.isDigit = true :=
    List.all_eq_true.2 (fun x hx => hall x (List.mem_cons_of_mem _ hx))
  simp [is_integer_literal, List.dropWhile_cons, hs, hm, is_literal_body, hd, hdig, hrest]

/-- C39: `parse_link_queue` returns true and stores the value exactly when the text
is one complete integer literal whose value, as `strtol` with base 0 converts it,
lies in 0..4096, and returns false with `*ret` unchanged for every other text; the
value `errno` has at the call and the uninitialised local do not matter.  A
decimal text is accepted exactly up to 4096, every negative decimal text is
refused, as are "4097", "-1" and the empty text, while "0", "4096" and "0x1000"
are accepted. -/
theorem parse_link_queue_accepts_0_to_4096 (c : String) (ret v : Nat) (errno : Int) :
    (parse_link_queue c ret v errno =
      if is_integer_literal c.toList = true ∧ 0 ≤ (strtol c.toList).value ∧
          (strtol c.toList).value ≤ 4096 then
        (true, (strtol c.toList).value.toNat)
      else (false, ret)) ∧
    (c.toList ≠ [] → (∀ x ∈ c.toList, x.isDigit = true) → c.toList.head? ≠ some '0' →
      parse_link_queue c ret v errno =
        if decimal_value c.toList ≤ 4096 then (true, decimal_value c.toList)
        else (false, ret)) ∧
    (∀ d ds, c.toList = '-' :: d :: ds → (∀ x ∈ d :: ds, x.isDigit = true) → d ≠ '0' →
      parse_link_queue c ret v errno = (false, ret)) ∧
    parse_link_queue "0" ret v errno = (true, 0) ∧
    parse_link_queue "4096" ret v errno = (true, 4096) ∧
    parse_link_queue "0x1000" ret v errno = (true, 4096) ∧
    parse_link_queue "4097" ret v errno = (false, ret) ∧
    parse_link_queue "-1" ret v errno = (false, ret) ∧
    parse_link_queue "" ret v errno = (false, ret) ∧
    parse_link_queue "12x" ret v errno = (false, ret) := by
  refine ⟨parse_link_queue_by_strtol c ret v errno, ?_, ?_, ?_, ?_, ?_, ?_, ?_, ?_, ?_⟩
  · intro hne hall hz
    rw [parse_link_queue_by_strtol, is_integer_literal_of_digits _ hne hall hz]
    obtain ⟨d, ds, hc⟩ := List.exists_cons_of_ne_nil hne
    have hd : d ≠ '0' := by
      intro h; apply hz; rw [hc, h]; rfl
    have hst := strtol_decimal_clamped d ds (by rw [← hc]; exact hall) hd
    rw [← hc] at hst
    rw [hst]
    generalize decimal_value c.toList = n
    by_cases h1 : n > 2 ^ 63 - 1
    · have h2 : ¬ n ≤ 4096 := by omega
      rw [if_pos h1]
      simp [h2, LONG_MAX]
    · rw [if_neg h1]
      by_cases h2 : n ≤ 4096
      · simp [h2]
      · simp [h2]
  · intro d ds hc hall hd
    rw [parse_link_queue_by_strtol, hc, strtol_negative_decimal_clamped d ds hall hd]
    have hpos := decimal_value_pos d ds (hall d (List.mem_cons_self _ _)) hd
    generalize decimal_value (d :: ds) = n at hpos
    by_cases h1 : n > 2 ^ 63
    · rw [if_pos h1]
      simp [LONG_MIN]
    · have h2 : ¬ (0 ≤ -(n : Int)) := by omega
      rw [if_neg h1]
      simp only [h2, false_and, and_false, if_false]
  · rw [parse_link_queue_by_strtol]
    have h : strtol "0".toList = ⟨0, 1, false⟩ := by decide
    have hl : is_integer_literal "0".toList = true := by decide
    rw [h, hl]; simp
  · rw [parse_link_queue_by_strtol]
    have h : strtol "4096".toList = ⟨4096, 4, false⟩ := by decide
    have hl : is_integer_literal "4096".toList = true := by decide
    rw [h, hl]; simp
  · rw [parse_link_queue_by_strtol]
    have h : strtol "0x1000".toList = ⟨4096, 6, false⟩ := by decide
    have hl : is_integer_literal "0x1000".toList = true := by decide
    rw [h, hl]; simp
  · rw [parse_link_queue_by_strtol]
    have h : strtol "4097".toList = ⟨4097, 4, false⟩ := by decide
    rw [h]; simp
  · rw [parse_link_queue_by_strtol]
    have h : strtol "-1".toList = ⟨-1, 2, false⟩ := by decide
    rw [h]; simp
  · rw [parse_link_queue_by_strtol]
    have hl : is_integer_literal "".toList = false := by decide
    rw [hl]; simp
  · rw [parse_link_queue_by_strtol]
    have hl : is_integer_literal "12x".toList = false := by decide
    rw [hl]; simp

/-! ## yaml-network-parser.c: registration of the tables -/

theorem register_table_fresh (table : List ParserTable) (config : GHashTable ParserTable)
    (hn : (table_keys table).Nodup)
    (hf : ∀ p ∈ table, p.key ∉ config.map Prod.fst) :
    register_table table config = (0, config ++ table.map (fun p => (p.key, p))) := by
  induction table generalizing config with
  | nil => simp [register_table]
  | cons p rest ih =>
    have hp : p.key ∉ config.map Prod.fst := hf p (List.mem_cons_self _ _)
    have hins := g_hash_table_insert_new config p.key p
      (g_hash_table_lookup_none_of_not_mem config p.key hp)
    simp only [table_keys, List.map_cons, List.nodup_cons] at hn
    simp only [register_table, hins, Bool.not_true, Bool.false_eq_true, if_false]
    rw [ih]
    · simp
    · exact hn.2
    · intro q hq
      simp only [List.map_append, List.map_cons, List.map_nil, List.mem_append,
        List.mem_singleton, not_or]
      refine ⟨hf q (List.mem_cons_of_mem _ hq), ?_⟩
      intro h
      apply hn.1
      rw [← h]
      exact List.mem_map.2 ⟨q, hq, rfl⟩

theorem register_table_duplicate (p q : ParserTable) (rest : List ParserTable)
    (h : q.key = p.key) : (register_table (p :: q :: rest) []).1 = -EINVAL := by
  simp [register_table, g_hash_table_insert, h]

theorem register_table_empty (table : List ParserTable) (hn : (table_keys table).Nodup) :
    register_table table [] = (0, table.map (fun p => (p.key, p))) := by
  rw [register_table_fresh table [] hn (fun _ _ => by simp)]
  simp

theorem registered_of_distinct (table : List ParserTable) (hn : (table_keys table).Nodup) :
    registered table = table.map (fun p => (p.key, p)) := by
  have h : ∀ (l : List ParserTable) (config : GHashTable ParserTable),
      (table_keys l).Nodup → (∀ p ∈ l, p.key ∉ config.map Prod.fst) →
      l.foldl (fun config p => (g_hash_table_insert config p.key p).1) config =
        config ++ l.map (fun p => (p.key, p)) := by
    intro l
    induction l with
    | nil => intro config _ _; simp
    | cons p rest ih =>
      intro config hn hf
      have hp : p.key ∉ config.map Prod.fst := hf p (List.mem_cons_self _ _)
      have hins := g_hash_table_insert_new config p.key p
        (g_hash_table_lookup_none_of_not_mem config p.key hp)
      simp only [table_keys, List.map_cons, List.nodup_cons] at hn
      simp only [List.foldl_cons, hins]
      rw [ih _ hn.2]
      · simp
      · intro q hq
        simp only [List.map_append, List.map_cons, List.map_nil, List.mem_append,
          List.mem_singleton, not_or]
        refine ⟨hf q (List.mem_cons_of_mem _ hq), ?_⟩
        intro h
        apply hn.1
        rw [← h]
        exact List.mem_map.2 ⟨q, hq, rfl⟩
  unfold registered
  rw [h table [] hn (fun _ _ => by simp)]
  simp

theorem lookup_of_distinct (table : List ParserTable) (hn : (table_keys table).Nodup) :
    finds_own_entries table (table.map (fun p => (p.key, p))) := by
  induction table with
  | nil => intro p hp; cases hp
  | cons q rest ih =>
    simp only [table_keys, List.map_cons, List.nodup_cons] at hn
    intro p hp
    rcases List.mem_cons.1 hp with rfl | hp
    · simp [g_hash_table_lookup, List.find?_cons]
    · have hne : ¬ (q.key = p.key) := by
        intro h
        apply hn.1
        rw [h]
        exact List.mem_map.2 ⟨p, hp, rfl⟩
      have := ih hn.2 p hp
      unfold g_hash_table_lookup at this ⊢
      have hb : (q.key == p.key) = false := by simpa using hne
      simp only [List.map_cons, List.find?_cons, hb]
      exact this

theorem register_table_nodup_match : (table_keys parser_match_vtable).Nodup := by decide
theorem register_table_nodup_network : (table_keys parser_network_vtable).Nodup := by decide
theorem register_table_nodup_dhcp4 : (table_keys parser_dhcp4_overrides_vtable).Nodup := by
  decide
theorem register_table_nodup_dhcp6 : (table_keys parser_dhcp6_overrides_vtable).Nodup := by
  decide
theorem register_table_nodup_address : (table_keys parser_address_vtable).Nodup := by decide
theorem register_table_nodup_rule : (table_keys parser_routing_policy_rule_vtable).Nodup := by
  decide
theorem register_table_nodup_route : (table_keys parser_route_vtable).Nodup := by decide
theorem register_table_nodup_nameservers : (table_keys parser_nameservers_vtable).Nodup := by
  decide
theorem register_table_nodup_wifi : (table_keys parser_wifi_vtable).Nodup := by decide

theorem register_table_registered (table : List ParserTable)
    (hn : (table_keys table).Nodup) : register_table table [] = (0, registered table) := by
  rw [register_table_empty table hn, registered_of_distinct table hn]

theorem yaml_register_network_empty (link_config : GHashTable ParserTable) :
    yaml_register_network (empty_manager link_config) = (0, yaml_manager link_config) := by
  have h1 := register_table_registered _ register_table_nodup_match
  have h2 := register_table_registered _ register_table_nodup_network
  have h3 := register_table_registered _ register_table_nodup_dhcp4
  have h4 := register_table_registered _ register_table_nodup_dhcp6
  have h5 := register_table_registered _ register_table_nodup_address
  have h6 := register_table_registered _ register_table_nodup_rule
  have h7 := register_table_registered _ register_table_nodup_route
  have h8 := register_table_registered _ register_table_nodup_nameservers
  have h9 := register_table_registered _ register_table_nodup_wifi
  have h0 : ¬ ((0 : Int) < 0) := by decide
  unfold yaml_register_network
  simp only [register_match, empty_manager, h1, h0, if_false]
  simp only [register_network, h2, h0, if_false]
  simp only [register_dhcp4, h3, h0, if_false]
  simp only [register_dhcp6, h4, h0, if_false]
  simp only [register_address, h5, h0, if_false]
  simp only [register_routing_policy_rule, h6, h0, if_false]
  simp only [register_route, h7, h0, if_false]
  simp only [register_nameservers, h8, h0, if_false]
  simp only [register_wifi, h9, h0, if_false]
  rfl

/-- C40: in each of the nine tables the keys are pairwise distinct; so
`yaml_register_network` on a manager with empty lookup tables returns 0, never
`-EINVAL`, each lookup table then holds the entries of its table under their
keys in the order of the table, and looking up the key of any entry of a table
gives that entry.  The error branch is live code: a table whose first two
entries share a key makes its loop return `-EINVAL`. -/
theorem yaml_register_network_succeeds (link_config : GHashTable ParserTable) :
    ((table_keys parser_match_vtable).Nodup ∧ (table_keys parser_network_vtable).Nodup ∧
      (table_keys parser_dhcp4_overrides_vtable).Nodup ∧
      (table_keys parser_dhcp6_overrides_vtable).Nodup ∧
      (table_keys parser_address_vtable).Nodup ∧
      (table_keys parser_routing_policy_rule_vtable).Nodup ∧
      (table_keys parser_route_vtable).Nodup ∧ (table_keys parser_nameservers_vtable).Nodup ∧
      (table_keys parser_wifi_vtable).Nodup) ∧
    (yaml_register_network (empty_manager link_config)).1 = 0 ∧
    (yaml_register_network (empty_manager link_config)).2 = yaml_manager link_config ∧
    (yaml_register_network (empty_manager link_config)).2.link_config = link_config ∧
    (finds_own_entries parser_match_vtable
        (yaml_register_network (empty_manager link_config)).2.match_config ∧
      finds_own_entries parser_network_vtable
        (yaml_register_network (empty_manager link_config)).2.network_config ∧
      finds_own_entries parser_dhcp4_overrides_vtable
        (yaml_register_network (empty_manager link_config)).2.dhcp4_config ∧
      finds_own_entries parser_dhcp6_overrides_vtable
        (yaml_register_network (empty_manager link_config)).2.dhcp6_config ∧
      finds_own_entries parser_address_vtable
        (yaml_register_network (empty_manager link_config)).2.address_config ∧
      finds_own_entries parser_routing_policy_rule_vtable
        (yaml_register_network (empty_manager link_config)).2.routing_policy_rule_config ∧
      finds_own_entries parser_route_vtable
        (yaml_register_network (empty_manager link_config)).2.route_config ∧
      finds_own_entries parser_nameservers_vtable
        (yaml_register_network (empty_manager link_config)).2.nameserver_config ∧
      finds_own_entries parser_wifi_vtable
        (yaml_register_network (empty_manager link_config)).2.wifi_config) ∧
    (∀ p q rest, q.key = p.key → (register_table (p :: q :: rest) []).1 = -EINVAL) := by
  rw [yaml_register_network_empty]
  refine ⟨⟨register_table_nodup_match, register_table_nodup_network,
    register_table_nodup_dhcp4, register_table_nodup_dhcp6, register_table_nodup_address,
    register_table_nodup_rule, register_table_nodup_route, register_table_nodup_nameservers,
    register_table_nodup_wifi⟩, rfl, rfl, rfl, ⟨?_, ?_, ?_, ?_, ?_, ?_, ?_, ?_, ?_⟩,
    register_table_duplicate⟩
  · show finds_own_entries _ (registered _)
    rw [registered_of_distinct _ register_table_nodup_match]
    exact lookup_of_distinct _ register_table_nodup_match
  · show finds_own_entries _ (registered _)
    rw [registered_of_distinct _ register_table_nodup_network]
    exact lookup_of_distinct _ register_table_nodup_network
  · show finds_own_entries _ (registered _)
    rw [registered_of_distinct _ register_table_nodup_dhcp4]
    exact lookup_of_distinct _ register_table_nodup_dhcp4
  · show finds_own_entries _ (registered _)
    rw [registered_of_distinct _ register_table_nodup_dhcp6]
    exact lookup_of_distinct _ register_table_nodup_dhcp6
  · show finds_own_entries _ (registered _)
    rw [registered_of_distinct _ register_table_nodup_address]
    exact lookup_of_distinct _ register_table_nodup_address
  · show finds_own_entries _ (registered _)
    rw [registered_of_distinct _ register_table_nodup_rule]
    exact lookup_of_distinct _ register_table_nodup_rule
  · show finds_own_entries _ (registered _)
    rw [registered_of_distinct _ register_table_nodup_route]
    exact lookup_of_distinct _ register_table_nodup_route
  · show finds_own_entries _ (registered _)
    rw [registered_of_distinct _ register_table_nodup_nameservers]
    exact lookup_of_distinct _ register_table_nodup_nameservers
  · show finds_own_entries _ (registered _)
    rw [registered_of_distinct _ register_table_nodup_wifi]
    exact lookup_of_distinct _ register_table_nodup_wifi

/-! ## yaml-network-parser.c: the dispatch of `parse_network_config` -/

theorem parse_network_entry_performs (C : YamlConverters) (Y : ParserExternals)
    (m : YAMLManager) (k : yaml_node_t) (v : Option yaml_node_t)
    (nested : Network → Option (Int × Network)) (network : Network) :
    parse_network_entry C Y m k v nested network =
      perform C Y m k v nested network (dispatch_of_code m (scalar Y (some k))) := by
  unfold parse_network_entry dispatch_of_code perform
  simp only
  cases hl : g_hash_table_lookup m.network_config (scalar Y (some k)) with
  | some table => rfl
  | none =>
    simp only
    by_cases h1 : string_equal (scalar Y (some k)) "match" = true
    · simp only [h1, if_true]
    by_cases h2 : string_equal (scalar Y (some k)) "dhcp4-overrides" = true
    · simp only [h1, h2, if_true, if_false, Dispatch.nested_section.injEq]; rfl
    by_cases h3 : string_equal (scalar Y (some k)) "dhcp6-overrides" = true
    · simp only [h1, h2, h3, if_true, if_false, Dispatch.nested_section.injEq]; rfl
    by_cases h4 : string_equal (scalar Y (some k)) "addresses" = true
    · simp only [h1, h2, h3, h4, if_true, if_false, Dispatch.nested_section.injEq]; rfl
    by_cases h5 : string_equal (scalar Y (some k)) "routes" = true
    · simp only [h1, h2, h3, h4, h5, if_true, if_false, Dispatch.nested_section.injEq]; rfl
    by_cases h6 : string_equal (scalar Y (some k)) "routing-policy" = true
    · simp only [h1, h2, h3, h4, h5, h6, if_true, if_false, Dispatch.nested_section.injEq]; rfl
    by_cases h7 : string_equal (scalar Y (some k)) "nameservers" = true
    · simp only [h1, h2, h3, h4, h5, h6, h7, if_true, if_false, Dispatch.nested_section.injEq]
      rfl
    simp only [h1, h2, h3, h4, h5, h6, h7, if_false]; rfl

theorem dispatch_agree_of_disjoint (m : YAMLManager) (key : String)
    (h : ∀ s ∈ section_names, g_hash_table_lookup m.network_config s = none) :
    dispatch_of_code m key = dispatch_of_spec m key := by
  unfold dispatch_of_code dispatch_of_spec
  by_cases hk : key ∈ section_names
  · rw [if_pos hk, h key hk]
    simp only [section_names, List.mem_cons, List.mem_singleton, List.not_mem_nil,
      or_false] at hk
    rcases hk with rfl | rfl | rfl | rfl | rfl | rfl | rfl <;> rfl
  · rw [if_neg hk]
    simp only [section_names, List.mem_cons, List.mem_singleton, List.not_mem_nil,
      or_false, not_or] at hk
    obtain ⟨h1, h2, h3, h4, h5, h6, h7⟩ := hk
    cases hl : g_hash_table_lookup m.network_config key with
    | some table => rfl
    | none =>
      simp only [string_equal, beq_iff_eq, h1, h2, h3, h4, h5, h6, h7, if_false]

theorem section_names_not_in_network_table (link_config : GHashTable ParserTable) :
    ∀ s ∈ section_names, g_hash_table_lookup (yaml_manager link_config).network_config s = none := by
  show ∀ s ∈ section_names, g_hash_table_lookup (registered parser_network_vtable) s = none
  decide

/-- C35: for the registered tables the dispatch in the order of the code (lookup in
the network table first, section names second) and the dispatch in the order
of the specification (section names first, lookup second) choose the same
action for every key, and the loop body of `parse_network_config` performs the
action that the specification's order chooses; the reason is that no section
name is a key of the network table.  For a network table that holds a section
name as a key the two orders differ. -/
theorem dispatch_orders_agree (link_config : GHashTable ParserTable) (key : String) :
    dispatch_of_code (yaml_manager link_config) key =
      dispatch_of_spec (yaml_manager link_config) key ∧
    (∀ s ∈ section_names,
      g_hash_table_lookup (yaml_manager link_config).network_config s = none) ∧
    (∀ (C : YamlConverters) (Y : ParserExternals) (k : yaml_node_t) (v : Option yaml_node_t)
        (nested : Network → Option (Int × Network)) (network : Network),
      scalar Y (some k) = key →
      parse_network_entry C Y (yaml_manager link_config) k v nested network =
        perform C Y (yaml_manager link_config) k v nested network
          (dispatch_of_spec (yaml_manager link_config) key)) ∧
    (∀ m : YAMLManager,
      (∀ s ∈ section_names, g_hash_table_lookup m.network_config s = none) →
      dispatch_of_code m key = dispatch_of_spec m key) ∧
    dispatch_of_code manager_with_match_key "match" ≠
      dispatch_of_spec manager_with_match_key "match" := by
  have hd := section_names_not_in_network_table link_config
  refine ⟨dispatch_agree_of_disjoint _ key hd, hd, ?_, fun m h => dispatch_agree_of_disjoint m key h,
    by decide⟩
  intro C Y k v nested network hk
  rw [parse_network_entry_performs, hk, dispatch_agree_of_disjoint _ key hd]

/-! ## Keys without an entry -/

theorem g_hash_table_lookup_eq_none_iff {β : Type} (t : GHashTable β) (key : String) :
    g_hash_table_lookup t key = none ↔ ∀ e ∈ t, e.1 ≠ key := by
  unfold g_hash_table_lookup
  rw [Option.map_eq_none', List.find?_eq_none]
  simp

/-- C34: the lookup in a schema table finds an entry exactly when a key of the
table equals the text character for character; `parse_config` over a node none
of whose keys equals a key of the table returns 0 and leaves the whole record,
the flag `modified` included, as it was. -/
theorem unknown_keys_leave_record (C : YamlConverters) (Y : ParserExternals)
    (config : GHashTable ParserTable) (node : yaml_node_t) (network : Network)
    (h : ∀ p ∈ mapping_pairs node, ∀ e ∈ config, e.1 ≠ scalar Y (some p.1)) :
    parse_config C Y config node network = (0, network) ∧
      (parse_config C Y config node network).2.modified = network.modified ∧
      (∀ key, g_hash_table_lookup config key = none ↔ ∀ e ∈ config, e.1 ≠ key) := by
  have hp : parse_config C Y config node network = (0, network) := by
    unfold parse_config
    rw [foldl_parse_config_entry_undispatched C Y config _ network]
    intro p hp
    unfold dispatched
    rw [(g_hash_table_lookup_eq_none_iff config _).2 (h p hp)]
  exact ⟨hp, by rw [hp], g_hash_table_lookup_eq_none_iff config⟩

/-- C34 at the key `Use-DNS`, which differs from the key `use-dns` of the DHCPv4
table in letter case only. -/
theorem unknown_keys_leave_record_witness :
    (parse_config locator_converters example_externals
        (registered parser_dhcp4_overrides_vtable) (scalar_mapping [("Use-DNS", "false")])
        network_new.2 = (0, network_new.2) ∧
      (parse_config locator_converters example_externals
        (registered parser_dhcp4_overrides_vtable) (scalar_mapping [("Use-DNS", "false")])
        network_new.2).2.modified = network_new.2.modified ∧
      (∀ key, g_hash_table_lookup (registered parser_dhcp4_overrides_vtable) key = none ↔
        ∀ e ∈ registered parser_dhcp4_overrides_vtable, e.1 ≠ key)) ∧
    g_hash_table_lookup (registered parser_dhcp4_overrides_vtable) "use-dns" ≠ none ∧
    g_hash_table_lookup (registered parser_dhcp4_overrides_vtable) "Use-DNS" = none :=
  ⟨unknown_keys_leave_record locator_converters example_externals
      (registered parser_dhcp4_overrides_vtable) (scalar_mapping [("Use-DNS", "false")])
      network_new.2 (by
        intro p hp
        simp only [scalar_mapping, mapping_pairs, List.map_cons, List.map_nil,
          List.mem_singleton] at hp
        subst hp
        decide),
    by decide, by decide⟩

/-! ## Keys that are walked as nested subtrees -/

theorem parse_network_entry_status (C : YamlConverters) (Y : ParserExternals)
    (m : YAMLManager) (k : yaml_node_t) (v : Option yaml_node_t)
    (nested : Network → Option (Int × Network)) (network : Network) (r : Int × Network)
    (h : parse_network_entry C Y m k v nested network = some r) : r.1 ≤ 0 := by
  rw [parse_network_entry_performs] at h
  revert h
  generalize dispatch_of_code m (scalar Y (some k)) = d
  unfold perform
  cases d with
  | entry table =>
    simp only
    cases table.parser with
    | none => intro h; cases h; exact Int.le_refl _
    | some parser => intro h; cases h; exact Int.le_refl _
  | nested_section name =>
    simp only
    split
    · intro h; cases h
    · rename_i r1 n1 _
      split_ifs with hr
      · intro h; cases h; exact Int.le_of_lt hr
      · split <;> intro h <;> cases h <;> exact Int.le_refl _
  | nested_interface =>
    simp only
    split
    · intro h; cases h
    · rename_i r1 n1 _
      split_ifs with hr
      · intro h; cases h; exact Int.le_of_lt hr
      · split <;> intro h <;> cases h <;> exact Int.le_refl _

theorem parse_network_pairs_status (C : YamlConverters) (Y : ParserExternals)
    (m : YAMLManager) (pairs : List (yaml_node_t × yaml_node_t)) (network : Network)
    (r : Int × Network) (h : parse_network_pairs C Y m pairs network = some r) : r.1 ≤ 0 := by
  induction pairs generalizing network with
  | nil =>
    rw [parse_network_pairs] at h
    cases h; exact Int.le_refl _
  | cons p pairs ih =>
    obtain ⟨k, v⟩ := p
    rw [parse_network_pairs] at h
    cases he : parse_network_entry C Y m k (some v) (parse_network_config C Y m v) network with
    | none => rw [he] at h; cases h
    | some r1 =>
      rw [he] at h
      simp only at h
      by_cases hr : r1.1 < 0
      · rw [if_pos hr] at h
        cases h; exact Int.le_of_lt hr
      · rw [if_neg hr] at h
        exact ih _ h

theorem parse_network_items_status (C : YamlConverters) (Y : ParserExternals)
    (m : YAMLManager) (n : Nat) : ∀ (items : List yaml_node_t), items.length ≤ n →
    ∀ (network : Network) (r : Int × Network),
      parse_network_items C Y m items network = some r → r.1 ≤ 0 := by
  induction n with
  | zero =>
    intro items hl network r h
    have : items = [] := List.eq_nil_of_length_eq_zero (Nat.le_zero.1 hl)
    subst this
    rw [parse_network_items] at h
    cases h; exact Int.le_refl _
  | succ n ih =>
    intro items hl network r h
    match items, hl, h with
    | [], _, h =>
      rw [parse_network_items] at h
      cases h; exact Int.le_refl _
    | [k], _, h =>
      rw [parse_network_items] at h
      cases he : parse_network_entry C Y m k none (fun _ => none) network with
      | none => rw [he] at h; cases h
      | some r1 =>
        rw [he] at h
        simp only at h
        by_cases hr : r1.1 < 0
        · rw [if_pos hr] at h
          cases h; exact Int.le_of_lt hr
        · rw [if_neg hr] at h
          cases h; exact Int.le_refl _
    | k :: v :: rest, hl, h =>
      rw [parse_network_items] at h
      cases he : parse_network_entry C Y m k (some v) (parse_network_config C Y m v) network with
      | none => rw [he] at h; cases h
      | some r1 =>
        rw [he] at h
        simp only at h
        by_cases hr : r1.1 < 0
        · rw [if_pos hr] at h
          cases h; exact Int.le_of_lt hr
        · rw [if_neg hr] at h
          exact ih rest (by simp only [List.length_cons] at hl; omega) _ r h

theorem parse_network_config_status (C : YamlConverters) (Y : ParserExternals)
    (m : YAMLManager) (node : yaml_node_t) (network : Network) (r : Int × Network)
    (h : parse_network_config C Y m node network = some r) : r.1 ≤ 0 := by
  cases node with
  | scalar value =>
    rw [parse_network_config] at h
    cases h; exact Int.le_refl _
  | sequence items =>
    rw [parse_network_config] at h
    exact parse_network_items_status C Y m _ items (Nat.le_refl _) network r h
  | mapping pairs =>
    rw [parse_network_config] at h
    exact parse_network_pairs_status C Y m pairs network r h

theorem parse_network_entry_unknown (C : YamlConverters) (Y : ParserExternals)
    (m : YAMLManager) (k : yaml_node_t) (v : yaml_node_t)
    (nested : Network → Option (Int × Network)) (network : Network)
    (hk : unknown_key Y m k) :
    parse_network_entry C Y m k (some v) nested network =
      (nested network).map (fun r => (if r.1 < 0 then r.1 else 0, r.2)) := by
  obtain ⟨h1, h2, h3⟩ := hk
  simp only [section_names, List.mem_cons, List.mem_singleton, List.not_mem_nil,
    or_false, not_or] at h2
  obtain ⟨s1, s2, s3, s4, s5, s6, s7⟩ := h2
  unfold parse_network_entry
  simp only [h1, h3, string_equal, beq_iff_eq, s1, s2, s3, s4, s5, s6, s7, if_false]
  cases nested network with
  | none => rfl
  | some r =>
    obtain ⟨r1, n1⟩ := r
    simp only [Option.map_some']
    split_ifs <;> rfl

theorem parse_network_config_unknown_key (C : YamlConverters) (Y : ParserExternals)
    (m : YAMLManager) (k sub : yaml_node_t) (network : Network) (hk : unknown_key Y m k) :
    parse_network_config C Y m (.mapping [(k, sub)]) network =
      parse_network_config C Y m sub network := by
  rw [parse_network_config, parse_network_pairs, parse_network_entry_unknown C Y m k sub _ _ hk]
  cases hs : parse_network_config C Y m sub network with
  | none => rfl
  | some r =>
    have hle := parse_network_config_status C Y m sub network r hs
    obtain ⟨r1, n1⟩ := r
    simp only [Option.map_some']
    by_cases hr : r1 < 0
    · simp only [hr, if_true]
    · have h0 : r1 = 0 := by
        have : r1 ≤ 0 := hle
        omega
      subst h0
      simp only [hr, if_false, parse_network_pairs]

/-- C36: a key that has no entry in the network table, is no section name and has
no entry in the link table is walked as a nested subtree with the same record:
walking the mapping with that single key gives the result of walking its value
directly, the return value and the record alike, for every value node; so the
same holds under any number of such keys, and a key of the network table under
them is applied to the record. -/
theorem unknown_key_walks_value (C : YamlConverters) (Y : ParserExternals) (m : YAMLManager)
    (keys : List yaml_node_t) (sub : yaml_node_t) (network : Network)
    (h : ∀ k ∈ keys, unknown_key Y m k) :
    parse_network_config C Y m (nested_under keys sub) network =
        parse_network_config C Y m sub network ∧
      (∀ k ∈ keys, parse_network_config C Y m (.mapping [(k, sub)]) network =
        parse_network_config C Y m sub network) := by
  refine ⟨?_, fun k hk => parse_network_config_unknown_key C Y m k sub network (h k hk)⟩
  induction keys with
  | nil => rfl
  | cons k keys ih =>
    show parse_network_config C Y m (.mapping [(k, nested_under keys sub)]) network = _
    rw [parse_network_config_unknown_key C Y m k _ network (h k (List.mem_cons_self _ _))]
    exact ih (fun q hq => h q (List.mem_cons_of_mem _ hq))

/-- C36 at the key `lldp` of the network table under the two keys `vendor` and
`extra`, which the walk knows in no way: the converter of `lldp` is applied to
the record. -/
theorem unknown_key_walks_value_witness :
    (parse_network_config locator_converters example_externals (yaml_manager [])
        (nested_under [.scalar "vendor", .scalar "extra"] (scalar_mapping [("lldp", "yes")]))
        (interface_record "eth0") =
      parse_network_config locator_converters example_externals (yaml_manager [])
        (scalar_mapping [("lldp", "yes")]) (interface_record "eth0") ∧
      (∀ k ∈ [yaml_node_t.scalar "vendor", yaml_node_t.scalar "extra"],
        parse_network_config locator_converters example_externals (yaml_manager [])
          (.mapping [(k, scalar_mapping [("lldp", "yes")])]) (interface_record "eth0") =
        parse_network_config locator_converters example_externals (yaml_manager [])
          (scalar_mapping [("lldp", "yes")]) (interface_record "eth0"))) ∧
    (parse_network_config locator_converters example_externals (yaml_manager [])
        (scalar_mapping [("lldp", "yes")]) (interface_record "eth0")).map
      (fun r => (r.1, r.2.lldp, r.2.modified)) = some (0, 1, true) ∧
    (interface_record "eth0").lldp = -1 :=
  ⟨unknown_key_walks_value locator_converters example_externals (yaml_manager [])
      [.scalar "vendor", .scalar "extra"] (scalar_mapping [("lldp", "yes")])
      (interface_record "eth0") (by
        intro k hk
        simp only [List.mem_cons, List.mem_singleton, List.not_mem_nil, or_false] at hk
        rcases hk with rfl | rfl
        · exact ⟨by decide, by decide, by decide⟩
        · exact ⟨by decide, by decide, by decide⟩),
    by decide, by decide⟩

/-! ## Scenario C -/

theorem scenario_c_walk (C : YamlConverters) (Y : ParserExternals)
    (link_config : GHashTable ParserTable) (network : Network)
    (hl : g_hash_table_lookup link_config "dhcp4-overrides" = none) :
    parse_network_config C Y (yaml_manager link_config) dhcp4_overrides_subtree network =
      some (0, scenario_c_written C network) := by
  have h1 : g_hash_table_lookup (registered parser_network_vtable) "dhcp4-overrides" = none := by
    decide
  have h2 : g_hash_table_lookup (registered parser_dhcp4_overrides_vtable) "use-dns" =
      some ⟨"use-dns", CONF_TYPE_NETWORK, some "parse_yaml_bool", "Network.dhcp4_use_dns"⟩ := by
    decide
  have h3 : g_hash_table_lookup (registered parser_dhcp4_overrides_vtable) "use-mtu" =
      some ⟨"use-mtu", CONF_TYPE_NETWORK, some "parse_yaml_bool", "Network.dhcp4_use_mtu"⟩ := by
    decide
  have hs : ∀ s : String, scalar Y (some (.scalar s)) = s := fun _ => rfl
  have hc : parse_config C Y (registered parser_dhcp4_overrides_vtable)
      (scalar_mapping [("use-dns", "false"), ("use-mtu", "true")]) network =
      (0, scenario_c_written C network) := by
    simp only [parse_config, scalar_mapping, mapping_pairs, List.map_cons, List.map_nil,
      List.foldl_cons, List.foldl_nil, parse_config_entry, hs, h2, h3]
    rfl
  rw [dhcp4_overrides_subtree, parse_network_config, parse_network_pairs]
  have he : parse_network_entry C Y (yaml_manager link_config) (.scalar "dhcp4-overrides")
      (some (scalar_mapping [("use-dns", "false"), ("use-mtu", "true")]))
      (parse_network_config C Y (yaml_manager link_config)
        (scalar_mapping [("use-dns", "false"), ("use-mtu", "true")])) network =
      some (0, scenario_c_written C network) := by
    unfold parse_network_entry
    simp only [hs]
    have h1b : g_hash_table_lookup (yaml_manager link_config).network_config
        "dhcp4-overrides" = none := h1
    have hlb : g_hash_table_lookup (yaml_manager link_config).link_config
        "dhcp4-overrides" = none := hl
    have hm : string_equal "dhcp4-overrides" "match" = false := by decide
    have hd : string_equal "dhcp4-overrides" "dhcp4-overrides" = true := by decide
    have hcb : parse_config C Y (yaml_manager link_config).dhcp4_config
      (scalar_mapping [("use-dns", "false"), ("use-mtu", "true")]) network =
      (0, scenario_c_written C network) := hc
    simp only [h1b, hlb, hm, hd, hcb, if_true, if_false, Bool.false_eq_true]
    rfl
  rw [he]
  rfl

theorem scenario_c_locator :
    scenario_c_written locator_converters (interface_record "eth0") = scenario_c_record := by
  have h1 : parse_boolean (some "false") = 0 := by decide
  have h2 : parse_boolean (some "true") = 1 := by decide
  simp [scenario_c_written, locator_converters, h1, h2, scenario_c_record]

theorem scenario_c_serialized (X : Externals) :
    generate_network_config X scenario_c_record =
      (0, "[Match]\nName=eth0\n\n[Network]\n\n[DHCP]\nUseDNS=no\nUseMTU=yes\n") := by
  simp [generate_network_config, generate_match, generate_link, generate_network,
    generate_dhcp, generate_addresses, generate_gateway, generate_routes, scenario_c_record,
    interface_record, network_new, g_string_append, set_size, set_foreach, fmt_s,
    dhcp_modes_to_name, table_to_name, dhcp_modes, bool_to_string]

/-- C31: the walk of the interface subtree `dhcp4-overrides: {use-dns: false,
use-mtu: true}` calls, for any converters, `parse_yaml_bool` for `use-dns` with
the locator of `dhcp4_use_dns` and for `use-mtu` with the locator of
`dhcp4_use_mtu`, and returns 0; with the converters as the specification
describes them the record of `eth0` then has `use_dns` 0, `use_mtu` 1 and
`use_domains` unset, and `generate_network_config` writes for it a DHCP section
that holds exactly the lines `UseDNS=no` and `UseMTU=yes` and no `UseDomains=`
line. -/
theorem scenario_c_output (X : Externals) (Y : ParserExternals) :
    (∀ (C : YamlConverters) (link_config : GHashTable ParserTable) (network : Network),
      g_hash_table_lookup link_config "dhcp4-overrides" = none →
      parse_network_config C Y (yaml_manager link_config) dhcp4_overrides_subtree network =
        some (0, scenario_c_written C network)) ∧
    parse_network_config locator_converters Y (yaml_manager []) dhcp4_overrides_subtree
      (interface_record "eth0") = some (0, scenario_c_record) ∧
    (scenario_c_record.use_dns = 0 ∧ scenario_c_record.use_mtu = 1 ∧
      scenario_c_record.use_domains = -1) ∧
    generate_network_config X scenario_c_record =
      (0, "[Match]\nName=eth0\n\n[Network]\n\n[DHCP]\nUseDNS=no\nUseMTU=yes\n") ∧
    dhcp_section scenario_c_record = "\n[DHCP]\nUseDNS=no\nUseMTU=yes\n" ∧
    tri_line "UseDomains" scenario_c_record.use_domains = "" ∧
    (parse_network_config locator_converters Y (yaml_manager []) dhcp4_overrides_subtree
      (interface_record "eth0")).map (fun r => generate_network_config X r.2) =
      some (0, "[Match]\nName=eth0\n\n[Network]\n\n[DHCP]\nUseDNS=no\nUseMTU=yes\n") := by
  have hw : parse_network_config locator_converters Y (yaml_manager []) dhcp4_overrides_subtree
      (interface_record "eth0") = some (0, scenario_c_record) := by
    rw [scenario_c_walk locator_converters Y [] (interface_record "eth0") rfl,
      scenario_c_locator]
  refine ⟨fun C link_config network hl => scenario_c_walk C Y link_config network hl, hw,
    ⟨rfl, rfl, rfl⟩, scenario_c_serialized X, by decide, by decide, ?_⟩
  rw [hw, Option.map_some', scenario_c_serialized X]

end NCM
